import Mathlib

/-!
# lazygit gui core: keybindings, files panel, custom commands

A shallow embedding of `pkg/gui/keybindings.go`, `pkg/gui/files_panel.go` and
`pkg/gui/custom_commands.go`, with theorems about the key codec, the
custom-command bindings, the selection-stable refresh of the files panel,
the push handlers and the prompt chain of custom commands.

Conventions of the embedding:

* Go strings are `String`; `utf8.RuneCountInString` is `String.length`.
* `log.Fatal`/`log.Fatalf` end the process: functions that can reach them
  return `Except FatalError _`.
* A run-time panic ends a handler: functions that can panic return
  `Except String _`, or end their run with the call `goPanic`.
* Collaborators that live outside the three files (configuration, the
  standard library, the git commands, the modal primitives) are fields of a
  record of collaborators; theorems quantify over every value of the record.
* A definition whose comment starts with `Modelled from the spec:` stands
  for a helper of the repository that is not in the three files.
-/

namespace Lazygit

/-! ## Definitions -/

/-! ### Key identifiers (`gocui.Key | rune`) -/

namespace gocui

/-- The constants of type `gocui.Key` that `keybindings.go` names. The
constructors are the names of the constants; their numeric values belong to
the gocui library. -/
inductive Key where
  | KeyF1 | KeyF2 | KeyF3 | KeyF4 | KeyF5 | KeyF6
  | KeyF7 | KeyF8 | KeyF9 | KeyF10 | KeyF11 | KeyF12
  | KeyInsert | KeyDelete | KeyHome | KeyEnd | KeyPgup | KeyPgdn
  | KeyArrowUp | KeyArrowDown | KeyArrowLeft | KeyArrowRight
  | KeyTab | KeyEnter | KeyEsc | KeyBackspace | KeySpace
  | KeyCtrlSpace | KeyCtrlSlash | KeyCtrlTilde | KeyCtrlBackslash
  | KeyCtrlLsqBracket | KeyCtrlRsqBracket | KeyCtrlUnderscore
  | KeyCtrlA | KeyCtrlB | KeyCtrlC | KeyCtrlD | KeyCtrlE | KeyCtrlF
  | KeyCtrlG | KeyCtrlH | KeyCtrlI | KeyCtrlJ | KeyCtrlK | KeyCtrlL
  | KeyCtrlM | KeyCtrlN | KeyCtrlO | KeyCtrlP | KeyCtrlQ | KeyCtrlR
  | KeyCtrlS | KeyCtrlT | KeyCtrlU | KeyCtrlV | KeyCtrlW | KeyCtrlX
  | KeyCtrlY | KeyCtrlZ
  | KeyCtrl2 | KeyCtrl3 | KeyCtrl4 | KeyCtrl5 | KeyCtrl6 | KeyCtrl7 | KeyCtrl8
  | MouseLeft | MouseMiddle | MouseWheelUp | MouseWheelDown
  deriving DecidableEq

/-- The type `gocui.Modifier`. -/
inductive Modifier where
  | ModNone
  | ModAlt
  | ModMotion
  deriving DecidableEq

end gocui

/-- The field `Binding.Key`, an `interface{}` that holds a rune or a
`gocui.Key`. -/
inductive KeyId where
  | rune (r : Char)
  | key (k : gocui.Key)
  deriving DecidableEq

/-- The calls of `log.Fatal` and `log.Fatalf` in the three files. -/
inductive FatalError where
  /-- `Unrecognized key %s for keybinding %s` (getKey). -/
  | unrecognizedKey (key name : String)
  /-- `Key empty for keybinding: ` (getKey). -/
  | keyEmpty (name : String)
  /-- `Error parsing custom command keybindings: %v` (UnmarshalKey failed). -/
  | customCommandsUnparsable (err : String)
  /-- `context not provided (use context: 'global' for the global context)`. -/
  | contextNotProvided (key command : String)
  /-- `unknown context: %s`. -/
  | unknownContext (context key command : String)
  deriving DecidableEq

/-- The table `keymap` of keybindings.go. -/
def keymap : List (String × KeyId) :=
  [ ("<c-a>", .key .KeyCtrlA),
    ("<c-b>", .key .KeyCtrlB),
    ("<c-c>", .key .KeyCtrlC),
    ("<c-d>", .key .KeyCtrlD),
    ("<c-e>", .key .KeyCtrlE),
    ("<c-f>", .key .KeyCtrlF),
    ("<c-g>", .key .KeyCtrlG),
    ("<c-h>", .key .KeyCtrlH),
    ("<c-i>", .key .KeyCtrlI),
    ("<c-j>", .key .KeyCtrlJ),
    ("<c-k>", .key .KeyCtrlK),
    ("<c-l>", .key .KeyCtrlL),
    ("<c-m>", .key .KeyCtrlM),
    ("<c-n>", .key .KeyCtrlN),
    ("<c-o>", .key .KeyCtrlO),
    ("<c-p>", .key .KeyCtrlP),
    ("<c-q>", .key .KeyCtrlQ),
    ("<c-r>", .key .KeyCtrlR),
    ("<c-s>", .key .KeyCtrlS),
    ("<c-t>", .key .KeyCtrlT),
    ("<c-u>", .key .KeyCtrlU),
    ("<c-v>", .key .KeyCtrlV),
    ("<c-w>", .key .KeyCtrlW),
    ("<c-x>", .key .KeyCtrlX),
    ("<c-y>", .key .KeyCtrlY),
    ("<c-z>", .key .KeyCtrlZ),
    ("<c-~>", .key .KeyCtrlTilde),
    ("<c-2>", .key .KeyCtrl2),
    ("<c-3>", .key .KeyCtrl3),
    ("<c-4>", .key .KeyCtrl4),
    ("<c-5>", .key .KeyCtrl5),
    ("<c-6>", .key .KeyCtrl6),
    ("<c-7>", .key .KeyCtrl7),
    ("<c-8>", .key .KeyCtrl8),
    ("<c-space>", .key .KeyCtrlSpace),
    ("<c-\\>", .key .KeyCtrlBackslash),
    ("<c-[>", .key .KeyCtrlLsqBracket),
    ("<c-]>", .key .KeyCtrlRsqBracket),
    ("<c-/>", .key .KeyCtrlSlash),
    ("<c-_>", .key .KeyCtrlUnderscore),
    ("<backspace>", .key .KeyBackspace),
    ("<tab>", .key .KeyTab),
    ("<enter>", .key .KeyEnter),
    ("<esc>", .key .KeyEsc),
    ("<space>", .key .KeySpace),
    ("<f1>", .key .KeyF1),
    ("<f2>", .key .KeyF2),
    ("<f3>", .key .KeyF3),
    ("<f4>", .key .KeyF4),
    ("<f5>", .key .KeyF5),
    ("<f6>", .key .KeyF6),
    ("<f7>", .key .KeyF7),
    ("<f8>", .key .KeyF8),
    ("<f9>", .key .KeyF9),
    ("<f10>", .key .KeyF10),
    ("<f11>", .key .KeyF11),
    ("<f12>", .key .KeyF12),
    ("<insert>", .key .KeyInsert),
    ("<delete>", .key .KeyDelete),
    ("<home>", .key .KeyHome),
    ("<end>", .key .KeyEnd),
    ("<pgup>", .key .KeyPgup),
    ("<pgdown>", .key .KeyPgdn),
    ("<up>", .key .KeyArrowUp),
    ("<down>", .key .KeyArrowDown),
    ("<left>", .key .KeyArrowLeft),
    ("<right>", .key .KeyArrowRight) ]

/-- The configuration and standard-library calls that `getKey` makes. -/
structure KeyConfig where
  /-- The call `gui.Config.GetUserConfig().GetString`; an absent key gives
  the empty string. -/
  GetString : String → String
  /-- The function `strings.ToLower`. -/
  ToLower : String → String

/-- The method `getKey` of keybindings.go: the key identifier of a keybinding
name, or the fatal error that stops the process. -/
def getKey (cfg : KeyConfig) (name : String) : Except FatalError KeyId :=
  let key := cfg.GetString ("keybinding." ++ name)
  -- if we don't have the keybinding in our local config we'll assume it's
  -- just a plain letter from a custom command
  let key := if key == "" then name else key
  let runeCount := key.length
  if runeCount > 1 then
    match keymap.lookup (cfg.ToLower key) with
    | none => .error (.unrecognizedKey (cfg.ToLower key) name)
    | some binding => .ok binding
  else if runeCount == 1 then
    .ok (.rune (key.get 0))
  else
    .error (.keyEmpty (cfg.ToLower name))

/-- The key string that `getKey` works on: the configured string for
`keybinding.<name>` or, when that is empty, the name itself. -/
def keyString (cfg : KeyConfig) (name : String) : String :=
  if cfg.GetString ("keybinding." ++ name) = "" then name
  else cfg.GetString ("keybinding." ++ name)

/-- The names of the table `keymap`. -/
def keymapNames : List String := keymap.map Prod.fst

/-- Lower-casing of the ASCII letters of a string, rune by rune. -/
def asciiToLower (s : String) : String := ⟨s.data.map Char.toLower⟩

/-- A configuration without overrides and with ASCII lower-casing, for
concrete evaluations. -/
def plainKeyConfig : KeyConfig where
  GetString := fun _ => ""
  ToLower := asciiToLower

/-! ### Custom commands and bindings -/

/-- The struct `CustomCommandMenuOption` of custom_commands.go. -/
structure CustomCommandMenuOption where
  Name : String
  Description : String
  Value : String
  deriving DecidableEq

/-- The struct `CustomCommandPrompt`; the field `PromptType` is the Go field
`Type`, one of 'input' and 'menu'. -/
structure CustomCommandPrompt where
  PromptType : String
  Title : String
  /-- this only apply to prompts -/
  InitialValue : String
  /-- this only applies to menus -/
  Options : List CustomCommandMenuOption
  deriving DecidableEq

/-- The struct `CustomCommand`. -/
structure CustomCommand where
  Key : String
  Context : String
  Command : String
  Subprocess : Bool
  Prompts : List CustomCommandPrompt
  LoadingText : String
  Description : String
  deriving DecidableEq

/-- The handler of a binding, by the expression that builds it. -/
inductive Handler where
  /-- `gui.wrappedHandler(gui.handleCustomCommandKeybinding(customCommand))` -/
  | customCommand (customCommand : CustomCommand)
  /-- a method of `Gui`, by its name -/
  | method (name : String)
  /-- `gui.wrappedHandler(gui.<name>)` -/
  | wrappedHandler (name : String)
  /-- `gui.goToSideWindow(window)` -/
  | goToSideWindow (window : String)
  deriving DecidableEq

/-- The struct `Binding` of keybindings.go. -/
structure Binding where
  ViewName : String
  Contexts : List String
  Handler : Handler
  Key : KeyId
  Modifier : gocui.Modifier
  Description : String
  Alternative : String
  deriving DecidableEq

/-- What `GetCustomCommandKeybindings` uses of a context: its view. -/
structure Context where
  GetViewName : String
  deriving DecidableEq

/-- The collaborators of `GetCustomCommandKeybindings`. -/
structure BindingConfig extends KeyConfig where
  /-- The result of `UnmarshalKey("customCommands", &customCommands)`: the
  list of custom commands, or the error of the parser. -/
  customCommands : Except String (List CustomCommand)
  /-- The method `gui.contextForContextKey`; `none` is `ok == false`. -/
  contextForContextKey : String → Option Context

/-- The body of the loop of `GetCustomCommandKeybindings`: the binding of one
custom command. -/
def customCommandBinding (gui : BindingConfig) (customCommand : CustomCommand) :
    Except FatalError Binding :=
  let scope : Except FatalError (String × List String) :=
    if customCommand.Context = "global" then
      .ok ("", [])
    else if customCommand.Context = "" then
      .error (.contextNotProvided customCommand.Key customCommand.Command)
    else
      match gui.contextForContextKey customCommand.Context with
      | none =>
        .error (.unknownContext customCommand.Context customCommand.Key customCommand.Command)
      | some context =>
        -- here we assume that a given context will always belong to the same view.
        .ok (context.GetViewName, [customCommand.Context])
  match scope with
  | .error e => .error e
  | .ok (viewName, contexts) =>
    let description :=
      if customCommand.Description = "" then customCommand.Command
      else customCommand.Description
    match getKey gui.toKeyConfig customCommand.Key with
    | .error e => .error e
    | .ok key =>
      .ok { ViewName := viewName
            Contexts := contexts
            Key := key
            Modifier := .ModNone
            Handler := .customCommand customCommand
            Description := description
            Alternative := "" }

/-- The loop `for _, customCommand := range customCommands` with its
accumulator `bindings`. -/
def appendCustomCommandBindings (gui : BindingConfig) :
    List CustomCommand → List Binding → Except FatalError (List Binding)
  | [], bindings => .ok bindings
  | customCommand :: rest, bindings =>
    match customCommandBinding gui customCommand with
    | .error e => .error e
    | .ok binding => appendCustomCommandBindings gui rest (bindings ++ [binding])

/-- The method `GetCustomCommandKeybindings` of custom_commands.go. -/
def GetCustomCommandKeybindings (gui : BindingConfig) : Except FatalError (List Binding) :=
  match gui.customCommands with
  | .error err => .error (.customCommandsUnparsable err)
  | .ok customCommands => appendCustomCommandBindings gui customCommands []

/-- The fatal errors about the context of a custom command. -/
def FatalError.isContextError : FatalError → Bool
  | .contextNotProvided _ _ => true
  | .unknownContext _ _ _ => true
  | _ => false

/-- A custom command whose context is rejected: it is empty, or it is not
'global' and not a known context key. -/
def badContext (gui : BindingConfig) (c : CustomCommand) : Prop :=
  c.Context = "" ∨ (c.Context ≠ "global" ∧ gui.contextForContextKey c.Context = none)

/-- A configuration with two custom commands: the first has the global
context and an empty key, the second has no context. -/
def keylessThenContextless : BindingConfig where
  GetString := fun _ => ""
  ToLower := asciiToLower
  contextForContextKey := fun _ => none
  customCommands := .ok
    [ { Key := "", Context := "global", Command := "git fetch", Subprocess := false,
        Prompts := [], LoadingText := "", Description := "" },
      { Key := "a", Context := "", Command := "git status", Subprocess := false,
        Prompts := [], LoadingText := "", Description := "" } ]

/-! ### Files panel: selection and refresh -/

/-- The fields of `models.File` that files_panel.go reads. -/
structure File where
  Name : String
  HasStagedChanges : Bool
  HasUnstagedChanges : Bool
  Tracked : Bool
  HasMergeConflicts : Bool
  HasInlineMergeConflicts : Bool
  deriving DecidableEq

/-- The part of `gui.State` that the files panel owns: `State.Files` and
`State.Panels.Files.SelectedLineIdx`. -/
structure FilesPanelState where
  Files : List File
  SelectedLineIdx : Int
  deriving DecidableEq

/-- The method `getSelectedFile` of files_panel.go. The result `none` is the
nil pointer; the error is the run-time panic of `gui.State.Files[selectedLine]`
on an index out of range. -/
def getSelectedFile (s : FilesPanelState) : Except String (Option File) :=
  let selectedLine := s.SelectedLineIdx
  if selectedLine = -1 then
    .ok none
  else if selectedLine < 0 then
    .error "index out of range"
  else
    match s.Files[selectedLine.toNat]? with
    | some file => .ok (some file)
    | none => .error "index out of range"

/-- Modelled from the spec: the helper `refreshSelectedLine` is not in the
three files; this is its new selected index for the old index `line` and a
collection of `total` items. The spec asks for an index that is -1 exactly on
an empty collection and otherwise clamped to the nearest valid index, never
negative unless the collection is empty. -/
def refreshSelectedLine (line : Int) (total : Nat) : Int :=
  if total = 0 then -1
  else if line < 0 then 0
  else if (total : Int) - 1 < line then (total : Int) - 1
  else line

/-- The collaborators of `refreshStateFiles`. -/
structure FilesCollaborators where
  /-- The result of `gui.GitCommand.GetStatusFiles`. -/
  GetStatusFiles : List File
  /-- The method `gui.GitCommand.MergeStatusFiles`. -/
  MergeStatusFiles : List File → List File → Option File → List File
  /-- The error, if any, of `gui.fileWatcher.addFilesToFileWatcher`. -/
  addFilesToFileWatcher : List File → Option String
  /-- The method `models.File.Matches`: comparison by natural key. -/
  Matches : File → File → Bool

/-- The loop of `refreshStateFiles` that looks for the selected file: the
first index `idx`, counted from `idx0`, whose file matches `selectedFile` and
differs from `prevSelectedLineIdx`. -/
def findMovedFile (git : FilesCollaborators) (selectedFile : File)
    (prevSelectedLineIdx : Int) : List File → Nat → Option Nat
  | [], _ => none
  | f :: rest, idx =>
    let selectedFileHasMoved := git.Matches f selectedFile && decide ((idx : Int) ≠ prevSelectedLineIdx)
    if selectedFileHasMoved then some idx
    else findMovedFile git selectedFile prevSelectedLineIdx rest (idx + 1)

/-- The method `refreshStateFiles` of files_panel.go: the new panel state
together with the returned error; the outer error is a panic. -/
def refreshStateFiles (git : FilesCollaborators) (s : FilesPanelState) :
    Except String (FilesPanelState × Option String) :=
  -- keep track of where the cursor is currently and the current file names
  match getSelectedFile s with
  | .error msg => .error msg
  | .ok selectedFile =>
    let prevSelectedLineIdx := s.SelectedLineIdx
    -- get files to stage
    let files := git.GetStatusFiles
    let s1 : FilesPanelState :=
      { s with Files := git.MergeStatusFiles s.Files files selectedFile }
    match git.addFilesToFileWatcher files with
    | some err => .ok (s1, some err)
    | none =>
      -- let's try to find our file again and move the cursor to that
      let s2 : FilesPanelState :=
        match selectedFile with
        | none => s1
        | some selected =>
          match findMovedFile git selected prevSelectedLineIdx s1.Files 0 with
          | some idx => { s1 with SelectedLineIdx := (idx : Int) }
          | none => s1
      .ok ({ s2 with SelectedLineIdx := refreshSelectedLine s2.SelectedLineIdx s2.Files.length },
           none)

/-- A file with the given name and staged flag, for concrete evaluations. -/
def fileNamed (name : String) (staged : Bool) : File where
  Name := name
  HasStagedChanges := staged
  HasUnstagedChanges := true
  Tracked := true
  HasMergeConflicts := false
  HasInlineMergeConflicts := false

/-- Collaborators for concrete evaluations: the fresh status is `[X, A, B']`,
the merge takes the fresh list, files match by name, and the file watcher
returns the given error. -/
def statusXAB (watcherError : Option String) : FilesCollaborators where
  GetStatusFiles := [fileNamed "x" false, fileNamed "a" false, fileNamed "b" true]
  MergeStatusFiles := fun _ files _ => files
  addFilesToFileWatcher := fun _ => watcherError
  Matches := fun f g => f.Name == g.Name

/-- The panel `[A, B, C]` with the selection on `B`. -/
def panelABC : FilesPanelState where
  Files := [fileNamed "a" false, fileNamed "b" false, fileNamed "c" false]
  SelectedLineIdx := 1

/-! ### Handlers as interaction trees

A handler runs until it returns; when it has opened a modal, the callbacks it
handed to the modal run later, when the user answers. A `Run` is the list of
the calls a handler made to its collaborators until it returned, in program
order, together with the callbacks left with the modal it opened. The body of
a goroutine or of a background task is listed after the calls that precede
its start. -/

/-- The observable calls of the handlers of files_panel.go and
custom_commands.go. -/
inductive Event where
  /-- `gui.createLoaderPanel(v, text)` -/
  | createLoaderPanel (v : String) (text : String)
  /-- `gui.GitCommand.Push(branchName, force, upstream, args, ...)` -/
  | push (branchName : String) (force : Bool) (upstream : String) (args : String)
  /-- `gui.createErrorPanel(message)` -/
  | createErrorPanel (message : String)
  /-- `gui.surfaceError(err)` -/
  | surfaceError (err : String)
  /-- `gui.ask(askOpts{title, prompt, handleConfirm})` -/
  | ask (title : String) (prompt : String)
  /-- `gui.prompt(title, initialValue, handleConfirm)` -/
  | prompt (title : String) (initialValue : String)
  /-- `gui.createMenu(title, menuItems, createMenuOptions{showCancel: true})`,
  with the display strings of the items -/
  | createMenu (title : String) (displayStrings : List (List String))
  /-- `gui.refreshSidePanels(...)` -/
  | refreshSidePanels
  /-- `gui.resolveTemplate(templateStr, promptResponses)` -/
  | resolveTemplate (templateStr : String) (promptResponses : List String)
  /-- entry of `gui.PrepareSubProcess(command)` -/
  | prepareSubProcess (command : String)
  /-- `gui.OSCommand.PrepareSubProcess(cmdName, commandArgs...)` -/
  | osPrepareSubProcess (cmdName : String) (commandArgs : List String)
  /-- `gui.g.Update` with a function that returns `gui.Errors.ErrSubProcess` -/
  | updateErrSubProcess
  /-- `gui.WithWaitingStatus(loadingText, f)` -/
  | withWaitingStatus (loadingText : String)
  /-- `gui.OSCommand.RunCommand(cmdStr)` -/
  | runCommand (cmdStr : String)
  /-- a run-time panic -/
  | goPanic (msg : String)
  /-- `gui.State.FetchMutex.Lock()`, which waits while the mutex is held -/
  | lockFetchMutex
  /-- `gui.State.FetchMutex.Unlock()` -/
  | unlockFetchMutex
  /-- `gui.GitCommand.Fetch(commands.FetchOptions{RemoteName, BranchName, ...})` -/
  | fetch (remoteName : String) (branchName : String)
  /-- `gui.GitCommand.RebaseBranch(branchName)` -/
  | rebaseBranch (branchName : String)
  /-- `gui.GitCommand.Merge(branchName, commands.MergeOpts{FastForwardOnly})` -/
  | merge (branchName : String) (fastForwardOnly : Bool)
  /-- `gui.handleGenericMergeCommandResult(err)` -/
  | handleGenericMergeCommandResult (err : Option String)
  /-- `gui.State.RefreshingFilesMutex.Lock()`, which waits while the mutex is
  held -/
  | lockRefreshingFilesMutex
  /-- `gui.State.RefreshingFilesMutex.Unlock()` -/
  | unlockRefreshingFilesMutex
  /-- the assignment `gui.State.IsRefreshingFiles = value` -/
  | setIsRefreshingFiles (value : Bool)
  /-- `gui.refreshStateSubmoduleConfigs()` -/
  | refreshStateSubmoduleConfigs
  /-- `gui.refreshStateFiles()`, which fetches the file list -/
  | refreshStateFiles
  /-- `gui.g.Update` with the function that renders the files context -/
  | updateFilesRender
  /-- `gui.GitCommand.StageAll()` -/
  | stageAll
  /-- `gui.renderString(viewName, s)` -/
  | renderString (viewName : String) (s : String)
  /-- `commitMessageView.SetCursor(x, 0)` -/
  | setCursor (x : Nat)
  /-- `gui.g.Update` with the function that switches to the commit-message
  context -/
  | updateSwitchToCommitMessage
  /-- `gui.runSyncOrAsyncCommand(sub, err)` for a command -/
  | runSyncOrAsyncCommand (command : String)
  /-- the bound of the model on the number of retries is reached -/
  | retryBound
  deriving DecidableEq

/-- The run of a handler: the calls it made, and the continuation it left
with the modal it opened, if any. -/
inductive Run where
  /-- the handler returned and no modal is open -/
  | done (events : List Event) : Run
  /-- an input prompt is open (`gui.prompt`) -/
  | awaitInput (events : List Event) (handleConfirm : String → Run) : Run
  /-- a menu is open (`gui.createMenu`), with the `onPress` of each item -/
  | awaitMenu (events : List Event) (onPress : List Run) : Run
  /-- a confirmation is open (`gui.ask`) -/
  | awaitConfirm (events : List Event) (handleConfirm : Run) : Run

/-- The calls made until the handler returned. -/
def Run.events : Run → List Event
  | .done events => events
  | .awaitInput events _ => events
  | .awaitMenu events _ => events
  | .awaitConfirm events _ => events

/-- Whether a modal is open when the handler has returned. -/
def Run.isDone : Run → Bool
  | .done _ => true
  | _ => false

/-- What the user does with an open modal. -/
inductive Answer where
  /-- confirm an input prompt with a string -/
  | confirm (str : String)
  /-- press the item of a menu at an index -/
  | press (i : Nat)
  /-- confirm a confirmation -/
  | yes
  deriving DecidableEq

/-- The run of the callback that an answer starts; `none` when no modal is
open or the answer is of the wrong kind. -/
def Run.answer : Run → Answer → Option Run
  | .awaitInput _ handleConfirm, .confirm str => some (handleConfirm str)
  | .awaitMenu _ onPress, .press i => onPress[i]?
  | .awaitConfirm _ handleConfirm, .yes => some handleConfirm
  | _, _ => none

/-- The run reached after a sequence of answers. -/
def Run.after : Run → List Answer → Option Run
  | r, [] => some r
  | r, a :: rest =>
    match r.answer a with
    | none => none
    | some next => next.after rest

/-- All the calls made along a sequence of answers, in order. -/
def Run.trace : Run → List Answer → List Event
  | r, [] => r.events
  | r, a :: rest =>
    match r.answer a with
    | none => r.events
    | some next => r.events ++ next.trace rest

/-! ### Push -/

/-- The fields of `models.Branch` that files_panel.go reads. -/
structure Branch where
  Name : String
  Pullables : String
  deriving DecidableEq

/-- The fields of a branch of the repository configuration that `pushFiles`
reads. -/
structure BranchConfig where
  Remote : String
  Name : String
  deriving DecidableEq

/-- The collaborators of `pushWithForceFlag` and `pushFiles`. -/
structure PushCollaborators where
  /-- `gui.Tr.SLocalize` -/
  Tr : String → String
  /-- `gui.Config.GetUserConfig().GetBool` -/
  GetBool : String → Bool
  /-- `strings.Contains` -/
  Contains : String → String → Bool
  /-- the error, if any, of `gui.createLoaderPanel(v, text)` -/
  createLoaderPanel : String → String → Option String
  /-- `gui.getCheckedOutBranch()`; `none` is the nil pointer -/
  getCheckedOutBranch : Option Branch
  /-- `gui.currentBranch()`; `none` is the nil pointer -/
  currentBranch : Option Branch
  /-- the error, if any, of `gui.GitCommand.Push(branchName, force, upstream, args, ...)` -/
  Push : String → Bool → String → String → Option String
  /-- `gui.popupPanelFocused()` -/
  popupPanelFocused : Bool
  /-- `gui.GitCommand.Repo.Config()`: the branches of the configuration, by
  name, or an error -/
  RepoConfig : Except String (List (String × BranchConfig))
  /-- `gui.GitCommand.PushToCurrent` -/
  PushToCurrent : Bool

/-- Modelled from the spec: the helper `handleCredentialsPopup` is not in the
three files. The spec has a network operation failure displayed as a non-fatal
error panel, and a rejection after forcing is a terminal error; so an error
raises an error panel and no error raises nothing. -/
def handleCredentialsPopup (err : Option String) : List Event :=
  match err with
  | none => []
  | some msg => [.createErrorPanel msg]

/-- The test `err != nil && strings.Contains(err.Error(), substr)`. -/
def errorContains (gui : PushCollaborators) (err : Option String) (substr : String) : Bool :=
  match err with
  | none => false
  | some msg => gui.Contains msg substr

/-- The method `pushWithForceFlag` of files_panel.go. -/
def pushWithForceFlag (gui : PushCollaborators) (v : String) (force : Bool)
    (upstream args : String) : Run :=
  match gui.createLoaderPanel v (gui.Tr "PushWait") with
  | some _ => .done [.createLoaderPanel v (gui.Tr "PushWait")]
  | none =>
    -- go func()
    match gui.getCheckedOutBranch with
    | none => .done [.createLoaderPanel v (gui.Tr "PushWait"), .goPanic "nil pointer dereference"]
    | some branch =>
      let branchName := branch.Name
      let err := gui.Push branchName force upstream args
      let pre : List Event :=
        [.createLoaderPanel v (gui.Tr "PushWait"), .push branchName force upstream args]
      if h : errorContains gui err "Updates were rejected" = true ∧ force = false then
        let forcePushDisabled := gui.GetBool "git.disableForcePushing"
        if forcePushDisabled then
          .done (pre ++ [.createErrorPanel (gui.Tr "UpdatesRejectedAndForcePushDisabled")])
        else
          .awaitConfirm (pre ++ [.ask (gui.Tr "ForcePush") (gui.Tr "ForcePushPrompt")])
            (pushWithForceFlag gui v true upstream args)
      else
        .done (pre ++ handleCredentialsPopup err ++ [.refreshSidePanels])
termination_by (if force then 0 else 1)
decreasing_by
  simp [h.2]

/-- The method `pushFiles` of files_panel.go; `v` is the view of the handler. -/
def pushFiles (gui : PushCollaborators) (v : String) : Run :=
  if gui.popupPanelFocused then
    .done []
  else
    -- if we have pullables we'll ask if the user wants to force push
    match gui.currentBranch with
    | none => .done [.goPanic "nil pointer dereference"]
    | some currentBranch =>
      if currentBranch.Pullables = "?" then
        -- see if we have this branch in our config with an upstream
        match gui.RepoConfig with
        | .error err => .done [.surfaceError err]
        | .ok branches =>
          match branches.find? (fun entry => entry.1 == currentBranch.Name) with
          | some (branchName, branch) =>
            pushWithForceFlag gui v false "" (branch.Remote ++ " " ++ branchName)
          | none =>
            if gui.PushToCurrent then
              pushWithForceFlag gui v false "" "--set-upstream"
            else
              .awaitInput [.prompt (gui.Tr "EnterUpstream") ("origin " ++ currentBranch.Name)]
                (fun response => pushWithForceFlag gui v false response "")
      else if currentBranch.Pullables = "0" then
        pushWithForceFlag gui v false "" ""
      else
        let forcePushDisabled := gui.GetBool "git.disableForcePushing"
        if forcePushDisabled then
          .done [.createErrorPanel (gui.Tr "ForcePushDisabled")]
        else
          .awaitConfirm [.ask (gui.Tr "ForcePush") (gui.Tr "ForcePushPrompt")]
            (pushWithForceFlag gui v true "" "")

/-- Whether a call is a push. -/
def Event.isPush : Event → Bool
  | .push _ _ _ _ => true
  | _ => false

/-- Whether a call is a push with the force flag. -/
def Event.isForcePush : Event → Bool
  | .push _ force _ _ => force
  | _ => false

/-- Whether a call opens a confirmation. -/
def Event.isAsk : Event → Bool
  | .ask _ _ => true
  | _ => false

/-- Whether `sub` occurs in `s`, for concrete evaluations of
`strings.Contains`. -/
def containsSubstring (s sub : String) : Bool := decide (sub.data <:+: s.data)

/-- Collaborators for concrete evaluations: the branch `main` is checked out
and has things to pull, every push is rejected, and force pushing is disabled
or not as given. -/
def rejectingRemote (forcePushDisabled : Bool) : PushCollaborators where
  Tr := fun key => key
  GetBool := fun key => key == "git.disableForcePushing" && forcePushDisabled
  Contains := containsSubstring
  createLoaderPanel := fun _ _ => none
  getCheckedOutBranch := some { Name := "main", Pullables := "2" }
  currentBranch := some { Name := "main", Pullables := "2" }
  Push := fun _ _ _ _ => some "! [rejected] Updates were rejected because the tip is behind"
  popupPanelFocused := false
  RepoConfig := .ok []
  PushToCurrent := false

/-! ### Custom commands: templates and the prompt chain -/

/-- A commit of package `models`, by its identifying string. The package is
outside the three files. -/
structure Commit where
  Sha : String
  deriving DecidableEq

/-- A remote branch of package `models`, by name. -/
structure RemoteBranch where
  Name : String
  deriving DecidableEq

/-- A remote of package `models`, by name. -/
structure Remote where
  Name : String
  deriving DecidableEq

/-- A tag of package `models`, by name. -/
structure Tag where
  Name : String
  deriving DecidableEq

/-- A stash entry of package `models`, by name. -/
structure StashEntry where
  Name : String
  deriving DecidableEq

/-- A commit file of package `models`, by name. -/
structure CommitFile where
  Name : String
  deriving DecidableEq

/-- The struct `CustomCommandObjects` of custom_commands.go; `none` is the
nil pointer. -/
structure CustomCommandObjects where
  SelectedLocalCommit : Option Commit
  SelectedReflogCommit : Option Commit
  SelectedSubCommit : Option Commit
  SelectedFile : Option File
  SelectedLocalBranch : Option Branch
  SelectedRemoteBranch : Option RemoteBranch
  SelectedRemote : Option Remote
  SelectedTag : Option Tag
  SelectedStashEntry : Option StashEntry
  SelectedCommitFile : Option CommitFile
  CheckedOutBranch : Option Branch
  PromptResponses : List String
  deriving DecidableEq

/-- The collaborators of the handler of a custom command. -/
structure CommandCollaborators where
  /-- the state of the files panel, read by `getSelectedFile` -/
  State : FilesPanelState
  /-- `gui.getSelectedLocalCommit()` -/
  getSelectedLocalCommit : Option Commit
  /-- `gui.getSelectedReflogCommit()` -/
  getSelectedReflogCommit : Option Commit
  /-- `gui.getSelectedBranch()` -/
  getSelectedBranch : Option Branch
  /-- `gui.getSelectedRemoteBranch()` -/
  getSelectedRemoteBranch : Option RemoteBranch
  /-- `gui.getSelectedRemote()` -/
  getSelectedRemote : Option Remote
  /-- `gui.getSelectedTag()` -/
  getSelectedTag : Option Tag
  /-- `gui.getSelectedStashEntry()` -/
  getSelectedStashEntry : Option StashEntry
  /-- `gui.getSelectedCommitFile()` -/
  getSelectedCommitFile : Option CommitFile
  /-- `gui.getSelectedSubCommit()` -/
  getSelectedSubCommit : Option Commit
  /-- `gui.currentBranch()` -/
  currentBranch : Option Branch
  /-- `utils.ResolveTemplate(templateStr, objects)`: the resolved string or
  the error -/
  ResolveTemplate : String → CustomCommandObjects → Except String String
  /-- `utils.ColoredString(str, color.FgYellow)` -/
  ColoredString : String → String
  /-- `gui.Tr.SLocalize` -/
  Tr : String → String
  /-- `str.ToArgv` -/
  ToArgv : String → List String
  /-- the error, if any, of `gui.OSCommand.RunCommand(cmdStr)` -/
  RunCommand : String → Option String

/-- The method `resolveTemplate` of custom_commands.go. The outer error is a
panic of `getSelectedFile`, the inner one the error of the resolver. -/
def resolveTemplate (gui : CommandCollaborators) (templateStr : String)
    (promptResponses : List String) : Except String (Except String String) :=
  match getSelectedFile gui.State with
  | .error msg => .error msg
  | .ok selectedFile =>
    let objects : CustomCommandObjects :=
      { SelectedFile := selectedFile
        SelectedLocalCommit := gui.getSelectedLocalCommit
        SelectedReflogCommit := gui.getSelectedReflogCommit
        SelectedLocalBranch := gui.getSelectedBranch
        SelectedRemoteBranch := gui.getSelectedRemoteBranch
        SelectedRemote := gui.getSelectedRemote
        SelectedTag := gui.getSelectedTag
        SelectedStashEntry := gui.getSelectedStashEntry
        SelectedCommitFile := gui.getSelectedCommitFile
        SelectedSubCommit := gui.getSelectedSubCommit
        CheckedOutBranch := gui.currentBranch
        PromptResponses := promptResponses }
    .ok (gui.ResolveTemplate templateStr objects)

/-- A stretch of a handler that resolves templates: the calls made, and the
value computed, or `none` when the handler has returned early. -/
abbrev Resolving (α : Type) := List Event × Option α

/-- Sequencing of two stretches: the second runs when the first has not
returned early. -/
def Resolving.andThen {α β : Type} (x : Resolving α) (f : α → Resolving β) : Resolving β :=
  match x with
  | (events, none) => (events, none)
  | (events, some a) => (events ++ (f a).1, (f a).2)

/-- The statements `x, err := gui.resolveTemplate(templateStr, promptResponses)`
and `if err != nil { return gui.surfaceError(err) }`. -/
def resolveOrSurface (gui : CommandCollaborators) (templateStr : String)
    (promptResponses : List String) : Resolving String :=
  match resolveTemplate gui templateStr promptResponses with
  | .error msg => ([.resolveTemplate templateStr promptResponses, .goPanic msg], none)
  | .ok (.error err) => ([.resolveTemplate templateStr promptResponses, .surfaceError err], none)
  | .ok (.ok str) => ([.resolveTemplate templateStr promptResponses], some str)

/-- The method `PrepareSubProcess` of files_panel.go: the event
`prepareSubProcess` marks its entry. -/
def PrepareSubProcess (gui : CommandCollaborators) (command : String) : List Event :=
  let splitCmd := gui.ToArgv command
  match splitCmd with
  | [] => [.prepareSubProcess command, .goPanic "index out of range"]
  | cmdName :: commandArgs =>
    [.prepareSubProcess command, .osPrepareSubProcess cmdName commandArgs, .updateErrSubProcess]

/-- The innermost function `f` of `handleCustomCommandKeybinding`: it resolves
and executes the command. -/
def runCustomCommand (gui : CommandCollaborators) (customCommand : CustomCommand)
    (promptResponses : List String) : Run :=
  match resolveOrSurface gui customCommand.Command promptResponses with
  | (events, none) => .done events
  | (events, some cmdStr) =>
    if customCommand.Subprocess then
      .done (events ++ PrepareSubProcess gui cmdStr)
    else
      let loadingText :=
        if customCommand.LoadingText = "" then gui.Tr "runningCustomCommandStatus"
        else customCommand.LoadingText
      .done (events ++ [.withWaitingStatus loadingText, .osPrepareSubProcess cmdStr [],
                        .runCommand cmdStr] ++
        (match gui.RunCommand cmdStr with
         | some err => [.surfaceError err]
         | none => [.refreshSidePanels]))

/-- A menu item built by the menu case: its display strings and the value
its `onPress` stores. -/
structure ResolvedOption where
  name : String
  description : String
  value : String
  deriving DecidableEq

/-- The template of the name of a menu option: its value when the name is
empty. -/
def nameTemplate (option : CustomCommandMenuOption) : String :=
  -- this allows you to only pass values rather than bother with names/descriptions
  if option.Name = "" then option.Value else option.Name

/-- The loop `for i, option := range prompt.Options` of the menu case. -/
def resolveOptions (gui : CommandCollaborators) (promptResponses : List String) :
    List CustomCommandMenuOption → Resolving (List ResolvedOption)
  | [] => ([], some [])
  | option :: rest =>
    (resolveOrSurface gui (nameTemplate option) promptResponses).andThen fun name =>
    (resolveOrSurface gui option.Description promptResponses).andThen fun description =>
    (resolveOrSurface gui option.Value promptResponses).andThen fun value =>
    (resolveOptions gui promptResponses rest).andThen fun items =>
    ([], some ({ name := name, description := gui.ColoredString description,
                 value := value } :: items))

/-- The resolutions of the case 'input': the title, then the initial value. -/
def resolveInput (gui : CommandCollaborators) (prompt : CustomCommandPrompt)
    (promptResponses : List String) : Resolving (String × String) :=
  (resolveOrSurface gui prompt.Title promptResponses).andThen fun title =>
  (resolveOrSurface gui prompt.InitialValue promptResponses).andThen fun initialValue =>
  ([], some (title, initialValue))

/-- The function `f` that one prompt adds around `wrappedF`: the case
'input'. The slice `promptResponses`, shared by all the closures, is passed
from layer to layer. -/
def inputLayer (gui : CommandCollaborators) (idx : Nat) (prompt : CustomCommandPrompt)
    (wrappedF : List String → Run) (promptResponses : List String) : Run :=
  match resolveInput gui prompt promptResponses with
  | (events, none) => .done events
  | (events, some (title, initialValue)) =>
    .awaitInput (events ++ [.prompt title initialValue])
      (fun str => wrappedF (promptResponses.set idx str))

/-- The resolutions of the case 'menu': the items, then the title. -/
def resolveMenu (gui : CommandCollaborators) (prompt : CustomCommandPrompt)
    (promptResponses : List String) : Resolving (List ResolvedOption × String) :=
  (resolveOptions gui promptResponses prompt.Options).andThen fun menuItems =>
  (resolveOrSurface gui prompt.Title promptResponses).andThen fun title =>
  ([], some (menuItems, title))

/-- The function `f` that one prompt adds around `wrappedF`: the case
'menu'. -/
def menuLayer (gui : CommandCollaborators) (idx : Nat) (prompt : CustomCommandPrompt)
    (wrappedF : List String → Run) (promptResponses : List String) : Run :=
  match resolveMenu gui prompt promptResponses with
  | (events, none) => .done events
  | (events, some (menuItems, title)) =>
    .awaitMenu
      (events ++ [.createMenu title (menuItems.map fun item => [item.name, item.description])])
      (menuItems.map fun item => wrappedF (promptResponses.set idx item.value))

/-- The loop `for reverseIdx := range customCommand.Prompts`, over the
indices still to come; the error is the run of an early return. -/
def wrapPrompts (gui : CommandCollaborators) (customCommand : CustomCommand) :
    List Nat → (List String → Run) → Except Run (List String → Run)
  | [], f => .ok f
  | reverseIdx :: rest, f =>
    let idx := customCommand.Prompts.length - 1 - reverseIdx
    -- going backwards so the outermost prompt is the first one
    match customCommand.Prompts[idx]? with
    | none => .error (.done [.goPanic "index out of range"])
    | some prompt =>
      -- need to do this because f's value will change with each iteration
      let wrappedF := f
      if prompt.PromptType = "input" then
        wrapPrompts gui customCommand rest (inputLayer gui idx prompt wrappedF)
      else if prompt.PromptType = "menu" then
        wrapPrompts gui customCommand rest (menuLayer gui idx prompt wrappedF)
      else
        .error (.done [.createErrorPanel
          "custom command prompt must have a type of 'input' or 'menu'"])

/-- The handler that `handleCustomCommandKeybinding` returns, run once. -/
def handleCustomCommandKeybinding (gui : CommandCollaborators)
    (customCommand : CustomCommand) : Run :=
  let promptResponses := List.replicate customCommand.Prompts.length ""
  let f := runCustomCommand gui customCommand
  -- if we have prompts we'll recursively wrap our confirm handlers with more
  -- prompts until we reach the actual command
  match wrapPrompts gui customCommand (List.range customCommand.Prompts.length) f with
  | .error early => early
  | .ok f => f promptResponses

/-- Whether a call opens the modal of a prompt. -/
def Event.isModal : Event → Bool
  | .prompt _ _ => true
  | .createMenu _ _ => true
  | _ => false

/-- Whether a call belongs to the execution of the command. -/
def Event.isExecution : Event → Bool
  | .prepareSubProcess _ => true
  | .osPrepareSubProcess _ _ => true
  | .updateErrSubProcess => true
  | .withWaitingStatus _ => true
  | .runCommand _ => true
  | _ => false

/-- The string a template resolves to, and the empty string when it does
not resolve. -/
def resolved (gui : CommandCollaborators) (templateStr : String)
    (promptResponses : List String) : String :=
  match resolveTemplate gui templateStr promptResponses with
  | .ok (.ok str) => str
  | _ => ""

/-- The call that opens the modal of a prompt when the response vector is
`promptResponses`. -/
def openedModal (gui : CommandCollaborators) (prompt : CustomCommandPrompt)
    (promptResponses : List String) : Event :=
  if prompt.PromptType = "input" then
    .prompt (resolved gui prompt.Title promptResponses)
      (resolved gui prompt.InitialValue promptResponses)
  else
    .createMenu (resolved gui prompt.Title promptResponses)
      (prompt.Options.map fun option =>
        [resolved gui (nameTemplate option) promptResponses,
         gui.ColoredString (resolved gui option.Description promptResponses)])

/-- The string that an answer to the modal of a prompt stores in the slot of
the prompt: the confirmed string of an input prompt, the resolved value of the
pressed option of a menu. -/
def storedAnswer (gui : CommandCollaborators) (prompt : CustomCommandPrompt)
    (promptResponses : List String) : Answer → String
  | .confirm str => str
  | .press i =>
    match prompt.Options[i]? with
    | some option => resolved gui option.Value promptResponses
    | none => ""
  | .yes => ""

/-- The templates that the layer of a prompt resolves. -/
def layerTemplates (prompt : CustomCommandPrompt) : List String :=
  if prompt.PromptType = "input" then [prompt.Title, prompt.InitialValue]
  else
    prompt.Title ::
      prompt.Options.flatMap fun option =>
        [nameTemplate option, option.Description, option.Value]

/-- The templates of a custom command: that of the command and those of its
prompts. -/
def commandTemplates (customCommand : CustomCommand) : List String :=
  customCommand.Command :: customCommand.Prompts.flatMap layerTemplates

/-- The chain of layers read from the outermost prompt inwards: the layer of
the first prompt of `prompts`, whose index is `idx`, around the chain of the
rest, and the innermost function when no prompt is left. -/
def promptChain (gui : CommandCollaborators) (customCommand : CustomCommand) :
    List CustomCommandPrompt → Nat → List String → Run
  | [], _, promptResponses => runCustomCommand gui customCommand promptResponses
  | prompt :: rest, idx, promptResponses =>
    if prompt.PromptType = "input" then
      inputLayer gui idx prompt (promptChain gui customCommand rest (idx + 1)) promptResponses
    else
      menuLayer gui idx prompt (promptChain gui customCommand rest (idx + 1)) promptResponses

/-- The response vector after a sequence of answers to the modals of
`prompts`, the first of which has index `idx`. -/
def responsesAfter (gui : CommandCollaborators) :
    List CustomCommandPrompt → Nat → List String → List Answer → List String
  | prompt :: rest, idx, promptResponses, a :: answers =>
    responsesAfter gui rest (idx + 1)
      (promptResponses.set idx (storedAnswer gui prompt promptResponses a)) answers
  | _, _, promptResponses, _ => promptResponses

/-- Every call of the list resolves a template against `promptResponses`, and
with success. -/
def okResolves (gui : CommandCollaborators) (promptResponses : List String)
    (events : List Event) : Prop :=
  ∀ e ∈ events, ∃ t str, e = .resolveTemplate t promptResponses ∧
    resolveTemplate gui t promptResponses = .ok (.ok str)

/-- The calls that end a stretch on a template that does not resolve: the
error is surfaced, or the panic ends the handler. -/
def failedResolve (gui : CommandCollaborators) (promptResponses : List String)
    (t : String) (tail : List Event) : Prop :=
  (∃ err, resolveTemplate gui t promptResponses = .ok (.error err) ∧
    tail = [.resolveTemplate t promptResponses, .surfaceError err]) ∨
  (∃ msg, resolveTemplate gui t promptResponses = .error msg ∧
    tail = [.resolveTemplate t promptResponses, .goPanic msg])

/-- A stretch that resolves templates against `promptResponses`: either it
has a value and all its calls are successful resolutions, or it has returned
early right after the first template that did not resolve. -/
def Resolving.Sound {α : Type} (gui : CommandCollaborators) (promptResponses : List String)
    (x : Resolving α) : Prop :=
  (x.2.isSome = true ∧ okResolves gui promptResponses x.1) ∨
  (x.2 = none ∧ ∃ pre t tail, okResolves gui promptResponses pre ∧
    failedResolve gui promptResponses t tail ∧ x.1 = pre ++ tail)

/-- The run of a layer invoked with the vector `promptResponses`: either it
returned early right after the first template that did not resolve, or its
calls are successful resolutions, at least one, followed by calls that resolve
nothing. -/
def NodeSound (gui : CommandCollaborators) (promptResponses : List String) (seg : Run) : Prop :=
  (∃ pre t tail, okResolves gui promptResponses pre ∧
    failedResolve gui promptResponses t tail ∧ seg = .done (pre ++ tail)) ∨
  (∃ evs others, okResolves gui promptResponses evs ∧ evs ≠ [] ∧
    seg.events = evs ++ others ∧ ∀ e ∈ others, ∀ t rs, e ≠ .resolveTemplate t rs)

/-- The error panel of the default case of the switch on the prompt type. -/
def promptTypeErrorPanel : Event :=
  .createErrorPanel "custom command prompt must have a type of 'input' or 'menu'"

/-- A prompt whose type is one of the two recognised values. -/
def validPromptType (prompt : CustomCommandPrompt) : Prop :=
  prompt.PromptType = "input" ∨ prompt.PromptType = "menu"

/-- A resolver for concrete evaluations: the template `?` does not resolve,
every other template resolves to itself followed by the prompt responses in
brackets. -/
def bracketResolver (templateStr : String) (objects : CustomCommandObjects) :
    Except String String :=
  if templateStr = "?" then .error "unknown placeholder"
  else .ok (templateStr ++ "[" ++ ",".intercalate objects.PromptResponses ++ "]")

/-- Collaborators for concrete evaluations: nothing is selected, templates
are resolved by `bracketResolver`, and every command runs without error. -/
def demoGui : CommandCollaborators where
  State := { Files := [], SelectedLineIdx := -1 }
  getSelectedLocalCommit := none
  getSelectedReflogCommit := none
  getSelectedBranch := none
  getSelectedRemoteBranch := none
  getSelectedRemote := none
  getSelectedTag := none
  getSelectedStashEntry := none
  getSelectedCommitFile := none
  getSelectedSubCommit := none
  currentBranch := none
  ResolveTemplate := bracketResolver
  ColoredString := fun str => str
  Tr := fun key => key
  ToArgv := fun command => if command = "" then [] else [command]
  RunCommand := fun _ => none

/-- A custom command with an input prompt followed by a menu prompt. -/
def pushCommand : CustomCommand where
  Key := "b"
  Context := "global"
  Command := "git push"
  Subprocess := false
  Prompts :=
    [ { PromptType := "input", Title := "Branch", InitialValue := "main", Options := [] },
      { PromptType := "menu", Title := "Remote", InitialValue := "",
        Options := [ { Name := "", Description := "default", Value := "origin" },
                     { Name := "up", Description := "other", Value := "upstream" } ] } ]
  LoadingText := ""
  Description := ""

/-- A custom command whose second prompt has a title that does not resolve. -/
def brokenTitleCommand : CustomCommand where
  Key := "t"
  Context := "global"
  Command := "git tag"
  Subprocess := true
  Prompts :=
    [ { PromptType := "input", Title := "Tag", InitialValue := "", Options := [] },
      { PromptType := "input", Title := "?", InitialValue := "", Options := [] } ]
  LoadingText := ""
  Description := ""

/-- A custom command with the global context and a prompt of the type
'confirm', which is neither 'input' nor 'menu'. -/
def confirmPromptCommand : CustomCommand where
  Key := "a"
  Context := "global"
  Command := "git clean"
  Subprocess := false
  Prompts := [ { PromptType := "confirm", Title := "Sure?", InitialValue := "", Options := [] } ]
  LoadingText := ""
  Description := ""

/-- A custom command bound in the context `files`. -/
def filesScopedCommand : CustomCommand where
  Key := "<c-t>"
  Context := "files"
  Command := "git add -A"
  Subprocess := false
  Prompts := []
  LoadingText := ""
  Description := "stage everything"

/-- A configuration for concrete evaluations: no overrides of keys, the
context `files` of the view `files` as only known context, and the custom
commands `confirmPromptCommand` and `filesScopedCommand`. -/
def twoCommandsConfig : BindingConfig where
  GetString := fun _ => ""
  ToLower := asciiToLower
  contextForContextKey := fun key => if key = "files" then some { GetViewName := "files" } else none
  customCommands := .ok [confirmPromptCommand, filesScopedCommand]

/-! ### Template resolution, modelled from the spec -/

namespace utils

/-- The number written by a list of decimal digits, most significant first;
`none` when a rune is not a digit. -/
def parseDigits : List Char → Nat → Option Nat
  | [], n => some n
  | c :: rest, n =>
    if c.isDigit then parseDigits rest (10 * n + (c.toNat - 48)) else none

/-- Modelled from the spec: the value of a named placeholder of a template.
A placeholder names a field of a selected object of the template context
(`.SelectedLocalBranch.Name`, ...) or a prompt response
(`index .PromptResponses i`); a field of a nil object, a response out of
range and an unknown placeholder are errors. -/
def placeholderValue (objects : CustomCommandObjects) (name : String) : Except String String :=
  let field (value : Option String) : Except String String :=
    match value with
    | some str => .ok str
    | none => .error ("nil pointer evaluating " ++ name)
  if name = ".SelectedLocalCommit.Sha" then field (objects.SelectedLocalCommit.map Commit.Sha)
  else if name = ".SelectedReflogCommit.Sha" then
    field (objects.SelectedReflogCommit.map Commit.Sha)
  else if name = ".SelectedSubCommit.Sha" then field (objects.SelectedSubCommit.map Commit.Sha)
  else if name = ".SelectedFile.Name" then field (objects.SelectedFile.map File.Name)
  else if name = ".SelectedLocalBranch.Name" then
    field (objects.SelectedLocalBranch.map Branch.Name)
  else if name = ".SelectedRemoteBranch.Name" then
    field (objects.SelectedRemoteBranch.map RemoteBranch.Name)
  else if name = ".SelectedRemote.Name" then field (objects.SelectedRemote.map Remote.Name)
  else if name = ".SelectedTag.Name" then field (objects.SelectedTag.map Tag.Name)
  else if name = ".SelectedStashEntry.Name" then
    field (objects.SelectedStashEntry.map StashEntry.Name)
  else if name = ".SelectedCommitFile.Name" then
    field (objects.SelectedCommitFile.map CommitFile.Name)
  else if name = ".CheckedOutBranch.Name" then field (objects.CheckedOutBranch.map Branch.Name)
  else if "index .PromptResponses ".data.isPrefixOf name.data then
    match name.data.drop 23 with
    | [] => .error ("unknown placeholder " ++ name)
    | digits =>
      match parseDigits digits 0 with
      | none => .error ("unknown placeholder " ++ name)
      | some i =>
        match objects.PromptResponses[i]? with
        | some response => .ok response
        | none => .error ("index out of range: " ++ name)
  else .error ("unknown placeholder " ++ name)

/-- Where the reader of a template is: in plain text, after one opening
brace, inside a placeholder (with the runes of its name so far, in reverse),
or after one closing brace inside a placeholder. -/
inductive Reader where
  | text
  | opening
  | name (runes : List Char)
  | closing (runes : List Char)

/-- Modelled from the spec: the substitution of the placeholders of a
template, read rune by rune. A placeholder is a name between two opening and
two closing braces; it is replaced by its value, and an error of the value is
the error of the resolution. -/
def substitute (value : String → Except String String) :
    List Char → Reader → Except String (List Char)
  | [], .text => .ok []
  | [], .opening => .ok ['\x7b']
  | [], .name _ => .error "unclosed placeholder"
  | [], .closing _ => .error "unclosed placeholder"
  | c :: rest, .text =>
    if c = '\x7b' then substitute value rest .opening
    else
      match substitute value rest .text with
      | .error err => .error err
      | .ok out => .ok (c :: out)
  | c :: rest, .opening =>
    if c = '\x7b' then substitute value rest (.name [])
    else
      match substitute value rest .text with
      | .error err => .error err
      | .ok out => .ok ('\x7b' :: c :: out)
  | c :: rest, .name runes =>
    if c = '\x7d' then substitute value rest (.closing runes)
    else substitute value rest (.name (c :: runes))
  | c :: rest, .closing runes =>
    if c = '\x7d' then
      match value (String.mk runes.reverse) with
      | .error err => .error err
      | .ok str =>
        match substitute value rest .text with
        | .error err => .error err
        | .ok out => .ok (str.data ++ out)
    else substitute value rest (.name (c :: '\x7d' :: runes))

/-- Modelled from the spec: the function `utils.ResolveTemplate` is not in the
three files. The spec has a template contain named placeholders that refer to
fields of the template context object or to prompt responses; resolution is a
pure string transform; a nil selected object is an error only if a placeholder
refers to it, and an unknown placeholder is an error. -/
def ResolveTemplate (templateStr : String) (objects : CustomCommandObjects) :
    Except String String :=
  match substitute (placeholderValue objects) templateStr.data .text with
  | .error err => .error err
  | .ok out => .ok (String.mk out)

end utils

/-- Collaborators for concrete evaluations: the local branch `main` is
selected and templates are resolved by `utils.ResolveTemplate`. -/
def mainBranchGui : CommandCollaborators :=
  { demoGui with
    getSelectedBranch := some { Name := "main", Pullables := "0" }
    ResolveTemplate := utils.ResolveTemplate }

/-- The custom command `echo` of the name of the selected local branch,
without prompts. -/
def echoBranchCommand : CustomCommand where
  Key := "e"
  Context := "global"
  Command := "echo \x7b\x7b.SelectedLocalBranch.Name\x7d\x7d"
  Subprocess := false
  Prompts := []
  LoadingText := ""
  Description := ""

/-- A custom command whose menu option takes its name from the answer to the
first prompt. -/
def namedByResponseCommand : CustomCommand where
  Key := "n"
  Context := "global"
  Command := "git fetch \x7b\x7bindex .PromptResponses 1\x7d\x7d"
  Subprocess := false
  Prompts :=
    [ { PromptType := "input", Title := "Label", InitialValue := "", Options := [] },
      { PromptType := "menu", Title := "Remote", InitialValue := "",
        Options := [ { Name := "\x7b\x7bindex .PromptResponses 0\x7d\x7d",
                       Description := "", Value := "origin" } ] } ]
  LoadingText := ""
  Description := ""

/-- A custom command with one menu whose option has a value and no name. -/
def remoteMenuCommand : CustomCommand where
  Key := "f"
  Context := "global"
  Command := "git fetch \x7b\x7bindex .PromptResponses 0\x7d\x7d"
  Subprocess := false
  Prompts :=
    [ { PromptType := "menu", Title := "Remote", InitialValue := "",
        Options := [ { Name := "", Description := "", Value := "origin" } ] } ]
  LoadingText := ""
  Description := ""

/-- Whether a call belongs to the background-task path of the innermost
function: `WithWaitingStatus`, `OSCommand.RunCommand`, `refreshSidePanels`. -/
def Event.isBackgroundTask : Event → Bool
  | .withWaitingStatus _ => true
  | .runCommand _ => true
  | .refreshSidePanels => true
  | _ => false

/-- Whether a call is the entry of `gui.PrepareSubProcess`. -/
def Event.isPrepareSubProcess : Event → Bool
  | .prepareSubProcess _ => true
  | _ => false

/-- Whether a call is a call of `gui.resolveTemplate`. -/
def Event.isResolveTemplate : Event → Bool
  | .resolveTemplate _ _ => true
  | _ => false

/-- The loading text of the background task of a custom command. -/
def loadingTextOf (gui : CommandCollaborators) (customCommand : CustomCommand) : String :=
  if customCommand.LoadingText = "" then gui.Tr "runningCustomCommandStatus"
  else customCommand.LoadingText

/-- The invariant of the files panel: the selected index is -1 exactly when
the collection is empty, and otherwise it is an index of the collection. -/
def panelInvariant (s : FilesPanelState) : Prop :=
  (s.SelectedLineIdx = -1 ↔ s.Files = []) ∧
  (s.Files ≠ [] → 0 ≤ s.SelectedLineIdx ∧ s.SelectedLineIdx < (s.Files.length : Int))

/-- Collaborators for concrete evaluations: the fresh status is `[A]`, the
merge takes the fresh list, files match by name, and the file watcher returns
the given error. -/
def statusA (watcherError : Option String) : FilesCollaborators where
  GetStatusFiles := [fileNamed "a" false]
  MergeStatusFiles := fun _ files _ => files
  addFilesToFileWatcher := fun _ => watcherError
  Matches := fun f g => f.Name == g.Name

/-- The panel `[A, B, C]` with the selection on `C`. -/
def panelABCLast : FilesPanelState where
  Files := [fileNamed "a" false, fileNamed "b" false, fileNamed "c" false]
  SelectedLineIdx := 2

/-! ### Key display -/

/-- The table `keyMapReversed` of keybindings.go. -/
def keyMapReversed : List (gocui.Key × String) :=
  [ (.KeyF1, "f1"),
    (.KeyF2, "f2"),
    (.KeyF3, "f3"),
    (.KeyF4, "f4"),
    (.KeyF5, "f5"),
    (.KeyF6, "f6"),
    (.KeyF7, "f7"),
    (.KeyF8, "f8"),
    (.KeyF9, "f9"),
    (.KeyF10, "f10"),
    (.KeyF11, "f11"),
    (.KeyF12, "f12"),
    (.KeyInsert, "insert"),
    (.KeyDelete, "delete"),
    (.KeyHome, "home"),
    (.KeyEnd, "end"),
    (.KeyPgup, "pgup"),
    (.KeyPgdn, "pgdown"),
    (.KeyArrowUp, "▲"),
    (.KeyArrowDown, "▼"),
    (.KeyArrowLeft, "◄"),
    (.KeyArrowRight, "►"),
    (.KeyTab, "tab"), -- ctrl+i
    (.KeyEnter, "enter"), -- ctrl+m
    (.KeyEsc, "esc"), -- ctrl+[, ctrl+3
    (.KeyBackspace, "backspace"), -- ctrl+h
    (.KeyCtrlSpace, "ctrl+space"), -- ctrl+~, ctrl+2
    (.KeyCtrlSlash, "ctrl+/"), -- ctrl+_
    (.KeySpace, "space"),
    (.KeyCtrlA, "ctrl+a"),
    (.KeyCtrlB, "ctrl+b"),
    (.KeyCtrlC, "ctrl+c"),
    (.KeyCtrlD, "ctrl+d"),
    (.KeyCtrlE, "ctrl+e"),
    (.KeyCtrlF, "ctrl+f"),
    (.KeyCtrlG, "ctrl+g"),
    (.KeyCtrlJ, "ctrl+j"),
    (.KeyCtrlK, "ctrl+k"),
    (.KeyCtrlL, "ctrl+l"),
    (.KeyCtrlN, "ctrl+n"),
    (.KeyCtrlO, "ctrl+o"),
    (.KeyCtrlP, "ctrl+p"),
    (.KeyCtrlQ, "ctrl+q"),
    (.KeyCtrlR, "ctrl+r"),
    (.KeyCtrlS, "ctrl+s"),
    (.KeyCtrlT, "ctrl+t"),
    (.KeyCtrlU, "ctrl+u"),
    (.KeyCtrlV, "ctrl+v"),
    (.KeyCtrlW, "ctrl+w"),
    (.KeyCtrlX, "ctrl+x"),
    (.KeyCtrlY, "ctrl+y"),
    (.KeyCtrlZ, "ctrl+z"),
    (.KeyCtrl4, "ctrl+4"), -- ctrl+\
    (.KeyCtrl5, "ctrl+5"), -- ctrl+]
    (.KeyCtrl6, "ctrl+6"),
    (.KeyCtrl8, "ctrl+8") ]

/-- The call `fmt.Sprintf("%c", keyInt)` for a key code that is not negative:
the string of the one character with that code point; a code that is no
Unicode scalar value is printed as U+FFFD. -/
def sprintfChar (keyInt : Nat) : String :=
  if keyInt.isValidChar then String.singleton (Char.ofNat keyInt)
  else String.singleton (Char.ofNat 0xFFFD)

/-- The function `GetKeyDisplay` of keybindings.go. The integer values of the
constants of `gocui.Key` belong to the gocui library and are the parameter
`keyCode`; the index expression `keyMapReversed[key]` compares keys by that
value, so constants with one value are one key of the map. -/
def GetKeyDisplay (keyCode : gocui.Key → Nat) (key : KeyId) : String :=
  match key with
  | .rune r => sprintfChar r.toNat
  | .key k =>
    match keyMapReversed.find? (fun entry => keyCode entry.1 == keyCode k) with
    | some entry => entry.2
    | none => sprintfChar (keyCode k)

/-- The method `getKeyDisplay` of keybindings.go. -/
def getKeyDisplay (cfg : KeyConfig) (keyCode : gocui.Key → Nat) (name : String) :
    Except FatalError String :=
  match getKey cfg name with
  | .error e => .error e
  | .ok key => .ok (GetKeyDisplay keyCode key)

/-- Whether some entry of `keyMapReversed` has the key `k`. -/
def hasKeyMapReversedEntry (keyCode : gocui.Key → Nat) (k : gocui.Key) : Prop :=
  ∃ entry ∈ keyMapReversed, keyCode entry.1 = keyCode k

/-- Key codes for concrete evaluations, after the constants of termbox: the
function keys count down from 0xFFFF, the control keys are the ASCII control
codes, and several constants share one code. -/
def termboxKeyCode : gocui.Key → Nat
  | .KeyF1 => 0xFFFF | .KeyF2 => 0xFFFE | .KeyF3 => 0xFFFD | .KeyF4 => 0xFFFC
  | .KeyF5 => 0xFFFB | .KeyF6 => 0xFFFA | .KeyF7 => 0xFFF9 | .KeyF8 => 0xFFF8
  | .KeyF9 => 0xFFF7 | .KeyF10 => 0xFFF6 | .KeyF11 => 0xFFF5 | .KeyF12 => 0xFFF4
  | .KeyInsert => 0xFFF3 | .KeyDelete => 0xFFF2 | .KeyHome => 0xFFF1 | .KeyEnd => 0xFFF0
  | .KeyPgup => 0xFFEF | .KeyPgdn => 0xFFEE
  | .KeyArrowUp => 0xFFED | .KeyArrowDown => 0xFFEC
  | .KeyArrowLeft => 0xFFEB | .KeyArrowRight => 0xFFEA
  | .MouseLeft => 0xFFE8 | .MouseMiddle => 0xFFE7
  | .MouseWheelUp => 0xFFE4 | .MouseWheelDown => 0xFFE3
  | .KeyCtrlTilde => 0x00 | .KeyCtrl2 => 0x00 | .KeyCtrlSpace => 0x00
  | .KeyCtrlA => 0x01 | .KeyCtrlB => 0x02 | .KeyCtrlC => 0x03 | .KeyCtrlD => 0x04
  | .KeyCtrlE => 0x05 | .KeyCtrlF => 0x06 | .KeyCtrlG => 0x07
  | .KeyBackspace => 0x08 | .KeyCtrlH => 0x08
  | .KeyTab => 0x09 | .KeyCtrlI => 0x09
  | .KeyCtrlJ => 0x0A | .KeyCtrlK => 0x0B | .KeyCtrlL => 0x0C
  | .KeyEnter => 0x0D | .KeyCtrlM => 0x0D
  | .KeyCtrlN => 0x0E | .KeyCtrlO => 0x0F | .KeyCtrlP => 0x10 | .KeyCtrlQ => 0x11
  | .KeyCtrlR => 0x12 | .KeyCtrlS => 0x13 | .KeyCtrlT => 0x14 | .KeyCtrlU => 0x15
  | .KeyCtrlV => 0x16 | .KeyCtrlW => 0x17 | .KeyCtrlX => 0x18 | .KeyCtrlY => 0x19
  | .KeyCtrlZ => 0x1A
  | .KeyEsc => 0x1B | .KeyCtrlLsqBracket => 0x1B | .KeyCtrl3 => 0x1B
  | .KeyCtrl4 => 0x1C | .KeyCtrlBackslash => 0x1C
  | .KeyCtrl5 => 0x1D | .KeyCtrlRsqBracket => 0x1D
  | .KeyCtrl6 => 0x1E
  | .KeyCtrl7 => 0x1F | .KeyCtrlSlash => 0x1F | .KeyCtrlUnderscore => 0x1F
  | .KeySpace => 0x20
  | .KeyCtrl8 => 0x7F

/-! ### The binding table -/

/-- The context keys that `GetInitialKeybindings` names; the constants are
declared outside the three files. -/
inductive ContextKey where
  | BRANCH_COMMITS_CONTEXT_KEY
  | FILES_CONTEXT_KEY
  | LOCAL_BRANCHES_CONTEXT_KEY
  | MAIN_MERGING_CONTEXT_KEY
  | MAIN_NORMAL_CONTEXT_KEY
  | MAIN_PATCH_BUILDING_CONTEXT_KEY
  | MAIN_STAGING_CONTEXT_KEY
  | REFLOG_COMMITS_CONTEXT_KEY
  | REMOTES_CONTEXT_KEY
  | REMOTE_BRANCHES_CONTEXT_KEY
  | SUBMODULES_CONTEXT_KEY
  | SUB_COMMITS_CONTEXT_KEY
  | TAGS_CONTEXT_KEY
  deriving DecidableEq

/-- The expression of the field `Key` in the literal of
`GetInitialKeybindings`. -/
inductive KeyExpr where
  /-- `gui.getKey(name)` -/
  | getKey (name : String)
  /-- a constant of gocui -/
  | const (key : gocui.Key)
  deriving DecidableEq

/-- The expression of the field `Description` in the literal. -/
inductive DescriptionExpr where
  /-- the field is not given -/
  | absent
  /-- `gui.Tr.SLocalize(key)` -/
  | SLocalize (key : String)
  deriving DecidableEq

/-- One element of the literal `[]*Binding{...}` of `GetInitialKeybindings`,
field by field as written; a field that is not given has its zero value
(`gocui.ModNone` is the zero modifier). -/
structure BindingLiteral where
  ViewName : String
  Contexts : List ContextKey := []
  Key : KeyExpr
  Modifier : gocui.Modifier := .ModNone
  Handler : Handler
  Description : DescriptionExpr := .absent
  Alternative : String := ""
  deriving DecidableEq

/-- Elements 1 to 30 of the literal that `GetInitialKeybindings` assigns to
`bindings`. -/
def staticBindings1 : List BindingLiteral :=
  [
    { ViewName := "", Key := .getKey "universal.quit", Modifier := .ModNone,
      Handler := .wrappedHandler "handleQuit" },
    { ViewName := "", Key := .getKey "universal.quitWithoutChangingDirectory",
      Modifier := .ModNone, Handler := .method "handleQuitWithoutChangingDirectory" },
    { ViewName := "", Key := .getKey "universal.quit-alt1", Modifier := .ModNone,
      Handler := .wrappedHandler "handleQuit" },
    { ViewName := "", Key := .getKey "universal.return", Modifier := .ModNone,
      Handler := .method "handleTopLevelReturn" },
    { ViewName := "", Key := .getKey "universal.scrollUpMain", Handler := .method "scrollUpMain",
      Description := .SLocalize "scrollUpMainPanel", Alternative := "fn+up" },
    { ViewName := "", Key := .getKey "universal.scrollDownMain",
      Handler := .method "scrollDownMain", Description := .SLocalize "scrollDownMainPanel",
      Alternative := "fn+down" },
    { ViewName := "", Key := .getKey "universal.scrollUpMain-alt1", Modifier := .ModNone,
      Handler := .method "scrollUpMain" },
    { ViewName := "", Key := .getKey "universal.scrollDownMain-alt1", Modifier := .ModNone,
      Handler := .method "scrollDownMain" },
    { ViewName := "", Key := .getKey "universal.scrollUpMain-alt2", Modifier := .ModNone,
      Handler := .method "scrollUpMain" },
    { ViewName := "", Key := .getKey "universal.scrollDownMain-alt2", Modifier := .ModNone,
      Handler := .method "scrollDownMain" },
    { ViewName := "", Key := .getKey "universal.createRebaseOptionsMenu",
      Handler := .wrappedHandler "handleCreateRebaseOptionsMenu",
      Description := .SLocalize "ViewMergeRebaseOptions" },
    { ViewName := "", Key := .getKey "universal.createPatchOptionsMenu",
      Handler := .method "handleCreatePatchOptionsMenu",
      Description := .SLocalize "ViewPatchOptions" },
    { ViewName := "", Key := .getKey "universal.pushFiles", Handler := .method "pushFiles",
      Description := .SLocalize "push" },
    { ViewName := "", Key := .getKey "universal.pullFiles", Handler := .method "handlePullFiles",
      Description := .SLocalize "pull" },
    { ViewName := "", Key := .getKey "universal.refresh", Handler := .method "handleRefresh",
      Description := .SLocalize "refresh" },
    { ViewName := "", Key := .getKey "universal.optionMenu",
      Handler := .method "handleCreateOptionsMenu", Description := .SLocalize "openMenu" },
    { ViewName := "", Key := .getKey "universal.optionMenu-alt1", Modifier := .ModNone,
      Handler := .method "handleCreateOptionsMenu" },
    { ViewName := "", Key := .const .MouseMiddle, Modifier := .ModNone,
      Handler := .method "handleCreateOptionsMenu" },
    { ViewName := "", Key := .getKey "universal.undo", Handler := .method "reflogUndo",
      Description := .SLocalize "undoReflog" },
    { ViewName := "", Key := .getKey "universal.redo", Handler := .method "reflogRedo",
      Description := .SLocalize "redoReflog" },
    { ViewName := "status", Key := .getKey "universal.edit", Handler := .method "handleEditConfig",
      Description := .SLocalize "EditConfig" },
    { ViewName := "", Key := .getKey "universal.nextScreenMode",
      Handler := .method "nextScreenMode", Description := .SLocalize "nextScreenMode" },
    { ViewName := "", Key := .getKey "universal.prevScreenMode",
      Handler := .method "prevScreenMode", Description := .SLocalize "prevScreenMode" },
    { ViewName := "status", Key := .getKey "universal.openFile",
      Handler := .method "handleOpenConfig", Description := .SLocalize "OpenConfig" },
    { ViewName := "status", Key := .getKey "status.checkForUpdate",
      Handler := .method "handleCheckForUpdate", Description := .SLocalize "checkForUpdate" },
    { ViewName := "status", Key := .getKey "status.recentRepos",
      Handler := .wrappedHandler "handleCreateRecentReposMenu",
      Description := .SLocalize "SwitchRepo" },
    { ViewName := "files", Contexts := [.FILES_CONTEXT_KEY], Key := .getKey "files.commitChanges",
      Handler := .wrappedHandler "handleCommitPress", Description := .SLocalize "CommitChanges" },
    { ViewName := "files", Contexts := [.FILES_CONTEXT_KEY],
      Key := .getKey "files.commitChangesWithoutHook", Handler := .method "handleWIPCommitPress",
      Description := .SLocalize "commitChangesWithoutHook" },
    { ViewName := "files", Contexts := [.FILES_CONTEXT_KEY],
      Key := .getKey "files.amendLastCommit", Handler := .wrappedHandler "handleAmendCommitPress",
      Description := .SLocalize "AmendLastCommit" },
    { ViewName := "files", Contexts := [.FILES_CONTEXT_KEY],
      Key := .getKey "files.commitChangesWithEditor",
      Handler := .wrappedHandler "handleCommitEditorPress",
      Description := .SLocalize "CommitChangesWithEditor" }
  ]

/-- Elements 31 to 60 of the literal that `GetInitialKeybindings` assigns to
`bindings`. -/
def staticBindings2 : List BindingLiteral :=
  [
    { ViewName := "files", Contexts := [.FILES_CONTEXT_KEY], Key := .getKey "universal.select",
      Handler := .wrappedHandler "handleFilePress", Description := .SLocalize "toggleStaged" },
    { ViewName := "files", Contexts := [.FILES_CONTEXT_KEY], Key := .getKey "universal.remove",
      Handler := .method "handleCreateDiscardMenu",
      Description := .SLocalize "viewDiscardOptions" },
    { ViewName := "files", Contexts := [.FILES_CONTEXT_KEY], Key := .getKey "universal.edit",
      Handler := .method "handleFileEdit", Description := .SLocalize "editFile" },
    { ViewName := "files", Contexts := [.FILES_CONTEXT_KEY], Key := .getKey "universal.openFile",
      Handler := .method "handleFileOpen", Description := .SLocalize "openFile" },
    { ViewName := "files", Contexts := [.FILES_CONTEXT_KEY], Key := .getKey "files.ignoreFile",
      Handler := .method "handleIgnoreFile", Description := .SLocalize "ignoreFile" },
    { ViewName := "files", Contexts := [.FILES_CONTEXT_KEY], Key := .getKey "files.refreshFiles",
      Handler := .method "handleRefreshFiles", Description := .SLocalize "refreshFiles" },
    { ViewName := "files", Contexts := [.FILES_CONTEXT_KEY],
      Key := .getKey "files.stashAllChanges", Handler := .method "handleStashChanges",
      Description := .SLocalize "stashAllChanges" },
    { ViewName := "files", Contexts := [.FILES_CONTEXT_KEY],
      Key := .getKey "files.viewStashOptions", Handler := .method "handleCreateStashMenu",
      Description := .SLocalize "viewStashOptions" },
    { ViewName := "files", Contexts := [.FILES_CONTEXT_KEY],
      Key := .getKey "files.toggleStagedAll", Handler := .method "handleStageAll",
      Description := .SLocalize "toggleStagedAll" },
    { ViewName := "files", Contexts := [.FILES_CONTEXT_KEY],
      Key := .getKey "files.viewResetOptions", Handler := .method "handleCreateResetMenu",
      Description := .SLocalize "viewResetOptions" },
    { ViewName := "files", Contexts := [.FILES_CONTEXT_KEY], Key := .getKey "universal.goInto",
      Handler := .method "handleEnterFile", Description := .SLocalize "StageLines" },
    { ViewName := "files", Contexts := [.FILES_CONTEXT_KEY], Key := .getKey "files.fetch",
      Handler := .method "handleGitFetch", Description := .SLocalize "fetch" },
    { ViewName := "files", Contexts := [.FILES_CONTEXT_KEY],
      Key := .getKey "universal.copyToClipboard",
      Handler := .wrappedHandler "handleCopySelectedSideContextItemToClipboard",
      Description := .SLocalize "copyFileNameToClipboard" },
    { ViewName := "", Key := .getKey "universal.executeCustomCommand",
      Handler := .method "handleCustomCommand", Description := .SLocalize "executeCustomCommand" },
    { ViewName := "files", Contexts := [.FILES_CONTEXT_KEY],
      Key := .getKey "commits.viewResetOptions",
      Handler := .method "handleCreateResetToUpstreamMenu",
      Description := .SLocalize "viewResetToUpstreamOptions" },
    { ViewName := "branches", Contexts := [.LOCAL_BRANCHES_CONTEXT_KEY],
      Key := .getKey "universal.select", Handler := .method "handleBranchPress",
      Description := .SLocalize "checkout" },
    { ViewName := "branches", Contexts := [.LOCAL_BRANCHES_CONTEXT_KEY],
      Key := .getKey "branches.createPullRequest",
      Handler := .method "handleCreatePullRequestPress",
      Description := .SLocalize "createPullRequest" },
    { ViewName := "branches", Contexts := [.LOCAL_BRANCHES_CONTEXT_KEY],
      Key := .getKey "branches.checkoutBranchByName", Handler := .method "handleCheckoutByName",
      Description := .SLocalize "checkoutByName" },
    { ViewName := "branches", Contexts := [.LOCAL_BRANCHES_CONTEXT_KEY],
      Key := .getKey "branches.forceCheckoutBranch", Handler := .method "handleForceCheckout",
      Description := .SLocalize "forceCheckout" },
    { ViewName := "branches", Contexts := [.LOCAL_BRANCHES_CONTEXT_KEY],
      Key := .getKey "universal.new", Handler := .wrappedHandler "handleNewBranchOffCurrentItem",
      Description := .SLocalize "newBranch" },
    { ViewName := "branches", Contexts := [.LOCAL_BRANCHES_CONTEXT_KEY],
      Key := .getKey "universal.remove", Handler := .method "handleDeleteBranch",
      Description := .SLocalize "deleteBranch" },
    { ViewName := "branches", Contexts := [.LOCAL_BRANCHES_CONTEXT_KEY],
      Key := .getKey "branches.rebaseBranch", Handler := .method "handleRebaseOntoLocalBranch",
      Description := .SLocalize "rebaseBranch" },
    { ViewName := "branches", Contexts := [.LOCAL_BRANCHES_CONTEXT_KEY],
      Key := .getKey "branches.mergeIntoCurrentBranch", Handler := .method "handleMerge",
      Description := .SLocalize "mergeIntoCurrentBranch" },
    { ViewName := "branches", Contexts := [.LOCAL_BRANCHES_CONTEXT_KEY],
      Key := .getKey "branches.viewGitFlowOptions", Handler := .method "handleCreateGitFlowMenu",
      Description := .SLocalize "gitFlowOptions" },
    { ViewName := "branches", Contexts := [.LOCAL_BRANCHES_CONTEXT_KEY],
      Key := .getKey "branches.FastForward", Handler := .method "handleFastForward",
      Description := .SLocalize "FastForward" },
    { ViewName := "branches", Contexts := [.LOCAL_BRANCHES_CONTEXT_KEY],
      Key := .getKey "commits.viewResetOptions",
      Handler := .method "handleCreateResetToBranchMenu",
      Description := .SLocalize "viewResetOptions" },
    { ViewName := "branches", Contexts := [.LOCAL_BRANCHES_CONTEXT_KEY],
      Key := .getKey "branches.renameBranch", Handler := .method "handleRenameBranch",
      Description := .SLocalize "renameBranch" },
    { ViewName := "branches", Contexts := [.LOCAL_BRANCHES_CONTEXT_KEY],
      Key := .getKey "universal.copyToClipboard",
      Handler := .wrappedHandler "handleCopySelectedSideContextItemToClipboard",
      Description := .SLocalize "copyBranchNameToClipboard" },
    { ViewName := "branches", Contexts := [.LOCAL_BRANCHES_CONTEXT_KEY],
      Key := .getKey "universal.goInto", Handler := .wrappedHandler "handleSwitchToSubCommits",
      Description := .SLocalize "viewCommits" },
    { ViewName := "branches", Contexts := [.TAGS_CONTEXT_KEY], Key := .getKey "universal.select",
      Handler := .method "handleCheckoutTag", Description := .SLocalize "checkout" }
  ]

/-- Elements 61 to 90 of the literal that `GetInitialKeybindings` assigns to
`bindings`. -/
def staticBindings3 : List BindingLiteral :=
  [
    { ViewName := "branches", Contexts := [.TAGS_CONTEXT_KEY], Key := .getKey "universal.remove",
      Handler := .method "handleDeleteTag", Description := .SLocalize "deleteTag" },
    { ViewName := "branches", Contexts := [.TAGS_CONTEXT_KEY], Key := .getKey "branches.pushTag",
      Handler := .method "handlePushTag", Description := .SLocalize "pushTag" },
    { ViewName := "branches", Contexts := [.TAGS_CONTEXT_KEY], Key := .getKey "universal.new",
      Handler := .method "handleCreateTag", Description := .SLocalize "createTag" },
    { ViewName := "branches", Contexts := [.TAGS_CONTEXT_KEY],
      Key := .getKey "commits.viewResetOptions", Handler := .method "handleCreateResetToTagMenu",
      Description := .SLocalize "viewResetOptions" },
    { ViewName := "branches", Contexts := [.TAGS_CONTEXT_KEY], Key := .getKey "universal.goInto",
      Handler := .wrappedHandler "handleSwitchToSubCommits",
      Description := .SLocalize "viewCommits" },
    { ViewName := "branches", Key := .getKey "universal.nextTab",
      Handler := .method "handleNextTab", Description := .SLocalize "nextTab" },
    { ViewName := "branches", Key := .getKey "universal.prevTab",
      Handler := .method "handlePrevTab", Description := .SLocalize "prevTab" },
    { ViewName := "branches", Contexts := [.REMOTE_BRANCHES_CONTEXT_KEY],
      Key := .getKey "universal.return", Handler := .method "handleRemoteBranchesEscape",
      Description := .SLocalize "ReturnToRemotesList" },
    { ViewName := "branches", Contexts := [.REMOTE_BRANCHES_CONTEXT_KEY],
      Key := .getKey "commits.viewResetOptions",
      Handler := .method "handleCreateResetToRemoteBranchMenu",
      Description := .SLocalize "viewResetOptions" },
    { ViewName := "branches", Contexts := [.REMOTE_BRANCHES_CONTEXT_KEY],
      Key := .getKey "universal.goInto", Handler := .wrappedHandler "handleSwitchToSubCommits",
      Description := .SLocalize "viewCommits" },
    { ViewName := "branches", Contexts := [.REMOTES_CONTEXT_KEY],
      Key := .getKey "branches.fetchRemote", Handler := .method "handleFetchRemote",
      Description := .SLocalize "fetchRemote" },
    { ViewName := "commits", Key := .getKey "universal.nextTab",
      Handler := .method "handleNextTab", Description := .SLocalize "nextTab" },
    { ViewName := "commits", Key := .getKey "universal.prevTab",
      Handler := .method "handlePrevTab", Description := .SLocalize "prevTab" },
    { ViewName := "commits", Contexts := [.BRANCH_COMMITS_CONTEXT_KEY],
      Key := .getKey "commits.squashDown", Handler := .method "handleCommitSquashDown",
      Description := .SLocalize "squashDown" },
    { ViewName := "commits", Contexts := [.BRANCH_COMMITS_CONTEXT_KEY],
      Key := .getKey "commits.renameCommit", Handler := .method "handleRenameCommit",
      Description := .SLocalize "renameCommit" },
    { ViewName := "commits", Contexts := [.BRANCH_COMMITS_CONTEXT_KEY],
      Key := .getKey "commits.renameCommitWithEditor",
      Handler := .method "handleRenameCommitEditor",
      Description := .SLocalize "renameCommitEditor" },
    { ViewName := "commits", Contexts := [.BRANCH_COMMITS_CONTEXT_KEY],
      Key := .getKey "commits.viewResetOptions", Handler := .method "handleCreateCommitResetMenu",
      Description := .SLocalize "resetToThisCommit" },
    { ViewName := "commits", Contexts := [.BRANCH_COMMITS_CONTEXT_KEY],
      Key := .getKey "commits.markCommitAsFixup", Handler := .method "handleCommitFixup",
      Description := .SLocalize "fixupCommit" },
    { ViewName := "commits", Contexts := [.BRANCH_COMMITS_CONTEXT_KEY],
      Key := .getKey "commits.createFixupCommit", Handler := .method "handleCreateFixupCommit",
      Description := .SLocalize "createFixupCommit" },
    { ViewName := "commits", Contexts := [.BRANCH_COMMITS_CONTEXT_KEY],
      Key := .getKey "commits.squashAboveCommits",
      Handler := .method "handleSquashAllAboveFixupCommits",
      Description := .SLocalize "squashAboveCommits" },
    { ViewName := "commits", Contexts := [.BRANCH_COMMITS_CONTEXT_KEY],
      Key := .getKey "universal.remove", Handler := .method "handleCommitDelete",
      Description := .SLocalize "deleteCommit" },
    { ViewName := "commits", Contexts := [.BRANCH_COMMITS_CONTEXT_KEY],
      Key := .getKey "commits.moveDownCommit", Handler := .method "handleCommitMoveDown",
      Description := .SLocalize "moveDownCommit" },
    { ViewName := "commits", Contexts := [.BRANCH_COMMITS_CONTEXT_KEY],
      Key := .getKey "commits.moveUpCommit", Handler := .method "handleCommitMoveUp",
      Description := .SLocalize "moveUpCommit" },
    { ViewName := "commits", Contexts := [.BRANCH_COMMITS_CONTEXT_KEY],
      Key := .getKey "universal.edit", Handler := .method "handleCommitEdit",
      Description := .SLocalize "editCommit" },
    { ViewName := "commits", Contexts := [.BRANCH_COMMITS_CONTEXT_KEY],
      Key := .getKey "commits.amendToCommit", Handler := .method "handleCommitAmendTo",
      Description := .SLocalize "amendToCommit" },
    { ViewName := "commits", Contexts := [.BRANCH_COMMITS_CONTEXT_KEY],
      Key := .getKey "commits.pickCommit", Handler := .method "handleCommitPick",
      Description := .SLocalize "pickCommit" },
    { ViewName := "commits", Contexts := [.BRANCH_COMMITS_CONTEXT_KEY],
      Key := .getKey "commits.revertCommit", Handler := .method "handleCommitRevert",
      Description := .SLocalize "revertCommit" },
    { ViewName := "commits", Contexts := [.BRANCH_COMMITS_CONTEXT_KEY],
      Key := .getKey "commits.cherryPickCopy", Handler := .wrappedHandler "handleCopyCommit",
      Description := .SLocalize "cherryPickCopy" },
    { ViewName := "commits", Contexts := [.BRANCH_COMMITS_CONTEXT_KEY],
      Key := .getKey "universal.copyToClipboard",
      Handler := .wrappedHandler "handleCopySelectedSideContextItemToClipboard",
      Description := .SLocalize "copyCommitShaToClipboard" },
    { ViewName := "commits", Contexts := [.BRANCH_COMMITS_CONTEXT_KEY],
      Key := .getKey "commits.cherryPickCopyRange",
      Handler := .wrappedHandler "handleCopyCommitRange",
      Description := .SLocalize "cherryPickCopyRange" }
  ]

/-- Elements 91 to 120 of the literal that `GetInitialKeybindings` assigns to
`bindings`. -/
def staticBindings4 : List BindingLiteral :=
  [
    { ViewName := "commits", Contexts := [.BRANCH_COMMITS_CONTEXT_KEY],
      Key := .getKey "commits.pasteCommits", Handler := .wrappedHandler "HandlePasteCommits",
      Description := .SLocalize "pasteCommits" },
    { ViewName := "commits", Contexts := [.BRANCH_COMMITS_CONTEXT_KEY],
      Key := .getKey "universal.goInto", Handler := .wrappedHandler "handleViewCommitFiles",
      Description := .SLocalize "viewCommitFiles" },
    { ViewName := "commits", Contexts := [.BRANCH_COMMITS_CONTEXT_KEY],
      Key := .getKey "commits.checkoutCommit", Handler := .method "handleCheckoutCommit",
      Description := .SLocalize "checkoutCommit" },
    { ViewName := "commits", Contexts := [.BRANCH_COMMITS_CONTEXT_KEY],
      Key := .getKey "universal.new", Modifier := .ModNone,
      Handler := .wrappedHandler "handleNewBranchOffCurrentItem",
      Description := .SLocalize "createNewBranchFromCommit" },
    { ViewName := "commits", Contexts := [.BRANCH_COMMITS_CONTEXT_KEY],
      Key := .getKey "commits.tagCommit", Handler := .method "handleTagCommit",
      Description := .SLocalize "tagCommit" },
    { ViewName := "commits", Contexts := [.BRANCH_COMMITS_CONTEXT_KEY],
      Key := .getKey "commits.resetCherryPick", Handler := .wrappedHandler "exitCherryPickingMode",
      Description := .SLocalize "resetCherryPick" },
    { ViewName := "commits", Contexts := [.REFLOG_COMMITS_CONTEXT_KEY],
      Key := .getKey "universal.goInto", Handler := .wrappedHandler "handleViewReflogCommitFiles",
      Description := .SLocalize "viewCommitFiles" },
    { ViewName := "commits", Contexts := [.REFLOG_COMMITS_CONTEXT_KEY],
      Key := .getKey "universal.select", Handler := .method "handleCheckoutReflogCommit",
      Description := .SLocalize "checkoutCommit" },
    { ViewName := "commits", Contexts := [.REFLOG_COMMITS_CONTEXT_KEY],
      Key := .getKey "commits.viewResetOptions", Handler := .method "handleCreateReflogResetMenu",
      Description := .SLocalize "viewResetOptions" },
    { ViewName := "commits", Contexts := [.REFLOG_COMMITS_CONTEXT_KEY],
      Key := .getKey "commits.cherryPickCopy", Handler := .wrappedHandler "handleCopyCommit",
      Description := .SLocalize "cherryPickCopy" },
    { ViewName := "commits", Contexts := [.REFLOG_COMMITS_CONTEXT_KEY],
      Key := .getKey "commits.cherryPickCopyRange",
      Handler := .wrappedHandler "handleCopyCommitRange",
      Description := .SLocalize "cherryPickCopyRange" },
    { ViewName := "commits", Contexts := [.REFLOG_COMMITS_CONTEXT_KEY],
      Key := .getKey "commits.resetCherryPick", Handler := .wrappedHandler "exitCherryPickingMode",
      Description := .SLocalize "resetCherryPick" },
    { ViewName := "commits", Contexts := [.REFLOG_COMMITS_CONTEXT_KEY],
      Key := .getKey "universal.copyToClipboard",
      Handler := .wrappedHandler "handleCopySelectedSideContextItemToClipboard",
      Description := .SLocalize "copyCommitShaToClipboard" },
    { ViewName := "commitFiles", Key := .getKey "universal.copyToClipboard",
      Handler := .wrappedHandler "handleCopySelectedSideContextItemToClipboard",
      Description := .SLocalize "copyCommitFileNameToClipboard" },
    { ViewName := "branches", Contexts := [.SUB_COMMITS_CONTEXT_KEY],
      Key := .getKey "universal.goInto", Handler := .wrappedHandler "handleViewSubCommitFiles",
      Description := .SLocalize "viewCommitFiles" },
    { ViewName := "branches", Contexts := [.SUB_COMMITS_CONTEXT_KEY],
      Key := .getKey "universal.select", Handler := .method "handleCheckoutSubCommit",
      Description := .SLocalize "checkoutCommit" },
    { ViewName := "branches", Contexts := [.SUB_COMMITS_CONTEXT_KEY],
      Key := .getKey "commits.viewResetOptions",
      Handler := .wrappedHandler "handleCreateSubCommitResetMenu",
      Description := .SLocalize "viewResetOptions" },
    { ViewName := "branches", Contexts := [.SUB_COMMITS_CONTEXT_KEY],
      Key := .getKey "universal.new", Handler := .wrappedHandler "handleNewBranchOffCurrentItem",
      Description := .SLocalize "newBranch" },
    { ViewName := "branches", Contexts := [.SUB_COMMITS_CONTEXT_KEY],
      Key := .getKey "commits.cherryPickCopy", Handler := .wrappedHandler "handleCopyCommit",
      Description := .SLocalize "cherryPickCopy" },
    { ViewName := "branches", Contexts := [.SUB_COMMITS_CONTEXT_KEY],
      Key := .getKey "commits.cherryPickCopyRange",
      Handler := .wrappedHandler "handleCopyCommitRange",
      Description := .SLocalize "cherryPickCopyRange" },
    { ViewName := "branches", Contexts := [.SUB_COMMITS_CONTEXT_KEY],
      Key := .getKey "commits.resetCherryPick", Handler := .wrappedHandler "exitCherryPickingMode",
      Description := .SLocalize "resetCherryPick" },
    { ViewName := "branches", Contexts := [.SUB_COMMITS_CONTEXT_KEY],
      Key := .getKey "universal.copyToClipboard",
      Handler := .wrappedHandler "handleCopySelectedSideContextItemToClipboard",
      Description := .SLocalize "copyCommitShaToClipboard" },
    { ViewName := "stash", Key := .getKey "universal.goInto",
      Handler := .wrappedHandler "handleViewStashFiles",
      Description := .SLocalize "viewStashFiles" },
    { ViewName := "stash", Key := .getKey "universal.select",
      Handler := .method "handleStashApply", Description := .SLocalize "apply" },
    { ViewName := "stash", Key := .getKey "stash.popStash", Handler := .method "handleStashPop",
      Description := .SLocalize "pop" },
    { ViewName := "stash", Key := .getKey "universal.remove", Handler := .method "handleStashDrop",
      Description := .SLocalize "drop" },
    { ViewName := "stash", Key := .getKey "universal.new",
      Handler := .wrappedHandler "handleNewBranchOffCurrentItem",
      Description := .SLocalize "newBranch" },
    { ViewName := "commitMessage", Key := .getKey "universal.confirm", Modifier := .ModNone,
      Handler := .method "handleCommitConfirm" },
    { ViewName := "commitMessage", Key := .getKey "universal.return", Modifier := .ModNone,
      Handler := .method "handleCommitClose" },
    { ViewName := "credentials", Key := .getKey "universal.confirm", Modifier := .ModNone,
      Handler := .method "handleSubmitCredential" }
  ]

/-- Elements 121 to 150 of the literal that `GetInitialKeybindings` assigns to
`bindings`. -/
def staticBindings5 : List BindingLiteral :=
  [
    { ViewName := "credentials", Key := .getKey "universal.return", Modifier := .ModNone,
      Handler := .method "handleCloseCredentialsView" },
    { ViewName := "menu", Key := .getKey "universal.return", Handler := .method "handleMenuClose",
      Description := .SLocalize "closeMenu" },
    { ViewName := "information", Key := .const .MouseLeft, Modifier := .ModNone,
      Handler := .method "handleInfoClick" },
    { ViewName := "commitFiles", Key := .getKey "commitFiles.checkoutCommitFile",
      Handler := .method "handleCheckoutCommitFile",
      Description := .SLocalize "checkoutCommitFile" },
    { ViewName := "commitFiles", Key := .getKey "universal.remove",
      Handler := .method "handleDiscardOldFileChange",
      Description := .SLocalize "discardOldFileChange" },
    { ViewName := "commitFiles", Key := .getKey "universal.openFile",
      Handler := .method "handleOpenOldCommitFile", Description := .SLocalize "openFile" },
    { ViewName := "commitFiles", Key := .getKey "universal.edit",
      Handler := .method "handleEditCommitFile", Description := .SLocalize "editFile" },
    { ViewName := "commitFiles", Key := .getKey "universal.select",
      Handler := .method "handleToggleFileForPatch", Description := .SLocalize "toggleAddToPatch" },
    { ViewName := "commitFiles", Key := .getKey "universal.goInto",
      Handler := .method "handleEnterCommitFile", Description := .SLocalize "enterFile" },
    { ViewName := "", Key := .getKey "universal.filteringMenu",
      Handler := .method "handleCreateFilteringMenuPanel",
      Description := .SLocalize "openScopingMenu" },
    { ViewName := "", Key := .getKey "universal.diffingMenu",
      Handler := .method "handleCreateDiffingMenuPanel",
      Description := .SLocalize "openDiffingMenu" },
    { ViewName := "", Key := .getKey "universal.diffingMenu-alt",
      Handler := .method "handleCreateDiffingMenuPanel",
      Description := .SLocalize "openDiffingMenu" },
    { ViewName := "secondary", Key := .const .MouseWheelUp, Modifier := .ModNone,
      Handler := .method "scrollUpSecondary" },
    { ViewName := "secondary", Key := .const .MouseWheelDown, Modifier := .ModNone,
      Handler := .method "scrollDownSecondary" },
    { ViewName := "secondary", Contexts := [.MAIN_NORMAL_CONTEXT_KEY], Key := .const .MouseLeft,
      Modifier := .ModNone, Handler := .method "handleMouseDownSecondary" },
    { ViewName := "main", Contexts := [.MAIN_NORMAL_CONTEXT_KEY], Key := .const .MouseWheelDown,
      Handler := .method "scrollDownMain", Description := .SLocalize "ScrollDown",
      Alternative := "fn+up" },
    { ViewName := "main", Contexts := [.MAIN_NORMAL_CONTEXT_KEY], Key := .const .MouseWheelUp,
      Handler := .method "scrollUpMain", Description := .SLocalize "ScrollUp",
      Alternative := "fn+down" },
    { ViewName := "main", Contexts := [.MAIN_NORMAL_CONTEXT_KEY], Key := .const .MouseLeft,
      Modifier := .ModNone, Handler := .method "handleMouseDownMain" },
    { ViewName := "secondary", Contexts := [.MAIN_STAGING_CONTEXT_KEY], Key := .const .MouseLeft,
      Modifier := .ModNone, Handler := .method "handleTogglePanelClick" },
    { ViewName := "main", Contexts := [.MAIN_STAGING_CONTEXT_KEY],
      Key := .getKey "universal.return", Handler := .wrappedHandler "handleStagingEscape",
      Description := .SLocalize "ReturnToFilesPanel" },
    { ViewName := "main", Contexts := [.MAIN_STAGING_CONTEXT_KEY],
      Key := .getKey "universal.select", Handler := .method "handleToggleStagedSelection",
      Description := .SLocalize "StageSelection" },
    { ViewName := "main", Contexts := [.MAIN_STAGING_CONTEXT_KEY],
      Key := .getKey "universal.remove", Handler := .method "handleResetSelection",
      Description := .SLocalize "ResetSelection" },
    { ViewName := "main", Contexts := [.MAIN_STAGING_CONTEXT_KEY],
      Key := .getKey "universal.togglePanel", Handler := .method "handleTogglePanel",
      Description := .SLocalize "TogglePanel" },
    { ViewName := "main", Contexts := [.MAIN_PATCH_BUILDING_CONTEXT_KEY],
      Key := .getKey "universal.return",
      Handler := .wrappedHandler "handleEscapePatchBuildingPanel",
      Description := .SLocalize "ExitLineByLineMode" },
    { ViewName := "main",
      Contexts := [.MAIN_PATCH_BUILDING_CONTEXT_KEY, .MAIN_STAGING_CONTEXT_KEY],
      Key := .getKey "universal.openFile", Handler := .wrappedHandler "handleOpenFileAtLine",
      Description := .SLocalize "openFile" },
    { ViewName := "main",
      Contexts := [.MAIN_PATCH_BUILDING_CONTEXT_KEY, .MAIN_STAGING_CONTEXT_KEY],
      Key := .getKey "universal.prevItem", Handler := .method "handleSelectPrevLine",
      Description := .SLocalize "PrevLine" },
    { ViewName := "main",
      Contexts := [.MAIN_PATCH_BUILDING_CONTEXT_KEY, .MAIN_STAGING_CONTEXT_KEY],
      Key := .getKey "universal.nextItem", Handler := .method "handleSelectNextLine",
      Description := .SLocalize "NextLine" },
    { ViewName := "main",
      Contexts := [.MAIN_PATCH_BUILDING_CONTEXT_KEY, .MAIN_STAGING_CONTEXT_KEY],
      Key := .getKey "universal.prevItem-alt", Modifier := .ModNone,
      Handler := .method "handleSelectPrevLine" },
    { ViewName := "main",
      Contexts := [.MAIN_PATCH_BUILDING_CONTEXT_KEY, .MAIN_STAGING_CONTEXT_KEY],
      Key := .getKey "universal.nextItem-alt", Modifier := .ModNone,
      Handler := .method "handleSelectNextLine" },
    { ViewName := "main",
      Contexts := [.MAIN_PATCH_BUILDING_CONTEXT_KEY, .MAIN_STAGING_CONTEXT_KEY],
      Key := .const .MouseWheelUp, Modifier := .ModNone,
      Handler := .method "handleSelectPrevLine" }
  ]

/-- Elements 151 to 180 of the literal that `GetInitialKeybindings` assigns to
`bindings`. -/
def staticBindings6 : List BindingLiteral :=
  [
    { ViewName := "main",
      Contexts := [.MAIN_PATCH_BUILDING_CONTEXT_KEY, .MAIN_STAGING_CONTEXT_KEY],
      Key := .const .MouseWheelDown, Modifier := .ModNone,
      Handler := .method "handleSelectNextLine" },
    { ViewName := "main",
      Contexts := [.MAIN_PATCH_BUILDING_CONTEXT_KEY, .MAIN_STAGING_CONTEXT_KEY],
      Key := .getKey "universal.prevBlock", Handler := .method "handleSelectPrevHunk",
      Description := .SLocalize "PrevHunk" },
    { ViewName := "main",
      Contexts := [.MAIN_PATCH_BUILDING_CONTEXT_KEY, .MAIN_STAGING_CONTEXT_KEY],
      Key := .getKey "universal.nextBlock", Handler := .method "handleSelectNextHunk",
      Description := .SLocalize "NextHunk" },
    { ViewName := "main",
      Contexts := [.MAIN_PATCH_BUILDING_CONTEXT_KEY, .MAIN_STAGING_CONTEXT_KEY],
      Key := .getKey "universal.prevBlock-alt", Modifier := .ModNone,
      Handler := .method "handleSelectPrevHunk" },
    { ViewName := "main",
      Contexts := [.MAIN_PATCH_BUILDING_CONTEXT_KEY, .MAIN_STAGING_CONTEXT_KEY],
      Key := .getKey "universal.nextBlock-alt", Modifier := .ModNone,
      Handler := .method "handleSelectNextHunk" },
    { ViewName := "main", Contexts := [.MAIN_STAGING_CONTEXT_KEY], Key := .getKey "universal.edit",
      Handler := .method "handleFileEdit", Description := .SLocalize "editFile" },
    { ViewName := "main", Contexts := [.MAIN_STAGING_CONTEXT_KEY],
      Key := .getKey "universal.openFile", Handler := .method "handleFileOpen",
      Description := .SLocalize "openFile" },
    { ViewName := "main", Contexts := [.MAIN_PATCH_BUILDING_CONTEXT_KEY],
      Key := .getKey "universal.select", Handler := .method "handleToggleSelectionForPatch",
      Description := .SLocalize "ToggleSelectionForPatch" },
    { ViewName := "main",
      Contexts := [.MAIN_PATCH_BUILDING_CONTEXT_KEY, .MAIN_STAGING_CONTEXT_KEY],
      Key := .getKey "main.toggleDragSelect", Handler := .method "handleToggleSelectRange",
      Description := .SLocalize "ToggleDragSelect" },
    -- Alias 'V' -> 'v'
    { ViewName := "main",
      Contexts := [.MAIN_PATCH_BUILDING_CONTEXT_KEY, .MAIN_STAGING_CONTEXT_KEY],
      Key := .getKey "main.toggleDragSelect-alt", Handler := .method "handleToggleSelectRange",
      Description := .SLocalize "ToggleDragSelect" },
    { ViewName := "main",
      Contexts := [.MAIN_PATCH_BUILDING_CONTEXT_KEY, .MAIN_STAGING_CONTEXT_KEY],
      Key := .getKey "main.toggleSelectHunk", Handler := .method "handleToggleSelectHunk",
      Description := .SLocalize "ToggleSelectHunk" },
    { ViewName := "main",
      Contexts := [.MAIN_PATCH_BUILDING_CONTEXT_KEY, .MAIN_STAGING_CONTEXT_KEY],
      Key := .const .MouseLeft, Modifier := .ModNone, Handler := .method "handleMouseDown" },
    { ViewName := "main",
      Contexts := [.MAIN_PATCH_BUILDING_CONTEXT_KEY, .MAIN_STAGING_CONTEXT_KEY],
      Key := .const .MouseLeft, Modifier := .ModMotion, Handler := .method "handleMouseDrag" },
    { ViewName := "main",
      Contexts := [.MAIN_PATCH_BUILDING_CONTEXT_KEY, .MAIN_STAGING_CONTEXT_KEY],
      Key := .const .MouseWheelUp, Modifier := .ModNone, Handler := .method "handleMouseScrollUp" },
    { ViewName := "main",
      Contexts := [.MAIN_PATCH_BUILDING_CONTEXT_KEY, .MAIN_STAGING_CONTEXT_KEY],
      Key := .const .MouseWheelDown, Modifier := .ModNone,
      Handler := .method "handleMouseScrollDown" },
    { ViewName := "main", Contexts := [.MAIN_STAGING_CONTEXT_KEY],
      Key := .getKey "files.commitChanges", Handler := .wrappedHandler "handleCommitPress",
      Description := .SLocalize "CommitChanges" },
    { ViewName := "main", Contexts := [.MAIN_STAGING_CONTEXT_KEY],
      Key := .getKey "files.commitChangesWithoutHook", Handler := .method "handleWIPCommitPress",
      Description := .SLocalize "commitChangesWithoutHook" },
    { ViewName := "main", Contexts := [.MAIN_STAGING_CONTEXT_KEY],
      Key := .getKey "files.commitChangesWithEditor",
      Handler := .wrappedHandler "handleCommitEditorPress",
      Description := .SLocalize "CommitChangesWithEditor" },
    { ViewName := "main", Contexts := [.MAIN_MERGING_CONTEXT_KEY],
      Key := .getKey "universal.return", Handler := .wrappedHandler "handleEscapeMerge",
      Description := .SLocalize "ReturnToFilesPanel" },
    { ViewName := "main", Contexts := [.MAIN_MERGING_CONTEXT_KEY],
      Key := .getKey "universal.select", Handler := .method "handlePickHunk",
      Description := .SLocalize "PickHunk" },
    { ViewName := "main", Contexts := [.MAIN_MERGING_CONTEXT_KEY],
      Key := .getKey "main.pickBothHunks", Handler := .method "handlePickBothHunks",
      Description := .SLocalize "PickBothHunks" },
    { ViewName := "main", Contexts := [.MAIN_MERGING_CONTEXT_KEY],
      Key := .getKey "universal.prevBlock", Handler := .method "handleSelectPrevConflict",
      Description := .SLocalize "PrevConflict" },
    { ViewName := "main", Contexts := [.MAIN_MERGING_CONTEXT_KEY],
      Key := .getKey "universal.nextBlock", Handler := .method "handleSelectNextConflict",
      Description := .SLocalize "NextConflict" },
    { ViewName := "main", Contexts := [.MAIN_MERGING_CONTEXT_KEY],
      Key := .getKey "universal.prevItem", Handler := .method "handleSelectTop",
      Description := .SLocalize "SelectTop" },
    { ViewName := "main", Contexts := [.MAIN_MERGING_CONTEXT_KEY],
      Key := .getKey "universal.nextItem", Handler := .method "handleSelectBottom",
      Description := .SLocalize "SelectBottom" },
    { ViewName := "main", Contexts := [.MAIN_MERGING_CONTEXT_KEY], Key := .const .MouseWheelUp,
      Modifier := .ModNone, Handler := .method "handleSelectTop" },
    { ViewName := "main", Contexts := [.MAIN_MERGING_CONTEXT_KEY], Key := .const .MouseWheelDown,
      Modifier := .ModNone, Handler := .method "handleSelectBottom" },
    { ViewName := "main", Contexts := [.MAIN_MERGING_CONTEXT_KEY],
      Key := .getKey "universal.prevBlock-alt", Modifier := .ModNone,
      Handler := .method "handleSelectPrevConflict" },
    { ViewName := "main", Contexts := [.MAIN_MERGING_CONTEXT_KEY],
      Key := .getKey "universal.nextBlock-alt", Modifier := .ModNone,
      Handler := .method "handleSelectNextConflict" },
    { ViewName := "main", Contexts := [.MAIN_MERGING_CONTEXT_KEY],
      Key := .getKey "universal.prevItem-alt", Modifier := .ModNone,
      Handler := .method "handleSelectTop" }
  ]

/-- Elements 181 to 209 of the literal that `GetInitialKeybindings` assigns to
`bindings`. -/
def staticBindings7 : List BindingLiteral :=
  [
    { ViewName := "main", Contexts := [.MAIN_MERGING_CONTEXT_KEY],
      Key := .getKey "universal.nextItem-alt", Modifier := .ModNone,
      Handler := .method "handleSelectBottom" },
    { ViewName := "main", Contexts := [.MAIN_MERGING_CONTEXT_KEY], Key := .getKey "universal.undo",
      Handler := .method "handlePopFileSnapshot", Description := .SLocalize "undo" },
    { ViewName := "branches", Contexts := [.REMOTES_CONTEXT_KEY],
      Key := .getKey "universal.goInto", Modifier := .ModNone,
      Handler := .wrappedHandler "handleRemoteEnter" },
    { ViewName := "branches", Contexts := [.REMOTES_CONTEXT_KEY], Key := .getKey "universal.new",
      Handler := .method "handleAddRemote", Description := .SLocalize "addNewRemote" },
    { ViewName := "branches", Contexts := [.REMOTES_CONTEXT_KEY],
      Key := .getKey "universal.remove", Handler := .method "handleRemoveRemote",
      Description := .SLocalize "removeRemote" },
    { ViewName := "branches", Contexts := [.REMOTES_CONTEXT_KEY], Key := .getKey "universal.edit",
      Handler := .method "handleEditRemote", Description := .SLocalize "editRemote" },
    -- gonna use the exact same handler as the 'n' keybinding because everybody wants this to happen when they checkout a remote branch
    { ViewName := "branches", Contexts := [.REMOTE_BRANCHES_CONTEXT_KEY],
      Key := .getKey "universal.select",
      Handler := .wrappedHandler "handleNewBranchOffCurrentItem",
      Description := .SLocalize "checkout" },
    { ViewName := "branches", Contexts := [.REMOTE_BRANCHES_CONTEXT_KEY],
      Key := .getKey "universal.new", Handler := .wrappedHandler "handleNewBranchOffCurrentItem",
      Description := .SLocalize "newBranch" },
    { ViewName := "branches", Contexts := [.REMOTE_BRANCHES_CONTEXT_KEY],
      Key := .getKey "branches.mergeIntoCurrentBranch",
      Handler := .method "handleMergeRemoteBranch",
      Description := .SLocalize "mergeIntoCurrentBranch" },
    { ViewName := "branches", Contexts := [.REMOTE_BRANCHES_CONTEXT_KEY],
      Key := .getKey "universal.remove", Handler := .method "handleDeleteRemoteBranch",
      Description := .SLocalize "deleteBranch" },
    { ViewName := "branches", Contexts := [.REMOTE_BRANCHES_CONTEXT_KEY],
      Key := .getKey "branches.rebaseBranch", Handler := .method "handleRebaseOntoRemoteBranch",
      Description := .SLocalize "rebaseBranch" },
    { ViewName := "branches", Contexts := [.REMOTE_BRANCHES_CONTEXT_KEY],
      Key := .getKey "branches.setUpstream", Handler := .method "handleSetBranchUpstream",
      Description := .SLocalize "setUpstream" },
    { ViewName := "status", Key := .const .MouseLeft, Modifier := .ModNone,
      Handler := .method "handleStatusClick" },
    { ViewName := "search", Key := .getKey "universal.confirm", Modifier := .ModNone,
      Handler := .method "handleSearch" },
    { ViewName := "search", Key := .getKey "universal.return", Modifier := .ModNone,
      Handler := .method "handleSearchEscape" },
    { ViewName := "confirmation", Key := .getKey "universal.prevItem", Modifier := .ModNone,
      Handler := .method "scrollUpConfirmationPanel" },
    { ViewName := "confirmation", Key := .getKey "universal.nextItem", Modifier := .ModNone,
      Handler := .method "scrollDownConfirmationPanel" },
    { ViewName := "confirmation", Key := .getKey "universal.prevItem-alt", Modifier := .ModNone,
      Handler := .method "scrollUpConfirmationPanel" },
    { ViewName := "confirmation", Key := .getKey "universal.nextItem-alt", Modifier := .ModNone,
      Handler := .method "scrollDownConfirmationPanel" },
    { ViewName := "menu", Key := .getKey "universal.select", Modifier := .ModNone,
      Handler := .wrappedHandler "onMenuPress" },
    { ViewName := "menu", Key := .getKey "universal.confirm", Modifier := .ModNone,
      Handler := .wrappedHandler "onMenuPress" },
    { ViewName := "menu", Key := .getKey "universal.confirm-alt1", Modifier := .ModNone,
      Handler := .wrappedHandler "onMenuPress" },
    { ViewName := "files", Contexts := [.SUBMODULES_CONTEXT_KEY],
      Key := .getKey "universal.goInto", Handler := .wrappedHandler "handleSubmoduleEnter",
      Description := .SLocalize "enterSubmodule" },
    { ViewName := "files", Key := .getKey "universal.nextTab", Handler := .method "handleNextTab",
      Description := .SLocalize "nextTab" },
    { ViewName := "files", Key := .getKey "universal.prevTab", Handler := .method "handlePrevTab",
      Description := .SLocalize "prevTab" },
    { ViewName := "files", Contexts := [.SUBMODULES_CONTEXT_KEY],
      Key := .getKey "universal.copyToClipboard",
      Handler := .wrappedHandler "handleCopySelectedSideContextItemToClipboard",
      Description := .SLocalize "copySubmoduleNameToClipboard" },
    { ViewName := "files", Contexts := [.SUBMODULES_CONTEXT_KEY],
      Key := .getKey "universal.remove", Handler := .wrappedHandler "handleRemoveSubmodule",
      Description := .SLocalize "removeSubmodule" },
    { ViewName := "files", Contexts := [.SUBMODULES_CONTEXT_KEY], Key := .getKey "u",
      Handler := .wrappedHandler "handleResetSubmodule",
      Description := .SLocalize "submoduleStashAndReset" },
    { ViewName := "files", Contexts := [.SUBMODULES_CONTEXT_KEY], Key := .getKey "universal.new",
      Handler := .wrappedHandler "handleAddSubmodule", Description := .SLocalize "addSubmodule" }
  ]

/-- The literal that `GetInitialKeybindings` assigns to `bindings`: its 209
elements, first to last. -/
def staticBindings : List BindingLiteral :=
  staticBindings1 ++ staticBindings2 ++ staticBindings3 ++ staticBindings4 ++
  staticBindings5 ++ staticBindings6 ++ staticBindings7

/-- The collaborators of `keybindings`. -/
structure KeybindingsConfig extends BindingConfig where
  /-- The method `gui.Tr.SLocalize`. -/
  SLocalize : String → String
  /-- The values of the context key constants. -/
  contextKey : ContextKey → String
  /-- The result of `gui.getListContextKeyBindings()`. -/
  getListContextKeyBindings : Except FatalError (List Binding)
  /-- The error, if any, of `gui.g.SetKeybinding` for the fields of a binding. -/
  SetKeybinding : Binding → Option String
  /-- The keys of `gui.viewTabContextMap()`, in the order of the iteration. -/
  viewTabContextMap : List String
  /-- The error, if any, of `gui.g.SetTabClickBinding` for a view. -/
  SetTabClickBinding : String → Option String

/-- The value of one element of the literal. -/
def bindingOfLiteral (gui : KeybindingsConfig) (l : BindingLiteral) : Except FatalError Binding :=
  let key : Except FatalError KeyId :=
    match l.Key with
    | .getKey name => getKey gui.toKeyConfig name
    | .const k => .ok (.key k)
  match key with
  | .error e => .error e
  | .ok key =>
    .ok { ViewName := l.ViewName
          Contexts := l.Contexts.map gui.contextKey
          Key := key
          Modifier := l.Modifier
          Handler := l.Handler
          Description :=
            match l.Description with
            | .absent => ""
            | .SLocalize k => gui.SLocalize k
          Alternative := l.Alternative }

/-- The values of the elements of a literal, first to last. -/
def bindingsOfLiterals (gui : KeybindingsConfig) :
    List BindingLiteral → Except FatalError (List Binding)
  | [] => .ok []
  | l :: rest =>
    match bindingOfLiteral gui l with
    | .error e => .error e
    | .ok binding =>
      match bindingsOfLiterals gui rest with
      | .error e => .error e
      | .ok bindings => .ok (binding :: bindings)

/-- The four bindings that the first loop of `GetInitialKeybindings` appends
for one view. -/
def sideWindowBindings (gui : KeybindingsConfig) (viewName : String) :
    Except FatalError (List Binding) :=
  match getKey gui.toKeyConfig "universal.prevBlock" with
  | .error e => .error e
  | .ok prevBlock =>
    match getKey gui.toKeyConfig "universal.nextBlock" with
    | .error e => .error e
    | .ok nextBlock =>
      match getKey gui.toKeyConfig "universal.prevBlock-alt" with
      | .error e => .error e
      | .ok prevBlockAlt =>
        match getKey gui.toKeyConfig "universal.nextBlock-alt" with
        | .error e => .error e
        | .ok nextBlockAlt =>
          .ok [ { ViewName := viewName, Contexts := [], Key := prevBlock, Modifier := .ModNone,
                  Handler := .wrappedHandler "previousSideWindow", Description := "",
                  Alternative := "" },
                { ViewName := viewName, Contexts := [], Key := nextBlock, Modifier := .ModNone,
                  Handler := .wrappedHandler "nextSideWindow", Description := "",
                  Alternative := "" },
                { ViewName := viewName, Contexts := [], Key := prevBlockAlt, Modifier := .ModNone,
                  Handler := .wrappedHandler "previousSideWindow", Description := "",
                  Alternative := "" },
                { ViewName := viewName, Contexts := [], Key := nextBlockAlt, Modifier := .ModNone,
                  Handler := .wrappedHandler "nextSideWindow", Description := "",
                  Alternative := "" } ]

/-- The first loop of `GetInitialKeybindings`, over the view names, with its
accumulator `bindings`. -/
def appendSideWindowBindings (gui : KeybindingsConfig) :
    List String → List Binding → Except FatalError (List Binding)
  | [], bindings => .ok bindings
  | viewName :: rest, bindings =>
    match sideWindowBindings gui viewName with
    | .error e => .error e
    | .ok new => appendSideWindowBindings gui rest (bindings ++ new)

/-- The binding that the second loop appends for the window at index `i`: the
key is `rune(i+1) + '0'`. -/
def jumpBinding (i : Nat) (window : String) : Binding where
  ViewName := ""
  Contexts := []
  Key := .rune (Char.ofNat ((i + 1) + '0'.toNat))
  Modifier := .ModNone
  Handler := .goToSideWindow window
  Description := ""
  Alternative := ""

/-- The second loop of `GetInitialKeybindings`, over the windows from index
`i` on, with its accumulator `bindings`. -/
def appendJumpBindings : List String → Nat → List Binding → List Binding
  | [], _, bindings => bindings
  | window :: rest, i, bindings =>
    appendJumpBindings rest (i + 1) (bindings ++ [jumpBinding i window])

/-- The method `GetInitialKeybindings` of keybindings.go. -/
def GetInitialKeybindings (gui : KeybindingsConfig) : Except FatalError (List Binding) :=
  match bindingsOfLiterals gui staticBindings with
  | .error e => .error e
  | .ok bindings =>
    match appendSideWindowBindings gui
        ["status", "branches", "files", "commits", "commitFiles", "stash", "menu"] bindings with
    | .error e => .error e
    | .ok bindings =>
      -- Appends keybindings to jump to a particular sideView using numbers
      let bindings :=
        appendJumpBindings ["status", "files", "branches", "commits", "stash"] 0 bindings
      match gui.getListContextKeyBindings with
      | .error e => .error e
      | .ok listBindings => .ok (bindings ++ listBindings)

/-- A call that `keybindings` makes on `gui.g`. -/
inductive Registration where
  /-- `SetKeybinding` with the fields of a binding -/
  | keybinding (binding : Binding)
  /-- `SetTabClickBinding` for a view -/
  | tabClick (viewName : String)
  deriving DecidableEq

/-- The loop of `keybindings` over the bindings: the calls made and the error
that ended the loop, if any. -/
def setKeybindings (gui : KeybindingsConfig) : List Binding → List Registration × Option String
  | [] => ([], none)
  | binding :: rest =>
    match gui.SetKeybinding binding with
    | some err => ([.keybinding binding], some err)
    | none => ((.keybinding binding) :: (setKeybindings gui rest).1, (setKeybindings gui rest).2)

/-- The loop of `keybindings` over the views with tabs. -/
def setTabClickBindings (gui : KeybindingsConfig) : List String → List Registration × Option String
  | [] => ([], none)
  | viewName :: rest =>
    match gui.SetTabClickBinding viewName with
    | some err => ([.tabClick viewName], some err)
    | none =>
      ((.tabClick viewName) :: (setTabClickBindings gui rest).1, (setTabClickBindings gui rest).2)

/-- The method `keybindings` of keybindings.go: the calls made on `gui.g`, in
order, and the returned error; the outer error is a fatal error of the
construction of the bindings. -/
def keybindings (gui : KeybindingsConfig) : Except FatalError (List Registration × Option String) :=
  match GetCustomCommandKeybindings gui.toBindingConfig with
  | .error e => .error e
  | .ok bindings =>
    match GetInitialKeybindings gui with
    | .error e => .error e
    | .ok initial =>
      let bindings := bindings ++ initial
      match setKeybindings gui bindings with
      | (calls, some err) => .ok (calls, some err)
      | (calls, none) =>
        .ok (calls ++ (setTabClickBindings gui gui.viewTabContextMap).1,
             (setTabClickBindings gui gui.viewTabContextMap).2)

/-- The bindings of the calls of `SetKeybinding` among the calls made. -/
def registeredBindings (calls : List Registration) : List Binding :=
  calls.filterMap fun
    | .keybinding binding => some binding
    | .tabClick _ => none

/-- The bindings that the second loop of `GetInitialKeybindings` appends. -/
def numericJumpBindings : List Binding :=
  appendJumpBindings ["status", "files", "branches", "commits", "stash"] 0 []

/-- A configuration for concrete evaluations: the commands of
`twoCommandsConfig`, every keybinding configured as the letter `q`, two
list-context bindings, two views with tabs, and a gocui that accepts every
binding. -/
def demoKeybindingsConfig : KeybindingsConfig where
  GetString := fun _ => "q"
  ToLower := asciiToLower
  customCommands := twoCommandsConfig.customCommands
  contextForContextKey := twoCommandsConfig.contextForContextKey
  SLocalize := fun key => key
  contextKey := fun
    | .BRANCH_COMMITS_CONTEXT_KEY => "branchCommits"
    | .FILES_CONTEXT_KEY => "files"
    | .LOCAL_BRANCHES_CONTEXT_KEY => "localBranches"
    | .MAIN_MERGING_CONTEXT_KEY => "merging"
    | .MAIN_NORMAL_CONTEXT_KEY => "normal"
    | .MAIN_PATCH_BUILDING_CONTEXT_KEY => "patchBuilding"
    | .MAIN_STAGING_CONTEXT_KEY => "staging"
    | .REFLOG_COMMITS_CONTEXT_KEY => "reflogCommits"
    | .REMOTES_CONTEXT_KEY => "remotes"
    | .REMOTE_BRANCHES_CONTEXT_KEY => "remoteBranches"
    | .SUBMODULES_CONTEXT_KEY => "submodules"
    | .SUB_COMMITS_CONTEXT_KEY => "subCommits"
    | .TAGS_CONTEXT_KEY => "tags"
  getListContextKeyBindings := .ok
    [ { ViewName := "files", Contexts := ["files"], Key := .key .KeyArrowUp,
        Modifier := .ModNone, Handler := .method "handlePrevLine", Description := "",
        Alternative := "" },
      { ViewName := "files", Contexts := ["files"], Key := .key .KeyArrowDown,
        Modifier := .ModNone, Handler := .method "handleNextLine", Description := "",
        Alternative := "" } ]
  SetKeybinding := fun _ => none
  viewTabContextMap := ["branches", "commits"]
  SetTabClickBinding := fun _ => none

/-! ### Dispatch -/

/-- An input event: a key press with its modifier. -/
structure InputEvent where
  key : KeyId
  modifier : gocui.Modifier
  deriving DecidableEq

/-- Equality of the key of a binding and the key of an event: two runes are
compared as runes, two special keys by their integer values. -/
def KeyId.sameKey (keyCode : gocui.Key → Nat) : KeyId → KeyId → Bool
  | .rune a, .rune b => a == b
  | .key a, .key b => keyCode a == keyCode b
  | _, _ => false

/-- Modelled from the spec: the dispatcher is the code of gocui, which is not
in the three files. A binding matches an event when its view is `""` or the
focused view, its contexts are empty or contain the current context, and its
key and modifier equal those of the event. -/
def Binding.matchesEvent (keyCode : gocui.Key → Nat) (focusedView currentContext : String)
    (ev : InputEvent) (b : Binding) : Bool :=
  (b.ViewName == "" || b.ViewName == focusedView) &&
  (b.Contexts.isEmpty || b.Contexts.contains currentContext) &&
  KeyId.sameKey keyCode b.Key ev.key &&
  (b.Modifier == ev.modifier)

/-- Modelled from the spec: the dispatch algorithm, which scans the binding
table in registration order; the first binding that matches is the one whose
handler is invoked, the rest are ignored. The result `none` is an event that
no binding matches. -/
def dispatch (keyCode : gocui.Key → Nat) (focusedView currentContext : String)
    (ev : InputEvent) : List Binding → Option Binding
  | [] => none
  | b :: rest =>
    if b.matchesEvent keyCode focusedView currentContext ev then some b
    else dispatch keyCode focusedView currentContext ev rest

/-- A table of two bindings for the key `q`: one scoped to the context
`files` of the view `files`, then a global one. -/
def tableQ : List Binding :=
  [ { ViewName := "files", Contexts := ["files"], Key := .rune 'q', Modifier := .ModNone,
      Handler := .customCommand filesScopedCommand, Description := "stage everything",
      Alternative := "" },
    { ViewName := "", Contexts := [], Key := .rune 'q', Modifier := .ModNone,
      Handler := .wrappedHandler "handleQuit", Description := "", Alternative := "" } ]

/-- A global binding for the key `q` with another handler. -/
def laterQ : Binding where
  ViewName := ""
  Contexts := []
  Key := .rune 'q'
  Modifier := .ModNone
  Handler := .method "handleTopLevelReturn"
  Description := ""
  Alternative := ""

/-! ### Pull -/

/-- The struct `PullFilesOptions` of files_panel.go. -/
structure PullFilesOptions where
  RemoteName : String
  BranchName : String
  deriving DecidableEq

/-- The collaborators of `pullWithMode`. -/
structure PullCollaborators where
  /-- the error, if any, of `gui.GitCommand.Fetch` for a remote and a branch -/
  Fetch : String → String → Option String
  /-- the error, if any, of `gui.GitCommand.RebaseBranch(branchName)` -/
  RebaseBranch : String → Option String
  /-- the error, if any, of `gui.GitCommand.Merge(branchName, opts)`, by the
  flag `FastForwardOnly` -/
  Merge : String → Bool → Option String

/-- The body of `pullWithMode`, between the acquisition of `FetchMutex` and
the deferred release. -/
def pullWithModeBody (gui : PullCollaborators) (mode : String) (opts : PullFilesOptions) :
    List Event :=
  let err := gui.Fetch opts.RemoteName opts.BranchName
  [.fetch opts.RemoteName opts.BranchName] ++ handleCredentialsPopup err ++
    match err with
    | some _ => [.refreshSidePanels]
    | none =>
      if mode = "rebase" then
        let err := gui.RebaseBranch "FETCH_HEAD"
        [.rebaseBranch "FETCH_HEAD", .handleGenericMergeCommandResult err]
      else if mode = "merge" then
        let err := gui.Merge "FETCH_HEAD" false
        [.merge "FETCH_HEAD" false, .handleGenericMergeCommandResult err]
      else if mode = "ff-only" then
        let err := gui.Merge "FETCH_HEAD" true
        [.merge "FETCH_HEAD" true, .handleGenericMergeCommandResult err]
      else
        [.createErrorPanel ("git pull mode \x27" ++ mode ++ "\x27 unrecognised")]

/-- The method `pullWithMode` of files_panel.go: the calls it makes until it
returns; the deferred `Unlock` is the last one on every return path. -/
def pullWithMode (gui : PullCollaborators) (mode : String) (opts : PullFilesOptions) :
    List Event :=
  [.lockFetchMutex] ++ pullWithModeBody gui mode opts ++ [.unlockFetchMutex]

/-- Whether a call is a `Lock` or an `Unlock` of `FetchMutex`. -/
def Event.isFetchMutex : Event → Bool
  | .lockFetchMutex => true
  | .unlockFetchMutex => true
  | _ => false

/-- Whether a call rebases or merges. -/
def Event.isIntegration : Event → Bool
  | .rebaseBranch _ => true
  | .merge _ _ => true
  | _ => false

/-- Collaborators for concrete evaluations: the fetch, the rebase and the
merge return the given errors. -/
def pullRemote (fetchError integrationError : Option String) : PullCollaborators where
  Fetch := fun _ _ => fetchError
  RebaseBranch := fun _ => integrationError
  Merge := fun _ _ => integrationError

/-! ### Goroutines and `FetchMutex` -/

/-- The owner of `FetchMutex` after a schedule: a list of calls, each with the
number of the goroutine that makes it, in the order in which they happen,
starting from the given owner. A `Lock` happens only while the mutex is free
and an `Unlock` is made by the owner; a schedule that breaks this is not an
execution and the result is `none`. -/
def fetchMutexOwner : Option Nat → List (Nat × Event) → Option (Option Nat)
  | owner, [] => some owner
  | owner, (t, e) :: rest =>
    if e = .lockFetchMutex then
      if owner = none then fetchMutexOwner (some t) rest else none
    else if e = .unlockFetchMutex then
      if owner = some t then fetchMutexOwner none rest else none
    else fetchMutexOwner owner rest

/-- The calls of one goroutine in a schedule, in order. -/
def callsOf (t : Nat) (schedule : List (Nat × Event)) : List Event :=
  (schedule.filter fun call => call.1 == t).map Prod.snd

/-- Collaborators for concrete evaluations: the branch `main` is checked out
and every push succeeds. -/
def acceptingRemote : PushCollaborators where
  Tr := fun key => key
  GetBool := fun _ => false
  Contains := containsSubstring
  createLoaderPanel := fun _ _ => none
  getCheckedOutBranch := some { Name := "main", Pullables := "0" }
  currentBranch := some { Name := "main", Pullables := "0" }
  Push := fun _ _ _ _ => none
  popupPanelFocused := false
  RepoConfig := .ok []
  PushToCurrent := false

/-- A schedule of two goroutines: goroutine 0 runs `pullWithMode` with the
mode `merge`, goroutine 1 the goroutine of `pushWithForceFlag`; the push is
made after the `Lock` of the pull and before its fetch. -/
def pushDuringPull : List (Nat × Event) :=
  [ (0, .lockFetchMutex),
    (1, .createLoaderPanel "files" "PushWait"),
    (1, .push "main" false "" ""),
    (0, .fetch "origin" "main"),
    (1, .refreshSidePanels),
    (0, .merge "FETCH_HEAD" false),
    (0, .handleGenericMergeCommandResult none),
    (0, .unlockFetchMutex) ]

/-- A schedule of two goroutines that both run `pullWithMode`: the second
one locks after the first one has unlocked. -/
def twoPulls : List (Nat × Event) :=
  [ (0, .lockFetchMutex),
    (0, .fetch "origin" "main"),
    (0, .rebaseBranch "FETCH_HEAD"),
    (0, .handleGenericMergeCommandResult none),
    (0, .unlockFetchMutex),
    (1, .lockFetchMutex),
    (1, .fetch "origin" "main") ]

/-! ### Files panel: `refreshFiles` -/

/-- The collaborators of `refreshFiles`. -/
structure RefreshCollaborators extends FilesCollaborators where
  /-- whether `gui.getFilesView()` is not nil -/
  filesViewCreated : Bool
  /-- `gui.GitCommand.GetSubmoduleConfigs()`, the configurations by name -/
  GetSubmoduleConfigs : Except String (List String)

/-- The part of `gui.State` that `refreshFiles` reads and writes. -/
structure RefreshState where
  /-- `State.Files` and `State.Panels.Files.SelectedLineIdx` -/
  panel : FilesPanelState
  SubmoduleConfigs : List String
  IsRefreshingFiles : Bool
  deriving DecidableEq

/-- The method `refreshStateSubmoduleConfigs` of files_panel.go. -/
def refreshStateSubmoduleConfigs (gui : RefreshCollaborators) (s : RefreshState) :
    RefreshState × Option String :=
  match gui.GetSubmoduleConfigs with
  | .error err => (s, some err)
  | .ok configs => ({ s with SubmoduleConfigs := configs }, none)

/-- What a call of `refreshFiles` leaves: its calls in order, the state, and
the returned error; the outer error of `result` is a panic. -/
structure RefreshResult where
  events : List Event
  state : RefreshState
  result : Except String (Option String)

/-- The body of `refreshFiles`, from `selectedFile := gui.getSelectedFile()`
to the return, on the state in which `IsRefreshingFiles` has been set. The
function handed to `gui.g.Update` runs later, on the loop of the gui; its
registration is the call `updateFilesRender`. -/
def refreshFilesBody (gui : RefreshCollaborators) (s : RefreshState) :
    List Event × RefreshState × Except String (Option String) :=
  match getSelectedFile s.panel with
  | .error msg => ([.goPanic msg], s, .error msg)
  | .ok _ =>
    if gui.filesViewCreated = false then
      -- if the filesView has not been instantiated yet we just return
      ([], s, .ok none)
    else
      match refreshStateSubmoduleConfigs gui s with
      | (s2, some err) => ([.refreshStateSubmoduleConfigs], s2, .ok (some err))
      | (s2, none) =>
        match refreshStateFiles gui.toFilesCollaborators s2.panel with
        | .error msg =>
          ([.refreshStateSubmoduleConfigs, .refreshStateFiles, .goPanic msg], s2, .error msg)
        | .ok (panel, some err) =>
          ([.refreshStateSubmoduleConfigs, .refreshStateFiles], { s2 with panel := panel },
           .ok (some err))
        | .ok (panel, none) =>
          ([.refreshStateSubmoduleConfigs, .refreshStateFiles, .updateFilesRender],
           { s2 with panel := panel }, .ok none)

/-- The method `refreshFiles` of files_panel.go. The deferred function, which
resets `IsRefreshingFiles` and unlocks the mutex, runs on every return and
also when the body panics. -/
def refreshFiles (gui : RefreshCollaborators) (s : RefreshState) : RefreshResult :=
  let body := refreshFilesBody gui { s with IsRefreshingFiles := true }
  { events := [.lockRefreshingFilesMutex, .setIsRefreshingFiles true] ++ body.1 ++
      [.setIsRefreshingFiles false, .unlockRefreshingFilesMutex]
    state := { body.2.1 with IsRefreshingFiles := false }
    result := body.2.2 }

/-- Whether a call locks or unlocks `RefreshingFilesMutex` or assigns
`IsRefreshingFiles`. -/
def Event.isRefreshGuard : Event → Bool
  | .lockRefreshingFilesMutex => true
  | .unlockRefreshingFilesMutex => true
  | .setIsRefreshingFiles _ => true
  | _ => false

/-- The value of `IsRefreshingFiles` after a list of calls, from a given
value. -/
def isRefreshingAfter : Bool → List Event → Bool
  | flag, [] => flag
  | _, .setIsRefreshingFiles value :: rest => isRefreshingAfter value rest
  | flag, _ :: rest => isRefreshingAfter flag rest

/-- Collaborators for concrete evaluations: those of `statusXAB`, the files
view exists or not as given, and the submodule configurations load. -/
def refreshXAB (watcherError : Option String) (filesViewCreated : Bool) : RefreshCollaborators where
  toFilesCollaborators := statusXAB watcherError
  filesViewCreated := filesViewCreated
  GetSubmoduleConfigs := .ok []

/-- The state of the panel `[A, B, C]` while another refresh is in flight. -/
def refreshingABC : RefreshState where
  panel := panelABC
  SubmoduleConfigs := []
  IsRefreshingFiles := true

/-! ### Concrete commands and argument vectors -/

/-- Whether a handler is built by `gui.goToSideWindow`. -/
def Handler.isGoToSideWindow : Handler → Bool
  | .goToSideWindow _ => true
  | _ => false

/-- A custom command with a valid input prompt followed by a prompt of the
type `confirm`. -/
def inputThenConfirmCommand : CustomCommand where
  Key := "x"
  Context := "global"
  Command := "git clean -fd"
  Subprocess := false
  Prompts :=
    [ { PromptType := "input", Title := "Path", InitialValue := "", Options := [] },
      { PromptType := "confirm", Title := "Sure?", InitialValue := "", Options := [] } ]
  LoadingText := ""
  Description := ""

/-- The fields of a list of runes, separated by white space; `cur` holds the
runes of the field being read, last one first. -/
def splitFields : List Char → List Char → List String
  | [], cur => if cur = [] then [] else [String.mk cur.reverse]
  | c :: rest, cur =>
    if c.isWhitespace then
      if cur = [] then splitFields rest [] else String.mk cur.reverse :: splitFields rest []
    else splitFields rest (c :: cur)

/-- An argument vector for concrete evaluations: the fields of the command
between white space. The function `str.ToArgv` of the library also reads
quotes; like this one it returns the empty vector for a command that has no
field. -/
def fieldsArgv (command : String) : List String := splitFields command.data []

/-- Collaborators for concrete evaluations: those of `mainBranchGui` with
`fieldsArgv` as the argument vector. -/
def fieldsGui : CommandCollaborators :=
  { mainBranchGui with ToArgv := fieldsArgv }

/-- A custom command that runs as a subprocess the command that the user
types into its prompt. -/
def typedSubprocessCommand : CustomCommand where
  Key := "!"
  Context := "global"
  Command := "\x7b\x7bindex .PromptResponses 0\x7d\x7d"
  Subprocess := true
  Prompts := [ { PromptType := "input", Title := "Command", InitialValue := "", Options := [] } ]
  LoadingText := ""
  Description := ""

/-! ### Files panel: the commit handlers -/

/-- The loop of `stagedFiles` with its accumulator `result`. -/
def stagedFilesLoop : List File → List File → List File
  | [], result => result
  | file :: rest, result =>
    if file.HasStagedChanges then stagedFilesLoop rest (result ++ [file])
    else stagedFilesLoop rest result

/-- The method `stagedFiles` of files_panel.go. -/
def stagedFiles (s : FilesPanelState) : List File :=
  let files := s.Files
  stagedFilesLoop files []

/-- The collaborators and the state of the commit handlers. The state of the
files panel is the field `State`; a handler that refreshes the files goes on
with the record that holds the refreshed state. -/
structure CommitCollaborators extends CommandCollaborators where
  /-- the collaborators of `refreshFiles` -/
  refresh : RefreshCollaborators
  /-- `gui.State.SubmoduleConfigs` -/
  SubmoduleConfigs : List String
  /-- `gui.State.IsRefreshingFiles` -/
  IsRefreshingFiles : Bool
  /-- `gui.State.Commits` -/
  Commits : List Commit
  /-- `gui.Config.GetUserConfig().GetString` -/
  GetString : String → String
  /-- `utils.GetCurrentRepoName()` -/
  GetCurrentRepoName : String
  /-- `regexp.Compile(pattern)`: the error, or the method `ReplaceAllString`
  of the compiled expression -/
  regexpCompile : String → Except String (String → String → String)
  /-- `gui.getCheckedOutBranch()`; `none` is the nil pointer -/
  getCheckedOutBranch : Option Branch
  /-- the error, if any, of `commitMessageView.SetCursor(x, 0)` -/
  SetCursor : Nat → Option String
  /-- the error, if any, of `gui.GitCommand.StageAll()` -/
  StageAll : Option String
  /-- `strings.Title` -/
  Title : String → String
  /-- the command of `gui.GitCommand.AmendHead()` -/
  AmendHead : String
  /-- the result `(ok, err)` of `gui.runSyncOrAsyncCommand` for a command -/
  runSyncOrAsyncCommand : String → Bool × Option String

/-- The state that `refreshFiles` works on, taken from the record. -/
def CommitCollaborators.refreshState (gui : CommitCollaborators) : RefreshState where
  panel := gui.State
  SubmoduleConfigs := gui.SubmoduleConfigs
  IsRefreshingFiles := gui.IsRefreshingFiles

/-- The record after `refreshFiles` has left a state. -/
def CommitCollaborators.withRefreshState (gui : CommitCollaborators) (s : RefreshState) :
    CommitCollaborators :=
  { gui with
    State := s.panel
    SubmoduleConfigs := s.SubmoduleConfigs
    IsRefreshingFiles := s.IsRefreshingFiles }

/-- The run of a callback that makes some calls and then goes on as another
run. -/
def Run.prepend (events : List Event) : Run → Run
  | .done rest => .done (events ++ rest)
  | .awaitInput rest handleConfirm => .awaitInput (events ++ rest) handleConfirm
  | .awaitMenu rest onPress => .awaitMenu (events ++ rest) onPress
  | .awaitConfirm rest handleConfirm => .awaitConfirm (events ++ rest) handleConfirm

/-- The method `promptToStageAllAndRetry` of files_panel.go; `retry` is run
on the record that holds the refreshed state. -/
def promptToStageAllAndRetry (gui : CommitCollaborators) (retry : CommitCollaborators → Run) :
    Run :=
  .awaitConfirm [.ask (gui.Tr "NoFilesStagedTitle") (gui.Tr "NoFilesStagedPrompt")]
    (match gui.StageAll with
     | some err => .done [.stageAll, .surfaceError err]
     | none =>
       let refreshed := refreshFiles gui.refresh gui.refreshState
       match refreshed.result with
       | .error _ => .done ([.stageAll] ++ refreshed.events)
       | .ok (some err) => .done ([.stageAll] ++ refreshed.events ++ [.surfaceError err])
       | .ok none =>
         Run.prepend ([.stageAll] ++ refreshed.events)
           (retry (gui.withRefreshState refreshed.state)))

/-- The method `handleCommitPress` of files_panel.go. The first argument
bounds the number of retries after the stage-all confirmation. -/
def handleCommitPress : Nat → CommitCollaborators → Run
  | 0, _ => .done [.retryBound]
  | fuel + 1, gui =>
    if (stagedFiles gui.State).length = 0 then
      promptToStageAllAndRetry gui (handleCommitPress fuel)
    else
      let repoName := gui.GetCurrentRepoName
      let commitPattern := gui.GetString ("git.commitPrefixes." ++ repoName ++ ".pattern")
      let commitReplace := gui.GetString ("git.commitPrefixes." ++ repoName ++ ".replace")
      if commitPattern.utf8ByteSize > 0 ∧ commitReplace.utf8ByteSize > 0 then
        match gui.regexpCompile commitPattern with
        | .error err =>
          .done [.createErrorPanel (gui.Tr "commitPrefixPatternError" ++ ": " ++ err)]
        | .ok replaceAllString =>
          match gui.getCheckedOutBranch with
          | none => .done [.goPanic "nil pointer dereference"]
          | some branch =>
            let branchPart := replaceAllString branch.Name commitReplace
            match gui.SetCursor branchPart.utf8ByteSize with
            | some _ =>
              .done [.renderString "commitMessage" branchPart,
                     .setCursor branchPart.utf8ByteSize]
            | none =>
              .done [.renderString "commitMessage" branchPart,
                     .setCursor branchPart.utf8ByteSize, .updateSwitchToCommitMessage]
      else
        .done [.updateSwitchToCommitMessage]

/-- The method `handleAmendCommitPress` of files_panel.go. -/
def handleAmendCommitPress : Nat → CommitCollaborators → Run
  | 0, _ => .done [.retryBound]
  | fuel + 1, gui =>
    if (stagedFiles gui.State).length = 0 then
      promptToStageAllAndRetry gui (handleAmendCommitPress fuel)
    else if gui.Commits.length = 0 then
      .done [.createErrorPanel (gui.Tr "NoCommitToAmend")]
    else
      .awaitConfirm [.ask (gui.Title (gui.Tr "AmendLastCommit")) (gui.Tr "SureToAmend")]
        (match gui.runSyncOrAsyncCommand gui.AmendHead with
         | (_, some _) =>
           .done [.withWaitingStatus (gui.Tr "AmendingStatus"),
                  .runSyncOrAsyncCommand gui.AmendHead]
         | (false, none) =>
           .done [.withWaitingStatus (gui.Tr "AmendingStatus"),
                  .runSyncOrAsyncCommand gui.AmendHead]
         | (true, none) =>
           .done [.withWaitingStatus (gui.Tr "AmendingStatus"),
                  .runSyncOrAsyncCommand gui.AmendHead, .refreshSidePanels])

/-- The method `handleCommitEditorPress` of files_panel.go: handle when the
user wants to commit changes via their editor rather than via the popup
panel. -/
def handleCommitEditorPress : Nat → CommitCollaborators → Run
  | 0, _ => .done [.retryBound]
  | fuel + 1, gui =>
    if (stagedFiles gui.State).length = 0 then
      promptToStageAllAndRetry gui (handleCommitEditorPress fuel)
    else
      .done (PrepareSubProcess gui.toCommandCollaborators "git commit")

/-- Whether a call is one that the commit handlers make once files are
staged: the switch to the commit-message context and what prepares it, the
amend and the subprocess of the editor. -/
def Event.isCommitStep : Event → Bool
  | .updateSwitchToCommitMessage => true
  | .renderString _ _ => true
  | .setCursor _ => true
  | .withWaitingStatus _ => true
  | .runSyncOrAsyncCommand _ => true
  | .prepareSubProcess _ => true
  | .osPrepareSubProcess _ _ => true
  | .updateErrSubProcess => true
  | _ => false

/-- Collaborators for concrete evaluations: the panel `[A, B, C]` has nothing
staged, staging all succeeds, and the refresh finds `[X, A, B]` with `B`
staged; there is one commit and no commit pattern. -/
def commitGui : CommitCollaborators where
  toCommandCollaborators := { fieldsGui with State := panelABC }
  refresh := refreshXAB none true
  SubmoduleConfigs := []
  IsRefreshingFiles := false
  Commits := [{ Sha := "c0ffee" }]
  GetString := fun _ => ""
  GetCurrentRepoName := "lazygit"
  regexpCompile := fun _ => .error "no pattern"
  getCheckedOutBranch := some { Name := "main", Pullables := "0" }
  SetCursor := fun _ => none
  StageAll := none
  Title := fun str => str
  AmendHead := "git commit --amend --no-edit --allow-empty"
  runSyncOrAsyncCommand := fun _ => (true, none)

/-! ### Custom commands: which templates a stretch resolves -/

/-- Every resolution that a stretch makes is that of a template of the given
list. -/
def Resolving.Within {α : Type} (templates : List String) (x : Resolving α) : Prop :=
  ∀ e ∈ x.1, ∀ t rs, e = Event.resolveTemplate t rs → t ∈ templates

/-- A custom command with a menu whose option has a description that does
not resolve. -/
def brokenDescriptionCommand : CustomCommand where
  Key := "r"
  Context := "global"
  Command := "git fetch"
  Subprocess := false
  Prompts :=
    [ { PromptType := "menu", Title := "Remote", InitialValue := "",
        Options := [ { Name := "origin", Description := "?", Value := "origin" } ] } ]
  LoadingText := ""
  Description := ""

/-! ## Theorems -/

/-! ### Key codec -/

theorem lookup_eq_none_iff_not_mem {β : Type} (l : List (String × β)) (a : String) :
    l.lookup a = none ↔ a ∉ l.map Prod.fst := by
  induction l with
  | nil => simp
  | cons p l ih =>
    obtain ⟨k, v⟩ := p
    by_cases h : a = k
    · subst h
      simp [List.lookup]
    · have h2 : (a == k) = false := by simpa using h
      simp [List.lookup, h2, ih, h]

theorem getKey_eq (cfg : KeyConfig) (name : String) :
    getKey cfg name =
      if 1 < (keyString cfg name).length then
        match keymap.lookup (cfg.ToLower (keyString cfg name)) with
        | none => .error (.unrecognizedKey (cfg.ToLower (keyString cfg name)) name)
        | some binding => .ok binding
      else if (keyString cfg name).length = 1 then
        .ok (.rune ((keyString cfg name).get 0))
      else
        .error (.keyEmpty (cfg.ToLower name)) := by
  unfold getKey keyString
  by_cases h : cfg.GetString ("keybinding." ++ name) = "" <;> simp [h]

theorem string_length_eq_zero (s : String) : s.length = 0 ↔ s = "" := by
  constructor
  · intro h
    have h2 : s.data = [] := List.length_eq_zero.mp h
    exact String.ext h2
  · intro h
    subst h
    rfl

theorem string_of_length_one (s : String) (h : s.length = 1) :
    s = String.singleton (s.get 0) := by
  obtain ⟨l⟩ := s
  match l, h with
  | [c], _ => rfl

/-- C7. `getKey` aborts exactly when the key string `k` (the configured string
for `keybinding.<name>`, or the name when that is empty) is empty, or has more
than one rune and its lower-cased form is not a name of the table `keymap`; in
every other case it returns a key identifier. -/
theorem getKey_fatal_iff (cfg : KeyConfig) (name : String) :
    ((∃ e, getKey cfg name = .error e) ↔
      (keyString cfg name = "" ∨
        (1 < (keyString cfg name).length ∧
          cfg.ToLower (keyString cfg name) ∉ keymapNames))) ∧
    ((¬ ∃ e, getKey cfg name = .error e) ↔ ∃ id, getKey cfg name = .ok id) := by
  rw [getKey_eq]
  have hz := string_length_eq_zero (keyString cfg name)
  by_cases h1 : 1 < (keyString cfg name).length
  · have hne : keyString cfg name ≠ "" := by
      intro h
      rw [h] at h1
      exact absurd h1 (by decide)
    cases hl : keymap.lookup (cfg.ToLower (keyString cfg name)) with
    | none =>
      have hnm := (lookup_eq_none_iff_not_mem keymap _).mp hl
      simp [h1, hne, keymapNames, hnm]
    | some b =>
      have hnm : ¬ cfg.ToLower (keyString cfg name) ∉ keymap.map Prod.fst := by
        rw [← lookup_eq_none_iff_not_mem, hl]
        simp
      simp only [h1, hne, keymapNames, hnm]
      simp
  · by_cases h2 : (keyString cfg name).length = 1
    · have hne : keyString cfg name ≠ "" := by
        intro h
        rw [h] at h2
        exact absurd h2 (by decide)
      simp [h1, h2, hne]
    · have h0 : (keyString cfg name).length = 0 := by omega
      have he : keyString cfg name = "" := hz.mp h0
      simp [h1, h2, he]

/-- C8. Two key strings of more than one rune that are equal after
lower-casing are encoded alike: `getKey` returns the same key identifier for
both, or fails for both. -/
theorem getKey_case_insensitive (cfg : KeyConfig) (n1 n2 : String)
    (h1 : 1 < (keyString cfg n1).length) (h2 : 1 < (keyString cfg n2).length)
    (heq : cfg.ToLower (keyString cfg n1) = cfg.ToLower (keyString cfg n2)) :
    (getKey cfg n1).toOption = (getKey cfg n2).toOption := by
  rw [getKey_eq, getKey_eq, if_pos h1, if_pos h2, heq]
  cases keymap.lookup (cfg.ToLower (keyString cfg n2)) <;> rfl

/-- Witness of C8: `<C-A>` and `<c-a>` are both encoded as `KeyCtrlA`. -/
theorem getKey_case_insensitive_witness :
    1 < (keyString plainKeyConfig "<C-A>").length ∧
    1 < (keyString plainKeyConfig "<c-a>").length ∧
    (getKey plainKeyConfig "<C-A>").toOption = (getKey plainKeyConfig "<c-a>").toOption ∧
    (getKey plainKeyConfig "<c-a>").toOption = some (.key .KeyCtrlA) :=
  ⟨by decide, by decide,
    getKey_case_insensitive plainKeyConfig "<C-A>" "<c-a>" (by decide) (by decide) (by decide),
    by decide⟩

/-- C9. A key string of exactly one rune, with no configuration override, is
encoded as that rune itself, without case folding; so `getKey` is injective on
single-character names. -/
theorem getKey_single_rune (cfg : KeyConfig) :
    (∀ name : String, cfg.GetString ("keybinding." ++ name) = "" → name.length = 1 →
      getKey cfg name = .ok (.rune (name.get 0))) ∧
    (∀ n1 n2 : String, cfg.GetString ("keybinding." ++ n1) = "" →
      cfg.GetString ("keybinding." ++ n2) = "" → n1.length = 1 → n2.length = 1 →
      getKey cfg n1 = getKey cfg n2 → n1 = n2) := by
  have key : ∀ name : String, cfg.GetString ("keybinding." ++ name) = "" → name.length = 1 →
      getKey cfg name = .ok (.rune (name.get 0)) := by
    intro name hc hl
    have hk : keyString cfg name = name := by simp [keyString, hc]
    rw [getKey_eq, hk]
    simp [hl]
  refine ⟨key, ?_⟩
  intro n1 n2 c1 c2 l1 l2 h
  rw [key n1 c1 l1, key n2 c2 l2] at h
  have hc : n1.get 0 = n2.get 0 := by
    injection h with h
    injection h
  rw [string_of_length_one n1 l1, string_of_length_one n2 l2, hc]

/-- Witness of C9: `p` and `P` are encoded as themselves, hence differently. -/
theorem getKey_single_rune_witness :
    getKey plainKeyConfig "p" = .ok (.rune 'p') ∧
    getKey plainKeyConfig "P" = .ok (.rune 'P') ∧
    getKey plainKeyConfig "p" ≠ getKey plainKeyConfig "P" :=
  ⟨(getKey_single_rune plainKeyConfig).1 "p" rfl rfl,
   (getKey_single_rune plainKeyConfig).1 "P" rfl rfl,
   fun h => absurd ((getKey_single_rune plainKeyConfig).2 "p" "P" rfl rfl rfl rfl h) (by decide)⟩

/-! ### Custom-command bindings -/

theorem getKey_error_not_context (cfg : KeyConfig) (name : String) (e : FatalError)
    (h : getKey cfg name = .error e) : e.isContextError = false := by
  rw [getKey_eq] at h
  split at h
  · split at h
    · injection h with h
      subst h
      rfl
    · exact absurd h (by simp)
  · split at h
    · exact absurd h (by simp)
    · injection h with h
      subst h
      rfl

theorem customCommandBinding_bad (gui : BindingConfig) (c : CustomCommand)
    (h : badContext gui c) :
    ∃ e, customCommandBinding gui c = .error e ∧ e.isContextError = true := by
  unfold customCommandBinding
  rcases h with h | ⟨hg, hn⟩
  · have hg : c.Context ≠ "global" := by
      rw [h]
      decide
    refine ⟨.contextNotProvided c.Key c.Command, ?_, rfl⟩
    simp [hg, h]
  · by_cases he : c.Context = ""
    · refine ⟨.contextNotProvided c.Key c.Command, ?_, rfl⟩
      simp [hg, he]
    · refine ⟨.unknownContext c.Context c.Key c.Command, ?_, rfl⟩
      simp [hg, he, hn]

theorem customCommandBinding_key_error (gui : BindingConfig) (c : CustomCommand)
    (e : FatalError) (hk : getKey gui.toKeyConfig c.Key = .error e) :
    ∃ e2, customCommandBinding gui c = .error e2 := by
  unfold customCommandBinding
  by_cases hg : c.Context = "global"
  · exact ⟨e, by simp [hg, hk]⟩
  · by_cases he : c.Context = ""
    · exact ⟨.contextNotProvided c.Key c.Command, by simp [hg, he]⟩
    · cases hl : gui.contextForContextKey c.Context with
      | none => exact ⟨.unknownContext c.Context c.Key c.Command, by simp [hg, he, hl]⟩
      | some ctx => exact ⟨e, by simp [hg, he, hl, hk]⟩

theorem customCommandBinding_good (gui : BindingConfig) (c : CustomCommand)
    (h : ¬ badContext gui c) (e : FatalError)
    (he : customCommandBinding gui c = .error e) :
    getKey gui.toKeyConfig c.Key = .error e := by
  unfold badContext at h
  unfold customCommandBinding at he
  by_cases hg : c.Context = "global"
  · simp only [hg, if_true] at he
    cases hk : getKey gui.toKeyConfig c.Key with
    | error e2 => simpa [hk] using he
    | ok k => simp [hk] at he
  · have hne : c.Context ≠ "" := fun h2 => h (Or.inl h2)
    cases hl : gui.contextForContextKey c.Context with
    | none => exact absurd (Or.inr ⟨hg, hl⟩) h
    | some ctx =>
      simp only [hg, hne, if_false, hl] at he
      cases hk : getKey gui.toKeyConfig c.Key with
      | error e2 => simpa [hk] using he
      | ok k => simp [hk] at he

theorem customCommandBinding_ok_iff (gui : BindingConfig) (c : CustomCommand) :
    (∃ b, customCommandBinding gui c = .ok b) ↔
      (¬ badContext gui c ∧ ∃ k, getKey gui.toKeyConfig c.Key = .ok k) := by
  constructor
  · rintro ⟨b, hb⟩
    have h1 : ¬ badContext gui c := by
      intro hbad
      obtain ⟨e, he, _⟩ := customCommandBinding_bad gui c hbad
      rw [hb] at he
      exact absurd he (by simp)
    refine ⟨h1, ?_⟩
    cases hk : getKey gui.toKeyConfig c.Key with
    | ok k => exact ⟨k, rfl⟩
    | error e =>
      obtain ⟨e2, he2⟩ := customCommandBinding_key_error gui c e hk
      rw [hb] at he2
      exact absurd he2 (by simp)
  · rintro ⟨h1, k, hk⟩
    cases hc : customCommandBinding gui c with
    | ok b => exact ⟨b, rfl⟩
    | error e =>
      have := customCommandBinding_good gui c h1 e hc
      rw [hk] at this
      exact absurd this (by simp)

theorem appendCustomCommandBindings_context_error (gui : BindingConfig)
    (cmds : List CustomCommand) (acc : List Binding) :
    (∃ e, appendCustomCommandBindings gui cmds acc = .error e ∧ e.isContextError = true) ↔
      ∃ pre c post, cmds = pre ++ c :: post ∧
        (∀ d ∈ pre, ¬ badContext gui d ∧ ∃ k, getKey gui.toKeyConfig d.Key = .ok k) ∧
        badContext gui c := by
  induction cmds generalizing acc with
  | nil => simp [appendCustomCommandBindings]
  | cons c rest ih =>
    unfold appendCustomCommandBindings
    cases hc : customCommandBinding gui c with
    | error e =>
      simp only
      by_cases hbad : badContext gui c
      · obtain ⟨e2, he2, hctx⟩ := customCommandBinding_bad gui c hbad
        rw [hc] at he2
        injection he2 with he2
        subst he2
        constructor
        · intro _
          exact ⟨[], c, rest, rfl, by simp, hbad⟩
        · intro _
          exact ⟨e, rfl, hctx⟩
      · have hk := customCommandBinding_good gui c hbad e hc
        have hne := getKey_error_not_context _ _ _ hk
        constructor
        · rintro ⟨e2, he2, hctx⟩
          injection he2 with he2
          subst he2
          rw [hne] at hctx
          exact absurd hctx (by simp)
        · rintro ⟨pre, d, post, hsplit, hpre, hd⟩
          exfalso
          cases pre with
          | nil =>
            simp only [List.nil_append, List.cons.injEq] at hsplit
            rw [← hsplit.1] at hd
            exact hbad hd
          | cons p pre =>
            simp only [List.cons_append, List.cons.injEq] at hsplit
            obtain ⟨k, hk2⟩ := (hpre p (by simp)).2
            rw [← hsplit.1, hk] at hk2
            exact absurd hk2 (by simp)
    | ok b =>
      simp only
      rw [ih]
      have hok := (customCommandBinding_ok_iff gui c).mp ⟨b, hc⟩
      constructor
      · rintro ⟨pre, d, post, hsplit, hpre, hd⟩
        refine ⟨c :: pre, d, post, by simp [hsplit], ?_, hd⟩
        intro x hx
        rcases List.mem_cons.mp hx with hx | hx
        · subst hx
          exact hok
        · exact hpre x hx
      · rintro ⟨pre, d, post, hsplit, hpre, hd⟩
        cases pre with
        | nil =>
          simp only [List.nil_append, List.cons.injEq] at hsplit
          rw [← hsplit.1] at hd
          exact absurd hd hok.1
        | cons p pre =>
          simp only [List.cons_append, List.cons.injEq] at hsplit
          exact ⟨pre, d, post, hsplit.2, fun x hx => hpre x (by simp [hx]), hd⟩

theorem appendCustomCommandBindings_bad_aborts (gui : BindingConfig)
    (cmds : List CustomCommand) (acc : List Binding)
    (h : ∃ c ∈ cmds, badContext gui c) :
    ∃ e, appendCustomCommandBindings gui cmds acc = .error e := by
  induction cmds generalizing acc with
  | nil => simp at h
  | cons c rest ih =>
    unfold appendCustomCommandBindings
    cases hc : customCommandBinding gui c with
    | error e => exact ⟨e, rfl⟩
    | ok b =>
      simp only
      apply ih
      obtain ⟨d, hd, hbad⟩ := h
      rcases List.mem_cons.mp hd with hd | hd
      · subst hd
        exact absurd hbad ((customCommandBinding_ok_iff gui d).mp ⟨b, hc⟩).1
      · exact ⟨d, hd, hbad⟩

/-- C10, as stated, fails: with the custom commands of
`keylessThenContextless` the second command has an empty context, but
`GetCustomCommandKeybindings` aborts on the empty key of the first command,
which is not a context configuration error. -/
theorem GetCustomCommandKeybindings_context_iff_fails :
    GetCustomCommandKeybindings keylessThenContextless = .error (.keyEmpty "") ∧
    (FatalError.keyEmpty "").isContextError = false ∧
    (∃ cmds, keylessThenContextless.customCommands = .ok cmds ∧
      ∃ c ∈ cmds, badContext keylessThenContextless c) ∧
    ¬ ((∃ e, GetCustomCommandKeybindings keylessThenContextless = .error e ∧
          e.isContextError = true) ↔
        ∃ cmds, keylessThenContextless.customCommands = .ok cmds ∧
          ∃ c ∈ cmds, badContext keylessThenContextless c) := by
  have hres : GetCustomCommandKeybindings keylessThenContextless = .error (.keyEmpty "") := by
    rfl
  have hbad : ∃ cmds, keylessThenContextless.customCommands = .ok cmds ∧
      ∃ c ∈ cmds, badContext keylessThenContextless c :=
    ⟨_, rfl, _, List.mem_cons_of_mem _ (List.mem_singleton_self _), Or.inl rfl⟩
  refine ⟨hres, rfl, hbad, ?_⟩
  intro h
  obtain ⟨e, he, hctx⟩ := h.mpr hbad
  rw [hres] at he
  injection he with he
  subst he
  exact absurd hctx (by decide)

/-- C10, amended. `GetCustomCommandKeybindings` aborts with a context
configuration error exactly when some custom command has a rejected context
(empty, or not 'global' and unknown to `contextForContextKey`) and every
command before it in the list has an accepted context and a key that `getKey`
accepts; a rejected context anywhere in the list makes it abort with some
fatal error. The context 'global' is never looked up. -/
theorem GetCustomCommandKeybindings_context_error (gui : BindingConfig) :
    ((∃ e, GetCustomCommandKeybindings gui = .error e ∧ e.isContextError = true) ↔
      ∃ pre c post, gui.customCommands = .ok (pre ++ c :: post) ∧
        (∀ d ∈ pre, ¬ badContext gui d ∧ ∃ k, getKey gui.toKeyConfig d.Key = .ok k) ∧
        badContext gui c) ∧
    ((∃ cmds, gui.customCommands = .ok cmds ∧ ∃ c ∈ cmds, badContext gui c) →
      ∃ e, GetCustomCommandKeybindings gui = .error e) ∧
    (∀ c : CustomCommand, c.Context = "global" → ¬ badContext gui c) := by
  refine ⟨?_, ?_, ?_⟩
  · unfold GetCustomCommandKeybindings
    cases hcc : gui.customCommands with
    | error err =>
      simp only
      constructor
      · rintro ⟨e, he, hctx⟩
        injection he with he
        subst he
        exact absurd hctx (by simp [FatalError.isContextError])
      · rintro ⟨pre, c, post, h, _⟩
        exact absurd h (by simp)
    | ok cmds =>
      simp only
      rw [appendCustomCommandBindings_context_error]
      constructor
      · rintro ⟨pre, c, post, h1, h2, h3⟩
        exact ⟨pre, c, post, by rw [h1], h2, h3⟩
      · rintro ⟨pre, c, post, h1, h2, h3⟩
        injection h1 with h1
        exact ⟨pre, c, post, h1, h2, h3⟩
  · rintro ⟨cmds, hcc, h⟩
    unfold GetCustomCommandKeybindings
    rw [hcc]
    exact appendCustomCommandBindings_bad_aborts gui cmds [] h
  · intro c hc hbad
    rcases hbad with h | ⟨h, _⟩
    · rw [hc] at h
      exact absurd h (by decide)
    · exact h hc

/-! ### Files panel: selection-stable refresh -/

theorem findMovedFile_none (git : FilesCollaborators) (sel : File) (prev : Int) (q : Nat)
    (hqp : (q : Int) = prev) (l : List File) (k : Nat)
    (huniq : ∀ j (hj : j < l.length), git.Matches l[j] sel = true → k + j = q) :
    findMovedFile git sel prev l k = none := by
  induction l generalizing k with
  | nil => rfl
  | cons f rest ih =>
    unfold findMovedFile
    have hcond : (git.Matches f sel && decide ((k : Int) ≠ prev)) = false := by
      cases hm : git.Matches f sel with
      | false => simp
      | true =>
        have := huniq 0 (by simp) (by simpa using hm)
        have hk : (k : Int) = prev := by
          rw [← hqp]
          exact_mod_cast this
        simp [hk]
    simp only [hcond]
    apply ih
    intro j hj hm
    have := huniq (j + 1) (by simpa using hj) (by simpa using hm)
    omega

theorem findMovedFile_some (git : FilesCollaborators) (sel : File) (prev : Int) (q : Nat)
    (hqp : (q : Int) ≠ prev) (l : List File) (k : Nat)
    (hex : ∃ j, ∃ hj : j < l.length, git.Matches l[j] sel = true)
    (huniq : ∀ j (hj : j < l.length), git.Matches l[j] sel = true → k + j = q) :
    findMovedFile git sel prev l k = some q := by
  induction l generalizing k with
  | nil =>
    obtain ⟨j, hj, _⟩ := hex
    simp at hj
  | cons f rest ih =>
    unfold findMovedFile
    cases hm : git.Matches f sel with
    | true =>
      have hk : k = q := by
        have := huniq 0 (by simp) (by simpa using hm)
        omega
      subst hk
      simp [hqp]
    | false =>
      simp only [Bool.false_and]
      apply ih
      · obtain ⟨j, hj, hmj⟩ := hex
        cases j with
        | zero =>
          simp only [List.getElem_cons_zero] at hmj
          rw [hm] at hmj
          exact absurd hmj (by simp)
        | succ j =>
          exact ⟨j, by simpa using hj, by simpa using hmj⟩
      · intro j hj hmj
        have := huniq (j + 1) (by simpa using hj) (by simpa using hmj)
        omega

theorem refreshSelectedLine_in_range (q total : Nat) (h : q < total) :
    refreshSelectedLine (q : Int) total = (q : Int) := by
  unfold refreshSelectedLine
  have h0 : total ≠ 0 := by omega
  have h1 : ¬ ((q : Int) < 0) := by omega
  have h2 : ¬ ((total : Int) - 1 < (q : Int)) := by omega
  simp [h0, h1, h2]

/-- C1, the failing input. On the panel `[A, B, C]` with the selection on `B`
(index 1) and the merged collection `[X, A, B']`, whose names are unique and
whose item at index 2 matches `B`, a refresh in which `addFilesToFileWatcher`
returns an error installs the merged collection and returns before the loop
that looks for the selected file: the selected index is still 1, where the
collection now holds `A`, and not 2. -/
theorem refreshStateFiles_watcher_error_keeps_index :
    getSelectedFile panelABC = .ok (some (fileNamed "b" false)) ∧
    (statusXAB (some "getwd failed")).MergeStatusFiles panelABC.Files
        (statusXAB (some "getwd failed")).GetStatusFiles (some (fileNamed "b" false)) =
      [fileNamed "x" false, fileNamed "a" false, fileNamed "b" true] ∧
    (statusXAB (some "getwd failed")).Matches (fileNamed "b" true) (fileNamed "b" false) = true ∧
    ([fileNamed "x" false, fileNamed "a" false, fileNamed "b" true].map File.Name).Nodup ∧
    refreshStateFiles (statusXAB (some "getwd failed")) panelABC =
      .ok ({ Files := [fileNamed "x" false, fileNamed "a" false, fileNamed "b" true],
             SelectedLineIdx := 1 }, some "getwd failed") := by
  refine ⟨rfl, rfl, rfl, by decide, rfl⟩

/-- The path of `refreshStateFiles` on which the file watcher returns no
error. Let the previous state have the selected file `S`, and let the merged
collection (the result of `MergeStatusFiles`) hold exactly one item that
matches `S`, at index `q`. Then `refreshStateFiles` returns no error,
installs the merged collection and leaves the selected index at `q`, whether
or not `q` is the previous index. -/
theorem refreshStateFiles_selection_stable (git : FilesCollaborators) (s : FilesPanelState)
    (S : File) (q : Nat)
    (hsel : getSelectedFile s = .ok (some S))
    (hwatch : git.addFilesToFileWatcher git.GetStatusFiles = none)
    (hq : q < (git.MergeStatusFiles s.Files git.GetStatusFiles (some S)).length)
    (hmatch : git.Matches ((git.MergeStatusFiles s.Files git.GetStatusFiles (some S))[q]) S = true)
    (huniq : ∀ j (hj : j < (git.MergeStatusFiles s.Files git.GetStatusFiles (some S)).length),
      git.Matches ((git.MergeStatusFiles s.Files git.GetStatusFiles (some S))[j]) S = true →
      j = q) :
    refreshStateFiles git s =
      .ok ({ Files := git.MergeStatusFiles s.Files git.GetStatusFiles (some S),
             SelectedLineIdx := (q : Int) }, none) := by
  unfold refreshStateFiles
  simp only [hsel, hwatch]
  by_cases hqp : (q : Int) = s.SelectedLineIdx
  · rw [findMovedFile_none git S s.SelectedLineIdx q hqp _ 0
      (fun j hj hm => by simpa using huniq j hj hm)]
    simp only [← hqp]
    rw [refreshSelectedLine_in_range q _ hq]
  · rw [findMovedFile_some git S s.SelectedLineIdx q hqp _ 0 ⟨q, hq, hmatch⟩
      (fun j hj hm => by simpa using huniq j hj hm)]
    simp only
    rw [refreshSelectedLine_in_range q _ hq]

/-- On the panel `[A, B, C]` with the selection on `B` and the merged
collection `[X, A, B']`, the refresh without an error of the file watcher
leaves the selection at index 2. -/
theorem refreshStateFiles_selection_stable_witness :
    refreshStateFiles (statusXAB none) panelABC =
      .ok ({ Files := [fileNamed "x" false, fileNamed "a" false, fileNamed "b" true],
             SelectedLineIdx := 2 }, none) :=
  refreshStateFiles_selection_stable (statusXAB none) panelABC (fileNamed "b" false) 2
    rfl rfl (by decide) rfl
    (fun j hj hm => by
      have hj3 : j < 3 := hj
      interval_cases j
      · simp [statusXAB, fileNamed] at hm
      · simp [statusXAB, fileNamed] at hm
      · rfl)

/-! ### Push: the force-push retry -/

theorem Run.after_done (events : List Event) (answers : List Answer) (seg : Run)
    (h : (Run.done events).after answers = some seg) : seg = .done events ∧ answers = [] := by
  cases answers with
  | nil =>
    simp only [Run.after, Option.some.injEq] at h
    exact ⟨h.symm, rfl⟩
  | cons a rest => simp [Run.after, Run.answer] at h

theorem Run.trace_done (events : List Event) (answers : List Answer) :
    (Run.done events).trace answers = events := by
  cases answers with
  | nil => rfl
  | cons a rest => simp [Run.trace, Run.answer, Run.events]

theorem pushWithForceFlag_forced (gui : PushCollaborators) (v upstream args : String) :
    pushWithForceFlag gui v true upstream args =
      match gui.createLoaderPanel v (gui.Tr "PushWait") with
      | some _ => .done [.createLoaderPanel v (gui.Tr "PushWait")]
      | none =>
        match gui.getCheckedOutBranch with
        | none =>
          .done [.createLoaderPanel v (gui.Tr "PushWait"), .goPanic "nil pointer dereference"]
        | some branch =>
          .done ([.createLoaderPanel v (gui.Tr "PushWait"),
                  .push branch.Name true upstream args] ++
            handleCredentialsPopup (gui.Push branch.Name true upstream args) ++
            [.refreshSidePanels]) := by
  rw [pushWithForceFlag]
  cases gui.createLoaderPanel v (gui.Tr "PushWait") with
  | some e => rfl
  | none =>
    cases gui.getCheckedOutBranch with
    | none => rfl
    | some b => simp

theorem pushWithForceFlag_forced_done (gui : PushCollaborators) (v upstream args : String) :
    ∃ events, pushWithForceFlag gui v true upstream args = .done events ∧
      (∀ e ∈ events, e.isAsk = false) ∧ (events.filter Event.isPush).length ≤ 1 ∧
      (∀ b msg, gui.createLoaderPanel v (gui.Tr "PushWait") = none →
        gui.getCheckedOutBranch = some b → gui.Push b.Name true upstream args = some msg →
        Event.createErrorPanel msg ∈ events) := by
  rw [pushWithForceFlag_forced]
  cases hl : gui.createLoaderPanel v (gui.Tr "PushWait") with
  | some e => exact ⟨_, rfl, by simp [Event.isAsk], by simp [Event.isPush], by simp⟩
  | none =>
    cases hb : gui.getCheckedOutBranch with
    | none => exact ⟨_, rfl, by simp [Event.isAsk], by simp [Event.isPush], by simp⟩
    | some b =>
      refine ⟨_, rfl, ?_, ?_, ?_⟩
      · cases gui.Push b.Name true upstream args <;>
          simp [handleCredentialsPopup, Event.isAsk]
      · cases gui.Push b.Name true upstream args <;>
          simp [handleCredentialsPopup, Event.isPush]
      · intro b2 msg _ hb2 hp
        injection hb2 with hb2
        subst hb2
        simp [hp, handleCredentialsPopup]

theorem pushWithForceFlag_rejected (gui : PushCollaborators) (v upstream args : String)
    (b : Branch) (msg : String)
    (hloader : gui.createLoaderPanel v (gui.Tr "PushWait") = none)
    (hbranch : gui.getCheckedOutBranch = some b)
    (hpush : gui.Push b.Name false upstream args = some msg)
    (hrejected : gui.Contains msg "Updates were rejected" = true) :
    pushWithForceFlag gui v false upstream args =
      if gui.GetBool "git.disableForcePushing" then
        .done [.createLoaderPanel v (gui.Tr "PushWait"), .push b.Name false upstream args,
               .createErrorPanel (gui.Tr "UpdatesRejectedAndForcePushDisabled")]
      else
        .awaitConfirm [.createLoaderPanel v (gui.Tr "PushWait"),
                       .push b.Name false upstream args,
                       .ask (gui.Tr "ForcePush") (gui.Tr "ForcePushPrompt")]
          (pushWithForceFlag gui v true upstream args) := by
  rw [pushWithForceFlag]
  simp [hloader, hbranch, hpush, errorContains, hrejected]

/-- C5. A push with `force=false` that is rejected with 'Updates were
rejected', force pushing not being disabled, asks for confirmation once; the
confirmation calls `pushWithForceFlag` with `force=true` and the same upstream
and args; that forced run leaves no modal open whatever its push returns: it
issues one push, opens no confirmation, and hands an error of the push to the
error panel. Whatever the user does after confirming, the calls are the two
pushes, the one confirmation and the final report. The bound on the forced run
holds for every behaviour of the collaborators at the time of the retry. -/
theorem pushWithForceFlag_retry_bound (gui : PushCollaborators) (v upstream args : String)
    (b : Branch) (msg : String)
    (hloader : gui.createLoaderPanel v (gui.Tr "PushWait") = none)
    (hbranch : gui.getCheckedOutBranch = some b)
    (hpush : gui.Push b.Name false upstream args = some msg)
    (hrejected : gui.Contains msg "Updates were rejected" = true)
    (henabled : gui.GetBool "git.disableForcePushing" = false) :
    pushWithForceFlag gui v false upstream args =
      .awaitConfirm [.createLoaderPanel v (gui.Tr "PushWait"),
                     .push b.Name false upstream args,
                     .ask (gui.Tr "ForcePush") (gui.Tr "ForcePushPrompt")]
        (pushWithForceFlag gui v true upstream args) ∧
    pushWithForceFlag gui v true upstream args =
      .done ([.createLoaderPanel v (gui.Tr "PushWait"), .push b.Name true upstream args] ++
        handleCredentialsPopup (gui.Push b.Name true upstream args) ++ [.refreshSidePanels]) ∧
    (∀ rest : List Answer,
      (pushWithForceFlag gui v false upstream args).trace (.yes :: rest) =
        [.createLoaderPanel v (gui.Tr "PushWait"), .push b.Name false upstream args,
         .ask (gui.Tr "ForcePush") (gui.Tr "ForcePushPrompt"),
         .createLoaderPanel v (gui.Tr "PushWait"), .push b.Name true upstream args] ++
        handleCredentialsPopup (gui.Push b.Name true upstream args) ++ [.refreshSidePanels]) ∧
    (∀ rest : List Answer,
      (((pushWithForceFlag gui v false upstream args).trace (.yes :: rest)).filter
          Event.isAsk).length = 1 ∧
      ((pushWithForceFlag gui v false upstream args).trace (.yes :: rest)).filter Event.isPush =
        [.push b.Name false upstream args, .push b.Name true upstream args]) ∧
    (∀ msg2, gui.Push b.Name true upstream args = some msg2 →
      gui.Contains msg2 "Updates were rejected" = true →
      Event.createErrorPanel msg2 ∈ (pushWithForceFlag gui v true upstream args).events) ∧
    (∀ later : PushCollaborators,
      ∃ events, pushWithForceFlag later v true upstream args = .done events ∧
        (∀ e ∈ events, e.isAsk = false) ∧ (events.filter Event.isPush).length ≤ 1 ∧
        (∀ b2 msg2, later.createLoaderPanel v (later.Tr "PushWait") = none →
          later.getCheckedOutBranch = some b2 →
          later.Push b2.Name true upstream args = some msg2 →
          Event.createErrorPanel msg2 ∈ events)) := by
  have h1 := pushWithForceFlag_rejected gui v upstream args b msg hloader hbranch hpush hrejected
  simp only [henabled, Bool.false_eq_true, if_false] at h1
  have h2 : pushWithForceFlag gui v true upstream args =
      .done ([.createLoaderPanel v (gui.Tr "PushWait"), .push b.Name true upstream args] ++
        handleCredentialsPopup (gui.Push b.Name true upstream args) ++ [.refreshSidePanels]) := by
    rw [pushWithForceFlag_forced]
    simp [hloader, hbranch]
  have h3 : ∀ rest : List Answer,
      (pushWithForceFlag gui v false upstream args).trace (.yes :: rest) =
        [.createLoaderPanel v (gui.Tr "PushWait"), .push b.Name false upstream args,
         .ask (gui.Tr "ForcePush") (gui.Tr "ForcePushPrompt"),
         .createLoaderPanel v (gui.Tr "PushWait"), .push b.Name true upstream args] ++
        handleCredentialsPopup (gui.Push b.Name true upstream args) ++ [.refreshSidePanels] := by
    intro rest
    rw [h1]
    simp only [Run.trace, Run.answer, Run.events]
    rw [h2, Run.trace_done]
    simp
  refine ⟨h1, h2, h3, ?_, ?_, ?_⟩
  · intro rest
    rw [h3 rest]
    cases gui.Push b.Name true upstream args <;>
      simp [handleCredentialsPopup, Event.isAsk, Event.isPush]
  · intro msg2 hp2 _
    rw [h2, hp2]
    simp [Run.events, handleCredentialsPopup]
  · intro later
    exact pushWithForceFlag_forced_done later v upstream args

/-- Witness of C5: a remote that rejects every push is asked once, forced once,
and the second rejection ends in an error panel, also when the user tries to
confirm again. -/
theorem pushWithForceFlag_retry_bound_witness :
    (pushWithForceFlag (rejectingRemote false) "files" false "" "").trace [.yes, .yes] =
      [.createLoaderPanel "files" "PushWait", .push "main" false "" "",
       .ask "ForcePush" "ForcePushPrompt",
       .createLoaderPanel "files" "PushWait", .push "main" true "" "",
       .createErrorPanel "! [rejected] Updates were rejected because the tip is behind",
       .refreshSidePanels] :=
  (pushWithForceFlag_retry_bound (rejectingRemote false) "files" "" ""
    { Name := "main", Pullables := "2" }
    "! [rejected] Updates were rejected because the tip is behind"
    rfl rfl rfl (by decide) (by decide)).2.2.1 [.yes]

/-! ### Push: the administrative switch -/

theorem pushWithForceFlag_unforced_disabled (gui : PushCollaborators)
    (hdisabled : gui.GetBool "git.disableForcePushing" = true) (v upstream args : String) :
    ∃ events, pushWithForceFlag gui v false upstream args = .done events ∧
      ∀ e ∈ events, e.isForcePush = false ∧ e.isAsk = false := by
  rw [pushWithForceFlag]
  cases gui.createLoaderPanel v (gui.Tr "PushWait") with
  | some e => exact ⟨_, rfl, by simp [Event.isForcePush, Event.isAsk]⟩
  | none =>
    cases gui.getCheckedOutBranch with
    | none => exact ⟨_, rfl, by simp [Event.isForcePush, Event.isAsk]⟩
    | some b =>
      simp only [hdisabled, if_true, and_true]
      by_cases hrej : errorContains gui (gui.Push b.Name false upstream args)
          "Updates were rejected" = true
      · refine ⟨[.createLoaderPanel v (gui.Tr "PushWait"), .push b.Name false upstream args,
            .createErrorPanel (gui.Tr "UpdatesRejectedAndForcePushDisabled")],
          by simp [hrej], ?_⟩
        simp [Event.isForcePush, Event.isAsk]
      · refine ⟨[.createLoaderPanel v (gui.Tr "PushWait"),
            .push b.Name false upstream args] ++
            handleCredentialsPopup (gui.Push b.Name false upstream args) ++
            [.refreshSidePanels], by simp [hrej], ?_⟩
        cases gui.Push b.Name false upstream args <;>
          simp [handleCredentialsPopup, Event.isForcePush, Event.isAsk]

theorem Run.after_events_of_done (r : Run) (P : Event → Prop)
    (h : ∃ events, r = .done events ∧ ∀ e ∈ events, P e)
    (answers : List Answer) (seg : Run) (hseg : r.after answers = some seg) :
    ∀ e ∈ seg.events, P e := by
  obtain ⟨events, hr, hP⟩ := h
  subst hr
  obtain ⟨hs, _⟩ := Run.after_done events answers seg hseg
  subst hs
  exact hP

/-- C6. When `git.disableForcePushing` is true, no run of `pushFiles` and no
run of `pushWithForceFlag` with `force=false`, whatever the user answers,
issues a push with the force flag or opens a confirmation. A rejected push
ends with the error panel `UpdatesRejectedAndForcePushDisabled`, and
`pushFiles` on a branch with pullables (neither "?" nor "0") only raises the
error panel `ForcePushDisabled`. -/
theorem force_push_disabled (gui : PushCollaborators) (v : String)
    (hdisabled : gui.GetBool "git.disableForcePushing" = true) :
    (∀ (answers : List Answer) (seg : Run), (pushFiles gui v).after answers = some seg →
      ∀ e ∈ seg.events, e.isForcePush = false ∧ e.isAsk = false) ∧
    (∀ (upstream args : String) (answers : List Answer) (seg : Run),
      (pushWithForceFlag gui v false upstream args).after answers = some seg →
      ∀ e ∈ seg.events, e.isForcePush = false ∧ e.isAsk = false) ∧
    (∀ (upstream args : String) (b : Branch) (msg : String),
      gui.createLoaderPanel v (gui.Tr "PushWait") = none →
      gui.getCheckedOutBranch = some b →
      gui.Push b.Name false upstream args = some msg →
      gui.Contains msg "Updates were rejected" = true →
      pushWithForceFlag gui v false upstream args =
        .done [.createLoaderPanel v (gui.Tr "PushWait"), .push b.Name false upstream args,
               .createErrorPanel (gui.Tr "UpdatesRejectedAndForcePushDisabled")]) ∧
    (∀ b : Branch, gui.popupPanelFocused = false → gui.currentBranch = some b →
      b.Pullables ≠ "?" → b.Pullables ≠ "0" →
      pushFiles gui v = .done [.createErrorPanel (gui.Tr "ForcePushDisabled")]) := by
  have hpush : ∀ (upstream args : String) (answers : List Answer) (seg : Run),
      (pushWithForceFlag gui v false upstream args).after answers = some seg →
      ∀ e ∈ seg.events, e.isForcePush = false ∧ e.isAsk = false := by
    intro upstream args answers seg hseg
    exact Run.after_events_of_done _ _
      (pushWithForceFlag_unforced_disabled gui hdisabled v upstream args) answers seg hseg
  have hdone : ∀ (events : List Event) (answers : List Answer) (seg : Run),
      (∀ e ∈ events, e.isForcePush = false ∧ e.isAsk = false) →
      (Run.done events).after answers = some seg →
      ∀ e ∈ seg.events, e.isForcePush = false ∧ e.isAsk = false := by
    intro events answers seg hP hseg
    exact Run.after_events_of_done _ _ ⟨events, rfl, hP⟩ answers seg hseg
  refine ⟨?_, hpush, ?_, ?_⟩
  · intro answers seg hseg
    unfold pushFiles at hseg
    by_cases hpop : gui.popupPanelFocused = true
    · simp only [hpop, if_true] at hseg
      exact hdone _ _ _ (by simp) hseg
    · simp only [hpop] at hseg
      cases hcb : gui.currentBranch with
      | none =>
        simp only [hcb] at hseg
        exact hdone _ _ _ (by simp [Event.isForcePush, Event.isAsk]) hseg
      | some cb =>
        simp only [hcb, hdisabled, if_true] at hseg
        by_cases hq : cb.Pullables = "?"
        · simp only [hq, if_true] at hseg
          cases hconf : gui.RepoConfig with
          | error err =>
            simp only [hconf] at hseg
            exact hdone _ _ _ (by simp [Event.isForcePush, Event.isAsk]) hseg
          | ok branches =>
            simp only [hconf] at hseg
            cases hfind : branches.find? (fun entry => entry.1 == cb.Name) with
            | some entry =>
              obtain ⟨branchName, branch⟩ := entry
              simp only [hfind] at hseg
              exact hpush _ _ _ _ hseg
            | none =>
              simp only [hfind] at hseg
              by_cases hcur : gui.PushToCurrent = true
              · simp only [hcur, if_true] at hseg
                exact hpush _ _ _ _ hseg
              · simp only [hcur] at hseg
                cases answers with
                | nil =>
                  simp only [Run.after, Option.some.injEq] at hseg
                  subst hseg
                  simp [Run.events, Event.isForcePush, Event.isAsk]
                | cons a rest =>
                  cases a with
                  | confirm str =>
                    simp only [Run.after, Run.answer] at hseg
                    exact hpush _ _ _ _ hseg
                  | press i => simp [Run.after, Run.answer] at hseg
                  | yes => simp [Run.after, Run.answer] at hseg
        · simp only [hq, if_false] at hseg
          by_cases hz : cb.Pullables = "0"
          · simp only [hz, if_true] at hseg
            exact hpush _ _ _ _ hseg
          · simp only [hz, if_false] at hseg
            exact hdone _ _ _ (by simp [Event.isForcePush, Event.isAsk]) hseg
  · intro upstream args b msg hl hb hp hr
    rw [pushWithForceFlag_rejected gui v upstream args b msg hl hb hp hr]
    simp [hdisabled]
  · intro b hpop hcb hq hz
    unfold pushFiles
    simp [hpop, hcb, hq, hz, hdisabled]

/-- Witness of C6: with force pushing disabled, `pushFiles` on a branch with
pullables and a rejected push both end in their error panel. -/
theorem force_push_disabled_witness :
    pushFiles (rejectingRemote true) "files" = .done [.createErrorPanel "ForcePushDisabled"] ∧
    pushWithForceFlag (rejectingRemote true) "files" false "" "" =
      .done [.createLoaderPanel "files" "PushWait", .push "main" false "" "",
             .createErrorPanel "UpdatesRejectedAndForcePushDisabled"] :=
  ⟨(force_push_disabled (rejectingRemote true) "files" (by decide)).2.2.2
      { Name := "main", Pullables := "2" } rfl rfl (by decide) (by decide),
   (force_push_disabled (rejectingRemote true) "files" (by decide)).2.2.1 "" ""
      { Name := "main", Pullables := "2" }
      "! [rejected] Updates were rejected because the tip is behind" rfl rfl rfl (by decide)⟩

/-! ### Custom commands: the prompt chain -/

theorem okResolves_nil (gui : CommandCollaborators) (rs : List String) :
    okResolves gui rs [] := by
  intro e he
  simp at he

theorem okResolves_append (gui : CommandCollaborators) (rs : List String)
    (xs ys : List Event) (hx : okResolves gui rs xs) (hy : okResolves gui rs ys) :
    okResolves gui rs (xs ++ ys) := by
  intro e he
  rcases List.mem_append.mp he with h | h
  · exact hx e h
  · exact hy e h

theorem resolveOrSurface_ok (gui : CommandCollaborators) (t : String) (rs : List String)
    (str : String) (h : resolveTemplate gui t rs = .ok (.ok str)) :
    resolveOrSurface gui t rs = ([.resolveTemplate t rs], some str) := by
  simp [resolveOrSurface, h]

theorem resolveOrSurface_some (gui : CommandCollaborators) (t : String) (rs : List String)
    (events : List Event) (str : String)
    (h : resolveOrSurface gui t rs = (events, some str)) :
    resolveTemplate gui t rs = .ok (.ok str) ∧ events = [.resolveTemplate t rs] ∧
      str = resolved gui t rs := by
  unfold resolveOrSurface at h
  cases hr : resolveTemplate gui t rs with
  | error msg => simp [hr] at h
  | ok inner =>
    cases inner with
    | error err => simp [hr] at h
    | ok s =>
      simp only [hr, Prod.mk.injEq, Option.some.injEq] at h
      refine ⟨by rw [h.2], h.1.symm, ?_⟩
      simp [resolved, hr, h.2]

theorem resolveOrSurface_sound (gui : CommandCollaborators) (t : String) (rs : List String) :
    Resolving.Sound gui rs (resolveOrSurface gui t rs) := by
  unfold resolveOrSurface
  cases hr : resolveTemplate gui t rs with
  | error msg =>
    right
    exact ⟨rfl, [], t, _, okResolves_nil gui rs, Or.inr ⟨msg, hr, rfl⟩, rfl⟩
  | ok inner =>
    cases inner with
    | error err =>
      right
      exact ⟨rfl, [], t, _, okResolves_nil gui rs, Or.inl ⟨err, hr, rfl⟩, rfl⟩
    | ok str =>
      left
      refine ⟨rfl, ?_⟩
      intro e he
      simp only [List.mem_singleton] at he
      exact ⟨t, str, he, hr⟩

theorem Resolving.sound_pure {α : Type} (gui : CommandCollaborators) (rs : List String)
    (a : α) : Resolving.Sound gui rs (([], some a) : Resolving α) :=
  Or.inl ⟨rfl, okResolves_nil gui rs⟩

theorem Resolving.sound_andThen {α β : Type} (gui : CommandCollaborators) (rs : List String)
    (x : Resolving α) (f : α → Resolving β) (hx : Resolving.Sound gui rs x)
    (hf : ∀ a, Resolving.Sound gui rs (f a)) : Resolving.Sound gui rs (x.andThen f) := by
  obtain ⟨events, value⟩ := x
  cases value with
  | none =>
    rcases hx with ⟨h, _⟩ | h
    · simp at h
    · simp only [Resolving.andThen]
      obtain ⟨_, pre, t, tail, h1, h2, h3⟩ := h
      exact Or.inr ⟨rfl, pre, t, tail, h1, h2, h3⟩
  | some a =>
    rcases hx with ⟨_, hok⟩ | ⟨h, _⟩
    · simp only [Resolving.andThen]
      rcases hf a with ⟨hs, hok2⟩ | ⟨hn, pre, t, tail, hpre, hfail, heq⟩
      · left
        exact ⟨hs, okResolves_append gui rs _ _ hok hok2⟩
      · right
        refine ⟨hn, events ++ pre, t, tail, okResolves_append gui rs _ _ hok hpre, hfail, ?_⟩
        simp only [heq, List.append_assoc]
    · simp at h

theorem resolveOptions_sound (gui : CommandCollaborators) (rs : List String)
    (options : List CustomCommandMenuOption) :
    Resolving.Sound gui rs (resolveOptions gui rs options) := by
  induction options with
  | nil => exact Resolving.sound_pure gui rs []
  | cons option rest ih =>
    unfold resolveOptions
    apply Resolving.sound_andThen gui rs _ _ (resolveOrSurface_sound gui _ rs)
    intro name
    apply Resolving.sound_andThen gui rs _ _ (resolveOrSurface_sound gui _ rs)
    intro description
    apply Resolving.sound_andThen gui rs _ _ (resolveOrSurface_sound gui _ rs)
    intro value
    apply Resolving.sound_andThen gui rs _ _ ih
    intro items
    exact Resolving.sound_pure gui rs _

theorem Resolving.andThen_some {α β : Type} (x : Resolving α) (f : α → Resolving β)
    (events : List Event) (b : β) (h : x.andThen f = (events, some b)) :
    ∃ ev1 a ev2, x = (ev1, some a) ∧ f a = (ev2, some b) ∧ events = ev1 ++ ev2 := by
  obtain ⟨ev1, value⟩ := x
  cases value with
  | none => simp [Resolving.andThen] at h
  | some a =>
    simp only [Resolving.andThen, Prod.mk.injEq] at h
    exact ⟨ev1, a, (f a).1, rfl, by rw [← h.2], h.1.symm⟩

/-- The menu item that the menu case builds for an option when its three
templates resolve. -/
theorem resolveOptions_some (gui : CommandCollaborators) (rs : List String)
    (options : List CustomCommandMenuOption) (events : List Event)
    (items : List ResolvedOption) (h : resolveOptions gui rs options = (events, some items)) :
    items = options.map fun option =>
      { name := resolved gui (nameTemplate option) rs
        description := gui.ColoredString (resolved gui option.Description rs)
        value := resolved gui option.Value rs } := by
  induction options generalizing events items with
  | nil =>
    simp only [resolveOptions, Prod.mk.injEq, Option.some.injEq] at h
    simp [← h.2]
  | cons option rest ih =>
    unfold resolveOptions at h
    obtain ⟨e1, name, e1r, h1, h, _⟩ := Resolving.andThen_some _ _ _ _ h
    obtain ⟨e2, description, e2r, h2, h, _⟩ := Resolving.andThen_some _ _ _ _ h
    obtain ⟨e3, value, e3r, h3, h, _⟩ := Resolving.andThen_some _ _ _ _ h
    obtain ⟨e4, rest_items, e4r, h4, h, _⟩ := Resolving.andThen_some _ _ _ _ h
    simp only [Prod.mk.injEq, Option.some.injEq] at h
    rw [← h.2, ih e4 rest_items h4]
    rw [(resolveOrSurface_some gui _ rs e1 name h1).2.2,
      (resolveOrSurface_some gui _ rs e2 description h2).2.2,
      (resolveOrSurface_some gui _ rs e3 value h3).2.2]
    rfl

theorem resolveInput_sound (gui : CommandCollaborators) (prompt : CustomCommandPrompt)
    (rs : List String) : Resolving.Sound gui rs (resolveInput gui prompt rs) := by
  unfold resolveInput
  apply Resolving.sound_andThen gui rs _ _ (resolveOrSurface_sound gui _ rs)
  intro title
  apply Resolving.sound_andThen gui rs _ _ (resolveOrSurface_sound gui _ rs)
  intro initialValue
  exact Resolving.sound_pure gui rs _

theorem resolveMenu_sound (gui : CommandCollaborators) (prompt : CustomCommandPrompt)
    (rs : List String) : Resolving.Sound gui rs (resolveMenu gui prompt rs) := by
  unfold resolveMenu
  apply Resolving.sound_andThen gui rs _ _ (resolveOptions_sound gui rs _)
  intro items
  apply Resolving.sound_andThen gui rs _ _ (resolveOrSurface_sound gui _ rs)
  intro title
  exact Resolving.sound_pure gui rs _

theorem resolveInput_some (gui : CommandCollaborators) (prompt : CustomCommandPrompt)
    (rs : List String) (events : List Event) (title initialValue : String)
    (h : resolveInput gui prompt rs = (events, some (title, initialValue))) :
    title = resolved gui prompt.Title rs ∧
      initialValue = resolved gui prompt.InitialValue rs ∧ events ≠ [] := by
  unfold resolveInput at h
  obtain ⟨e1, t, e1r, h1, h, he⟩ := Resolving.andThen_some _ _ _ _ h
  obtain ⟨e2, iv, e2r, h2, h, _⟩ := Resolving.andThen_some _ _ _ _ h
  simp only [Prod.mk.injEq, Option.some.injEq] at h
  obtain ⟨_, h1e, h1v⟩ := resolveOrSurface_some gui _ rs e1 t h1
  obtain ⟨_, _, h2v⟩ := resolveOrSurface_some gui _ rs e2 iv h2
  refine ⟨by rw [← h.2.1, h1v], by rw [← h.2.2, h2v], ?_⟩
  rw [he, h1e]
  simp

theorem resolveMenu_some (gui : CommandCollaborators) (prompt : CustomCommandPrompt)
    (rs : List String) (events : List Event) (items : List ResolvedOption) (title : String)
    (h : resolveMenu gui prompt rs = (events, some (items, title))) :
    title = resolved gui prompt.Title rs ∧
      (items = prompt.Options.map fun option =>
        { name := resolved gui (nameTemplate option) rs
          description := gui.ColoredString (resolved gui option.Description rs)
          value := resolved gui option.Value rs }) ∧ events ≠ [] := by
  unfold resolveMenu at h
  obtain ⟨e1, its, e1r, h1, h, he⟩ := Resolving.andThen_some _ _ _ _ h
  obtain ⟨e2, t, e2r, h2, h, he2⟩ := Resolving.andThen_some _ _ _ _ h
  simp only [Prod.mk.injEq, Option.some.injEq] at h
  obtain ⟨_, h2e, h2v⟩ := resolveOrSurface_some gui _ rs e2 t h2
  refine ⟨by rw [← h.2.2, h2v], by rw [← h.2.1, resolveOptions_some gui rs _ e1 its h1], ?_⟩
  rw [he, he2, h2e]
  simp

theorem runCustomCommand_done (gui : CommandCollaborators) (cmd : CustomCommand)
    (rs : List String) : ∃ events, runCustomCommand gui cmd rs = .done events := by
  unfold runCustomCommand
  obtain ⟨events, value⟩ := resolveOrSurface gui cmd.Command rs
  cases value with
  | none => exact ⟨_, rfl⟩
  | some cmdStr =>
    by_cases hs : cmd.Subprocess = true
    · exact ⟨events ++ PrepareSubProcess gui cmdStr, by simp [hs]⟩
    · exact ⟨_, by simp only [hs]; rfl⟩

/-- Every run reached from a chain of layers by answering its modals is the
chain of the remaining prompts, invoked with the response vector that the
answers have built. -/
theorem promptChain_after (gui : CommandCollaborators) (cmd : CustomCommand)
    (answers : List Answer) :
    ∀ (prompts : List CustomCommandPrompt) (idx : Nat) (rs : List String) (seg : Run),
      (promptChain gui cmd prompts idx rs).after answers = some seg →
      answers.length ≤ prompts.length ∧
      seg = promptChain gui cmd (prompts.drop answers.length) (idx + answers.length)
        (responsesAfter gui prompts idx rs answers) := by
  induction answers with
  | nil =>
    intro prompts idx rs seg h
    simp only [Run.after, Option.some.injEq] at h
    cases prompts <;> simp [responsesAfter, h]
  | cons a rest ih =>
    intro prompts idx rs seg h
    cases prompts with
    | nil =>
      obtain ⟨events, hd⟩ := runCustomCommand_done gui cmd rs
      simp [promptChain, hd, Run.after, Run.answer] at h
    | cons p ps =>
      have key : ∀ next : Run,
          next = promptChain gui cmd ps (idx + 1) (rs.set idx (storedAnswer gui p rs a)) →
          next.after rest = some seg →
          (a :: rest).length ≤ (p :: ps).length ∧
          seg = promptChain gui cmd ((p :: ps).drop (a :: rest).length)
            (idx + (a :: rest).length) (responsesAfter gui (p :: ps) idx rs (a :: rest)) := by
        intro next hnext hafter
        subst hnext
        obtain ⟨hlen, hseg⟩ := ih ps (idx + 1) _ seg hafter
        refine ⟨by simpa using hlen, ?_⟩
        rw [hseg]
        simp only [List.length_cons, List.drop_succ_cons, responsesAfter]
        congr 1
        omega
      simp only [promptChain] at h
      by_cases hin : p.PromptType = "input"
      · simp only [hin, if_true, inputLayer] at h
        cases hst : resolveInput gui p rs with
        | mk events value =>
          cases value with
          | none => simp [hst, Run.after, Run.answer] at h
          | some v =>
            obtain ⟨title, initialValue⟩ := v
            simp only [hst] at h
            cases a with
            | confirm str =>
              simp only [Run.after, Run.answer] at h
              exact key _ rfl h
            | press i => simp [Run.after, Run.answer] at h
            | yes => simp [Run.after, Run.answer] at h
      · simp only [hin, if_false, menuLayer] at h
        cases hst : resolveMenu gui p rs with
        | mk events value =>
          cases value with
          | none => simp [hst, Run.after, Run.answer] at h
          | some v =>
            obtain ⟨items, title⟩ := v
            simp only [hst] at h
            obtain ⟨_, hitems, _⟩ := resolveMenu_some gui p rs events items title hst
            cases a with
            | confirm str => simp [Run.after, Run.answer] at h
            | yes => simp [Run.after, Run.answer] at h
            | press i =>
              simp only [Run.after, Run.answer] at h
              cases hi : (items.map fun item =>
                  promptChain gui cmd ps (idx + 1) (rs.set idx item.value))[i]? with
              | none => simp [hi] at h
              | some next =>
                simp only [hi] at h
                apply key next ?_ h
                rw [hitems] at hi
                simp only [List.map_map, List.getElem?_map] at hi
                cases ho : p.Options[i]? with
                | none => simp [ho] at hi
                | some o =>
                  simp only [ho, Option.map_some', Function.comp, Option.some.injEq] at hi
                  simp only [storedAnswer, ho]
                  exact hi.symm

theorem promptChain_drop (gui : CommandCollaborators) (cmd : CustomCommand) (idx : Nat)
    (p : CustomCommandPrompt) (h : cmd.Prompts[idx]? = some p) :
    promptChain gui cmd (cmd.Prompts.drop idx) idx =
      if p.PromptType = "input" then
        inputLayer gui idx p (promptChain gui cmd (cmd.Prompts.drop (idx + 1)) (idx + 1))
      else
        menuLayer gui idx p (promptChain gui cmd (cmd.Prompts.drop (idx + 1)) (idx + 1)) := by
  obtain ⟨hlt, hp⟩ := List.getElem?_eq_some_iff.mp h
  have hd : cmd.Prompts.drop idx = p :: cmd.Prompts.drop (idx + 1) := by
    rw [← hp]
    exact List.drop_eq_getElem_cons hlt
  rw [hd]
  funext rs
  by_cases hin : p.PromptType = "input" <;> simp [promptChain, hin]

/-- The loop of `handleCustomCommandKeybinding` over the reverse indices
`s, s+1, ..., s+n-1`, started with the chain of the last `s` prompts: it ends
with the chain of the last `s+n` prompts when the prompts it visits have a
valid type, and returns the error panel otherwise. -/
theorem wrapPrompts_range (gui : CommandCollaborators) (cmd : CustomCommand) (n : Nat) :
    ∀ s, s + n ≤ cmd.Prompts.length →
      ((∀ j p, cmd.Prompts.length - s - n ≤ j → j < cmd.Prompts.length - s →
          cmd.Prompts[j]? = some p → validPromptType p) →
        wrapPrompts gui cmd (List.range' s n)
            (promptChain gui cmd (cmd.Prompts.drop (cmd.Prompts.length - s))
              (cmd.Prompts.length - s)) =
          .ok (promptChain gui cmd (cmd.Prompts.drop (cmd.Prompts.length - s - n))
              (cmd.Prompts.length - s - n))) ∧
      ((∃ j p, cmd.Prompts.length - s - n ≤ j ∧ j < cmd.Prompts.length - s ∧
          cmd.Prompts[j]? = some p ∧ ¬ validPromptType p) →
        wrapPrompts gui cmd (List.range' s n)
            (promptChain gui cmd (cmd.Prompts.drop (cmd.Prompts.length - s))
              (cmd.Prompts.length - s)) =
          .error (.done [promptTypeErrorPanel])) := by
  induction n with
  | zero =>
    intro s _
    refine ⟨fun _ => by simp [wrapPrompts], ?_⟩
    rintro ⟨j, p, h1, h2, _⟩
    omega
  | succ n ih =>
    intro s hs
    have hidx : cmd.Prompts.length - 1 - s < cmd.Prompts.length := by omega
    have hget : cmd.Prompts[cmd.Prompts.length - 1 - s]? =
        some (cmd.Prompts[cmd.Prompts.length - 1 - s]) := List.getElem?_eq_getElem hidx
    have hnext : cmd.Prompts.length - 1 - s + 1 = cmd.Prompts.length - s := by omega
    have hsucc : cmd.Prompts.length - (s + 1) = cmd.Prompts.length - 1 - s := by omega
    have hend : cmd.Prompts.length - (s + 1) - n = cmd.Prompts.length - s - (n + 1) := by omega
    have hstep := promptChain_drop gui cmd _ _ hget
    rw [hnext] at hstep
    obtain ⟨ih1, ih2⟩ := ih (s + 1) (by omega)
    rw [hsucc, ← hsucc, hend] at ih1
    rw [hend] at ih2
    simp only [List.range'_succ, wrapPrompts, hget]
    by_cases hin : (cmd.Prompts[cmd.Prompts.length - 1 - s]).PromptType = "input"
    · simp only [hin, if_true] at hstep ⊢
      rw [← hstep, ← hsucc]
      refine ⟨fun hall => ih1 fun j p h1 h2 => hall j p h1 (by omega), ?_⟩
      rintro ⟨j, p, h1, h2, h3, h4⟩
      apply ih2
      refine ⟨j, p, h1, ?_, h3, h4⟩
      by_contra hge
      have hj : j = cmd.Prompts.length - 1 - s := by omega
      subst hj
      rw [hget] at h3
      injection h3 with h3
      subst h3
      exact h4 (Or.inl hin)
    · simp only [hin, if_false] at hstep ⊢
      by_cases hmenu : (cmd.Prompts[cmd.Prompts.length - 1 - s]).PromptType = "menu"
      · simp only [hmenu, if_true]
        rw [← hstep, ← hsucc]
        refine ⟨fun hall => ih1 fun j p h1 h2 => hall j p h1 (by omega), ?_⟩
        rintro ⟨j, p, h1, h2, h3, h4⟩
        apply ih2
        refine ⟨j, p, h1, ?_, h3, h4⟩
        by_contra hge
        have hj : j = cmd.Prompts.length - 1 - s := by omega
        subst hj
        rw [hget] at h3
        injection h3 with h3
        subst h3
        exact h4 (Or.inr hmenu)
      · simp only [hmenu, if_false]
        refine ⟨?_, fun _ => rfl⟩
        intro hall
        have := hall _ _ (by omega) (by omega) hget
        rcases this with h | h
        · exact absurd h hin
        · exact absurd h hmenu

/-- The handler of a custom command is the chain of the layers of its
prompts, invoked with a vector of empty strings, when every prompt has a valid
type; otherwise it only raises the error panel about the prompt type. -/
theorem handleCustomCommandKeybinding_eq (gui : CommandCollaborators) (cmd : CustomCommand) :
    ((∀ p ∈ cmd.Prompts, validPromptType p) →
      handleCustomCommandKeybinding gui cmd =
        promptChain gui cmd cmd.Prompts 0 (List.replicate cmd.Prompts.length "")) ∧
    ((∃ p ∈ cmd.Prompts, ¬ validPromptType p) →
      handleCustomCommandKeybinding gui cmd = .done [promptTypeErrorPanel]) := by
  obtain ⟨h1, h2⟩ := wrapPrompts_range gui cmd cmd.Prompts.length 0 (by omega)
  have hinner : promptChain gui cmd (cmd.Prompts.drop (cmd.Prompts.length - 0))
      (cmd.Prompts.length - 0) = runCustomCommand gui cmd := by
    funext rs
    simp [promptChain]
  rw [hinner] at h1 h2
  simp only [Nat.sub_zero, Nat.sub_self, List.drop_zero] at h1 h2
  constructor
  · intro hall
    unfold handleCustomCommandKeybinding
    simp only [List.range_eq_range']
    rw [h1 fun j p _ _ hp => hall p (List.getElem?_mem hp)]
  · rintro ⟨p, hp, hbad⟩
    unfold handleCustomCommandKeybinding
    simp only [List.range_eq_range']
    obtain ⟨j, hj, hjp⟩ := List.getElem_of_mem hp
    rw [h2 ⟨j, p, by omega, hj, by rw [List.getElem?_eq_getElem hj, hjp], hbad⟩]

theorem runCustomCommand_sound (gui : CommandCollaborators) (cmd : CustomCommand)
    (rs : List String) : NodeSound gui rs (runCustomCommand gui cmd rs) := by
  unfold runCustomCommand
  have hsound := resolveOrSurface_sound gui cmd.Command rs
  cases hst : resolveOrSurface gui cmd.Command rs with
  | mk events value =>
    rw [hst] at hsound
    cases value with
    | none =>
      rcases hsound with ⟨h, _⟩ | ⟨_, pre, t, tail, hpre, hfail, heq⟩
      · simp at h
      · left
        simp only at heq
        exact ⟨pre, t, tail, hpre, hfail, by rw [heq]⟩
    | some cmdStr =>
      rcases hsound with ⟨_, hok⟩ | ⟨h, _⟩
      · right
        obtain ⟨_, hev, _⟩ := resolveOrSurface_some gui _ rs events cmdStr hst
        simp only
        by_cases hs : cmd.Subprocess = true
        · refine ⟨events, PrepareSubProcess gui cmdStr, hok, by simp [hev],
            by simp [hs, Run.events], ?_⟩
          unfold PrepareSubProcess
          cases gui.ToArgv cmdStr <;> simp
        · refine ⟨events,
            [.withWaitingStatus (if cmd.LoadingText = "" then gui.Tr "runningCustomCommandStatus"
                else cmd.LoadingText),
              .osPrepareSubProcess cmdStr [], .runCommand cmdStr] ++
              (match gui.RunCommand cmdStr with
               | some err => [.surfaceError err]
               | none => [.refreshSidePanels]),
            hok, by simp [hev], by simp [hs, Run.events], ?_⟩
          cases gui.RunCommand cmdStr <;> simp
      · simp at h

theorem promptChain_sound (gui : CommandCollaborators) (cmd : CustomCommand)
    (prompts : List CustomCommandPrompt) (idx : Nat) (rs : List String) :
    NodeSound gui rs (promptChain gui cmd prompts idx rs) := by
  cases prompts with
  | nil => exact runCustomCommand_sound gui cmd rs
  | cons p ps =>
    simp only [promptChain]
    by_cases hin : p.PromptType = "input"
    · simp only [hin, if_true, inputLayer]
      have hsound := resolveInput_sound gui p rs
      cases hst : resolveInput gui p rs with
      | mk events value =>
        rw [hst] at hsound
        cases value with
        | none =>
          rcases hsound with ⟨h, _⟩ | ⟨_, pre, t, tail, hpre, hfail, heq⟩
          · simp at h
          · left
            simp only at heq
            exact ⟨pre, t, tail, hpre, hfail, by rw [heq]⟩
        | some v =>
          obtain ⟨title, initialValue⟩ := v
          rcases hsound with ⟨_, hok⟩ | ⟨h, _⟩
          · right
            obtain ⟨_, _, hne⟩ := resolveInput_some gui p rs events title initialValue hst
            exact ⟨events, [.prompt title initialValue], hok, hne, rfl, by simp⟩
          · simp at h
    · simp only [hin, if_false, menuLayer]
      have hsound := resolveMenu_sound gui p rs
      cases hst : resolveMenu gui p rs with
      | mk events value =>
        rw [hst] at hsound
        cases value with
        | none =>
          rcases hsound with ⟨h, _⟩ | ⟨_, pre, t, tail, hpre, hfail, heq⟩
          · simp at h
          · left
            simp only at heq
            exact ⟨pre, t, tail, hpre, hfail, by rw [heq]⟩
        | some v =>
          obtain ⟨items, title⟩ := v
          rcases hsound with ⟨_, hok⟩ | ⟨h, _⟩
          · right
            obtain ⟨_, _, hne⟩ := resolveMenu_some gui p rs events items title hst
            exact ⟨events, [.createMenu title (items.map fun item =>
              [item.name, item.description])], hok, hne, by simp [Run.events], by simp⟩
          · simp at h

/-! ### Custom commands: the response vector -/

theorem responses_split (rs R : List String) (idx N : Nat) (hlen : rs.length = N)
    (hR : R.length = N) (hidx : idx ≤ N) (hlow : ∀ k, k < idx → R[k]? = rs[k]?)
    (hblank : ∀ k, idx ≤ k → k < N → rs[k]? = some "") :
    rs = R.take idx ++ List.replicate (N - idx) "" := by
  apply List.ext_getElem?
  intro k
  have htake : (R.take idx).length = idx := by
    rw [List.length_take, hR]
    omega
  by_cases hk : k < idx
  · rw [List.getElem?_append_left (by omega), List.getElem?_take_of_lt hk, hlow k hk]
  · rw [List.getElem?_append_right (by omega), htake, List.getElem?_replicate]
    by_cases hkN : k < N
    · rw [hblank k (by omega) hkN, if_pos (by omega)]
    · rw [List.getElem?_eq_none (by omega), if_neg (by omega)]

theorem responsesAfter_nil (gui : CommandCollaborators) (prompts : List CustomCommandPrompt)
    (idx : Nat) (rs : List String) : responsesAfter gui prompts idx rs [] = rs := by
  cases prompts <;> rfl

/-- The slots of the response vector after a sequence of answers: the slots
before `idx` are untouched, the slot of an answered prompt holds what its
answer stored, resolved against the earlier slots, and the other slots are
still empty. -/
theorem responsesAfter_slots (gui : CommandCollaborators)
    (prompts : List CustomCommandPrompt) :
    ∀ (idx : Nat) (rs : List String) (answers : List Answer),
      rs.length = idx + prompts.length → answers.length ≤ prompts.length →
      (∀ k, idx ≤ k → k < rs.length → rs[k]? = some "") →
      (responsesAfter gui prompts idx rs answers).length = rs.length ∧
      (∀ k, k < idx → (responsesAfter gui prompts idx rs answers)[k]? = rs[k]?) ∧
      (∀ k, idx + answers.length ≤ k → k < rs.length →
        (responsesAfter gui prompts idx rs answers)[k]? = some "") ∧
      (∀ j a p, answers[j]? = some a → prompts[j]? = some p →
        (responsesAfter gui prompts idx rs answers)[idx + j]? =
          some (storedAnswer gui p
            ((responsesAfter gui prompts idx rs answers).take (idx + j) ++
              List.replicate (rs.length - (idx + j)) "") a)) := by
  induction prompts with
  | nil =>
    intro idx rs answers _ hans hblank
    have : answers = [] := List.length_eq_zero.mp (by simpa using hans)
    subst this
    rw [responsesAfter_nil]
    exact ⟨rfl, fun _ _ => rfl, fun k h1 h2 => hblank k (by simpa using h1) h2, by simp⟩
  | cons p ps ih =>
    intro idx rs answers hlen hans hblank
    cases answers with
    | nil =>
      rw [responsesAfter_nil]
      exact ⟨rfl, fun _ _ => rfl, fun k h1 h2 => hblank k (by simpa using h1) h2, by simp⟩
    | cons a rest =>
      simp only [responsesAfter]
      have hlen2 : (rs.set idx (storedAnswer gui p rs a)).length = idx + 1 + ps.length := by
        simp only [List.length_set, hlen, List.length_cons]
        omega
      have hblank2 : ∀ k, idx + 1 ≤ k → k < (rs.set idx (storedAnswer gui p rs a)).length →
          (rs.set idx (storedAnswer gui p rs a))[k]? = some "" := by
        intro k h1 h2
        rw [List.getElem?_set_ne (by omega)]
        exact hblank k (by omega) (by simpa using h2)
      obtain ⟨h1, h2, h3, h4⟩ := ih (idx + 1) (rs.set idx (storedAnswer gui p rs a)) rest hlen2
        (by simpa using hans) hblank2
      simp only [List.length_set] at h1 h3 h4
      have hlow : ∀ k, k < idx →
          (responsesAfter gui ps (idx + 1) (rs.set idx (storedAnswer gui p rs a)) rest)[k]? =
            rs[k]? := by
        intro k hk
        rw [h2 k (by omega), List.getElem?_set_ne (by omega)]
      refine ⟨h1, hlow, ?_, ?_⟩
      · intro k hk1 hk2
        exact h3 k (by simp only [List.length_cons] at hk1; omega) hk2
      · intro j b q hb hq
        cases j with
        | zero =>
          simp only [List.getElem?_cons_zero, Option.some.injEq] at hb hq
          subst hb hq
          have hidx : idx < rs.length := by
            rw [hlen]
            simp
          simp only [Nat.add_zero]
          rw [h2 idx (by omega), List.getElem?_set_self hidx]
          congr 2
          exact responses_split rs _ idx rs.length rfl h1 (by omega) hlow
            (fun k hk1 hk2 => hblank k hk1 hk2)
        | succ j =>
          simp only [List.getElem?_cons_succ] at hb hq
          have := h4 j b q hb hq
          have harith : idx + 1 + j = idx + (j + 1) := by omega
          rw [harith] at this
          exact this

theorem okResolves_filter (gui : CommandCollaborators) (rs : List String)
    (events : List Event) (h : okResolves gui rs events) :
    events.filter Event.isModal = [] ∧ events.filter Event.isExecution = [] := by
  constructor <;>
  · rw [List.filter_eq_nil_iff]
    intro e he
    obtain ⟨t, str, heq, _⟩ := h e he
    subst heq
    simp [Event.isModal, Event.isExecution]

/-- A run reached from the handler of a custom command is the error panel
about the prompt type, or the chain of the remaining prompts invoked with the
vector that the answers have built. -/
theorem reachable_node (gui : CommandCollaborators) (cmd : CustomCommand)
    (answers : List Answer) (seg : Run)
    (h : (handleCustomCommandKeybinding gui cmd).after answers = some seg) :
    (seg = .done [promptTypeErrorPanel] ∧ ∃ p ∈ cmd.Prompts, ¬ validPromptType p) ∨
    ((∀ p ∈ cmd.Prompts, validPromptType p) ∧ answers.length ≤ cmd.Prompts.length ∧
      seg = promptChain gui cmd (cmd.Prompts.drop answers.length) answers.length
        (responsesAfter gui cmd.Prompts 0 (List.replicate cmd.Prompts.length "") answers)) := by
  by_cases hall : ∀ p ∈ cmd.Prompts, validPromptType p
  · right
    rw [(handleCustomCommandKeybinding_eq gui cmd).1 hall] at h
    obtain ⟨h1, h2⟩ := promptChain_after gui cmd answers _ _ _ _ h
    rw [Nat.zero_add] at h2
    exact ⟨hall, h1, h2⟩
  · left
    have hex : ∃ p ∈ cmd.Prompts, ¬ validPromptType p := by
      by_contra hne
      apply hall
      intro p hp
      by_contra hv
      exact hne ⟨p, hp, hv⟩
    rw [(handleCustomCommandKeybinding_eq gui cmd).2 hex] at h
    exact ⟨(Run.after_done _ _ _ h).1, hex⟩

theorem nodeSound_resolve (gui : CommandCollaborators) (R : List String) (seg : Run)
    (h : NodeSound gui R seg) (t : String) (rs : List String)
    (hmem : Event.resolveTemplate t rs ∈ seg.events) : rs = R := by
  have hok : ∀ evs, okResolves gui R evs → Event.resolveTemplate t rs ∈ evs → rs = R := by
    intro evs hevs hm
    obtain ⟨t2, _, heq, _⟩ := hevs _ hm
    injection heq with _ h2
  rcases h with ⟨pre, t2, tail, hpre, hfail, hseg⟩ | ⟨evs, others, hevs, _, hseg, hothers⟩
  · rw [hseg] at hmem
    simp only [Run.events, List.mem_append] at hmem
    rcases hmem with hm | hm
    · exact hok pre hpre hm
    · rcases hfail with ⟨err, _, htail⟩ | ⟨msg, _, htail⟩ <;>
      · rw [htail] at hm
        simp only [List.mem_cons, Event.resolveTemplate.injEq, List.mem_singleton,
          reduceCtorEq, or_false, List.not_mem_nil] at hm
        exact hm.2
  · rw [hseg] at hmem
    rcases List.mem_append.mp hmem with hm | hm
    · exact hok evs hevs hm
    · exact absurd rfl (hothers _ hm t rs)

theorem nodeSound_has_resolve (gui : CommandCollaborators) (R : List String) (seg : Run)
    (h : NodeSound gui R seg) : ∃ t, Event.resolveTemplate t R ∈ seg.events := by
  rcases h with ⟨pre, t2, tail, hpre, hfail, hseg⟩ | ⟨evs, others, hevs, hne, hseg, _⟩
  · refine ⟨t2, ?_⟩
    rw [hseg]
    rcases hfail with ⟨err, _, htail⟩ | ⟨msg, _, htail⟩ <;>
    · rw [htail]
      simp [Run.events]
  · cases evs with
    | nil => exact absurd rfl hne
    | cons e rest =>
      obtain ⟨t, _, heq, _⟩ := hevs e (by simp)
      refine ⟨t, ?_⟩
      rw [hseg, ← heq]
      simp

/-- C3. In a run of the prompt chain of a custom command, every template
that is resolved after the answers to the first prompts sees a response vector
with one slot per prompt, in which the slot of each answered prompt holds what
its answer stored (the confirmed string, or the value of the pressed option,
itself resolved against the earlier slots only) and every other slot is the
empty string; an answer to the open modal changes only the slot of its prompt,
and the next layer resolves its templates against the changed vector. -/
theorem prompt_responses_visibility (gui : CommandCollaborators) (cmd : CustomCommand)
    (answers : List Answer) (seg : Run)
    (hseg : (handleCustomCommandKeybinding gui cmd).after answers = some seg)
    (t : String) (rs : List String) (hmem : Event.resolveTemplate t rs ∈ seg.events) :
    rs.length = cmd.Prompts.length ∧
    (∀ k, answers.length ≤ k → k < cmd.Prompts.length → rs[k]? = some "") ∧
    (∀ j a p, answers[j]? = some a → cmd.Prompts[j]? = some p →
      rs[j]? = some (storedAnswer gui p
        (rs.take j ++ List.replicate (cmd.Prompts.length - j) "") a)) ∧
    (∀ a next p t2 rs2, seg.answer a = some next →
      cmd.Prompts[answers.length]? = some p →
      Event.resolveTemplate t2 rs2 ∈ next.events →
      rs2 = rs.set answers.length (storedAnswer gui p rs a)) ∧
    (∀ a next, seg.answer a = some next → ∃ t2 rs2, Event.resolveTemplate t2 rs2 ∈ next.events) := by
  rcases reachable_node gui cmd answers seg hseg with ⟨hbad, _⟩ | ⟨hall, hlen, hchain⟩
  · rw [hbad] at hmem
    simp [Run.events, promptTypeErrorPanel] at hmem
  · have hR := nodeSound_resolve gui _ seg
      (by rw [hchain]; exact promptChain_sound gui cmd _ _ _) t rs hmem
    obtain ⟨h1, _, h3, h4⟩ := responsesAfter_slots gui cmd.Prompts 0
      (List.replicate cmd.Prompts.length "") answers (by simp) hlen
      (fun k _ hk => by
        rw [List.getElem?_replicate, if_pos (by simpa using hk)])
    rw [← hR] at h1 h3 h4
    simp only [List.length_replicate, Nat.zero_add] at h1 h3 h4
    have hstep : ∀ a next, seg.answer a = some next →
        next = promptChain gui cmd ((cmd.Prompts.drop answers.length).drop 1)
          (answers.length + 1)
          (responsesAfter gui (cmd.Prompts.drop answers.length) answers.length rs [a]) := by
      intro a next hnext
      have hafter : seg.after [a] = some next := by simp [Run.after, hnext]
      rw [hchain, ← hR] at hafter
      exact (promptChain_after gui cmd [a] _ _ _ _ hafter).2
    refine ⟨h1, fun k hk1 hk2 => h3 k hk1 hk2, h4, ?_, ?_⟩
    · intro a next p t2 rs2 hnext hp hmem2
      have hn := hstep a next hnext
      have hs2 := nodeSound_resolve gui _ next
        (by rw [hn]; exact promptChain_sound gui cmd _ _ _) t2 rs2 hmem2
      obtain ⟨hlt, hpe⟩ := List.getElem?_eq_some_iff.mp hp
      have hd : cmd.Prompts.drop answers.length =
          p :: cmd.Prompts.drop (answers.length + 1) := by
        rw [← hpe]
        exact List.drop_eq_getElem_cons hlt
      rw [hs2, hd]
      simp only [responsesAfter, responsesAfter_nil]
    · intro a next hnext
      have hn := hstep a next hnext
      obtain ⟨t2, ht2⟩ := nodeSound_has_resolve gui _ next
        (by rw [hn]; exact promptChain_sound gui cmd _ _ _)
      exact ⟨t2, _, ht2⟩

/-! ### Custom commands: template failures -/

theorem okResolves_not_failed (gui : CommandCollaborators) (R : List String)
    (events : List Event) (hok : okResolves gui R events) (t : String) (err : String)
    (hmem : Event.resolveTemplate t R ∈ events)
    (hfail : resolveTemplate gui t R = .ok (.error err)) : False := by
  obtain ⟨t2, str, heq, hres⟩ := hok _ hmem
  injection heq with h1 _
  subst h1
  rw [hfail] at hres
  injection hres with hres
  exact absurd hres (by simp)

theorem nodeSound_failure (gui : CommandCollaborators) (R : List String) (seg : Run)
    (h : NodeSound gui R seg) (t : String) (err : String)
    (hmem : Event.resolveTemplate t R ∈ seg.events)
    (hfail : resolveTemplate gui t R = .ok (.error err)) :
    ∃ pre, okResolves gui R pre ∧
      seg = .done (pre ++ [.resolveTemplate t R, .surfaceError err]) := by
  rcases h with ⟨pre, t2, tail, hpre, hfailed, hseg⟩ | ⟨evs, others, hevs, _, hseg, hothers⟩
  · rw [hseg] at hmem
    simp only [Run.events, List.mem_append] at hmem
    rcases hmem with hm | hm
    · exact absurd (okResolves_not_failed gui R pre hpre t err hm hfail) id
    · rcases hfailed with ⟨err2, hres2, htail⟩ | ⟨msg, hres2, htail⟩
      · rw [htail] at hm
        simp only [List.mem_cons, Event.resolveTemplate.injEq, List.mem_singleton,
          reduceCtorEq, or_false, List.not_mem_nil] at hm
        obtain ⟨ht, _⟩ := hm
        subst ht
        rw [hfail] at hres2
        injection hres2 with hres2
        injection hres2 with hres2
        subst hres2
        exact ⟨pre, hpre, by rw [hseg, htail]⟩
      · rw [htail] at hm
        simp only [List.mem_cons, Event.resolveTemplate.injEq, List.mem_singleton,
          reduceCtorEq, or_false, List.not_mem_nil] at hm
        obtain ⟨ht, _⟩ := hm
        subst ht
        rw [hfail] at hres2
        exact absurd hres2 (by simp)
  · rw [hseg] at hmem
    rcases List.mem_append.mp hmem with hm | hm
    · exact absurd (okResolves_not_failed gui R evs hevs t err hm hfail) id
    · exact absurd rfl (hothers _ hm t R)

/-- A run of the handler of a custom command in which a resolution has
failed: the layer that made it surfaces the error right after the failed
resolution and returns; its calls are successful resolutions, the failed one
and `surfaceError`. -/
theorem failed_resolve_event_aborts (gui : CommandCollaborators) (cmd : CustomCommand)
    (answers : List Answer) (seg : Run)
    (hseg : (handleCustomCommandKeybinding gui cmd).after answers = some seg)
    (t : String) (rs : List String) (err : String)
    (hmem : Event.resolveTemplate t rs ∈ seg.events)
    (hfail : resolveTemplate gui t rs = .ok (.error err)) :
    (∃ pre, okResolves gui rs pre ∧
      seg = .done (pre ++ [.resolveTemplate t rs, .surfaceError err])) ∧
    seg.events.getLast? = some (.surfaceError err) ∧
    seg.events.filter Event.isModal = [] ∧
    seg.events.filter Event.isExecution = [] ∧
    (∀ a, seg.answer a = none) := by
  rcases reachable_node gui cmd answers seg hseg with ⟨hbad, _⟩ | ⟨_, _, hchain⟩
  · rw [hbad] at hmem
    simp [Run.events, promptTypeErrorPanel] at hmem
  · have hsound : NodeSound gui
        (responsesAfter gui cmd.Prompts 0 (List.replicate cmd.Prompts.length "") answers)
        seg := by
      rw [hchain]
      exact promptChain_sound gui cmd _ _ _
    have hR := nodeSound_resolve gui _ seg hsound t rs hmem
    rw [← hR] at hsound
    obtain ⟨pre, hpre, hdone⟩ := nodeSound_failure gui rs seg hsound t err hmem hfail
    obtain ⟨hm, he⟩ := okResolves_filter gui rs pre hpre
    refine ⟨⟨pre, hpre, hdone⟩, ?_, ?_, ?_, ?_⟩
    · rw [hdone]
      simp [Run.events]
    · rw [hdone]
      simp [Run.events, hm, Event.isModal]
    · rw [hdone]
      simp [Run.events, he, Event.isExecution]
    · intro a
      rw [hdone]
      cases a <;> rfl

/-! ### Custom commands: the order of the prompts -/

theorem resolved_eq (gui : CommandCollaborators) (t : String) (rs : List String) (str : String)
    (h : resolveTemplate gui t rs = .ok (.ok str)) : resolved gui t rs = str := by
  simp [resolved, h]

theorem resolveOptions_ok (gui : CommandCollaborators) (rs : List String)
    (options : List CustomCommandMenuOption)
    (h : ∀ o ∈ options, ∀ t ∈ [nameTemplate o, o.Description, o.Value],
      ∃ str, resolveTemplate gui t rs = .ok (.ok str)) :
    ∃ events items, resolveOptions gui rs options = (events, some items) := by
  induction options with
  | nil => exact ⟨[], [], rfl⟩
  | cons o rest ih =>
    obtain ⟨name, hname⟩ := h o (by simp) (nameTemplate o) (by simp)
    obtain ⟨description, hdescription⟩ := h o (by simp) o.Description (by simp)
    obtain ⟨value, hvalue⟩ := h o (by simp) o.Value (by simp)
    obtain ⟨events, items, hrest⟩ := ih fun o2 ho2 => h o2 (List.mem_cons_of_mem _ ho2)
    unfold resolveOptions
    rw [resolveOrSurface_ok gui _ rs name hname,
      resolveOrSurface_ok gui _ rs description hdescription,
      resolveOrSurface_ok gui _ rs value hvalue, hrest]
    exact ⟨_, _, rfl⟩

theorem mem_commandTemplates (cmd : CustomCommand) (p : CustomCommandPrompt)
    (hp : p ∈ cmd.Prompts) (t : String) (ht : t ∈ layerTemplates p) :
    t ∈ commandTemplates cmd :=
  List.mem_cons_of_mem _ (List.mem_flatMap.mpr ⟨p, hp, ht⟩)

/-! ### Custom commands: concrete runs -/

theorem demoGui_resolves (t : String) (ht : t ≠ "?") (rs : List String) :
    resolveTemplate demoGui t rs = .ok (.ok (t ++ "[" ++ ",".intercalate rs ++ "]")) := by
  simp [resolveTemplate, demoGui, getSelectedFile, bracketResolver, ht]

theorem pushCommand_resolvable (t : String) (ht : t ∈ commandTemplates pushCommand)
    (rs : List String) : ∃ str, resolveTemplate demoGui t rs = .ok (.ok str) := by
  have hne : t ≠ "?" := by
    intro h
    subst h
    revert ht
    decide
  exact ⟨_, demoGui_resolves t hne rs⟩

/-- Witness of C3: after both answers the command template of `pushCommand` is
resolved against the two stored answers. -/
theorem prompt_responses_visibility_witness :
    ∃ seg, (handleCustomCommandKeybinding demoGui pushCommand).after
        [.confirm "dev", .press 0] = some seg ∧
      Event.resolveTemplate "git push" ["dev", "origin[dev,]"] ∈ seg.events ∧
      (["dev", "origin[dev,]"] : List String).length = pushCommand.Prompts.length ∧
      (["dev", "origin[dev,]"] : List String)[1]? =
        some (storedAnswer demoGui
          { PromptType := "menu", Title := "Remote", InitialValue := "",
            Options := [ { Name := "", Description := "default", Value := "origin" },
                         { Name := "up", Description := "other", Value := "upstream" } ] }
          ((["dev", "origin[dev,]"] : List String).take 1 ++
            List.replicate (pushCommand.Prompts.length - 1) "") (.press 0)) := by
  cases h : (handleCustomCommandKeybinding demoGui pushCommand).after
      [.confirm "dev", .press 0] with
  | none =>
    have hsome : ((handleCustomCommandKeybinding demoGui pushCommand).after
        [.confirm "dev", .press 0]).isSome = true := by decide
    rw [h] at hsome
    exact absurd hsome (by decide)
  | some seg =>
    have hmem : Event.resolveTemplate "git push" ["dev", "origin[dev,]"] ∈ seg.events := by
      have hev : ((handleCustomCommandKeybinding demoGui pushCommand).after
          [.confirm "dev", .press 0]).map Run.events =
          some [.resolveTemplate "git push" ["dev", "origin[dev,]"],
            .withWaitingStatus "runningCustomCommandStatus",
            .osPrepareSubProcess "git push[dev,origin[dev,]]" [],
            .runCommand "git push[dev,origin[dev,]]", .refreshSidePanels] := by decide
      rw [h] at hev
      simp only [Option.map_some', Option.some.injEq] at hev
      rw [hev]
      simp
    obtain ⟨hlen, _, hslots, _⟩ :=
      prompt_responses_visibility demoGui pushCommand [.confirm "dev", .press 0] seg h
        "git push" ["dev", "origin[dev,]"] hmem
    exact ⟨seg, rfl, hmem, hlen, hslots 1 (.press 0) _ rfl rfl⟩

/-! ### Custom-command bindings: the scope of a binding -/

theorem customCommandBinding_fields (gui : BindingConfig) (c : CustomCommand) (b : Binding)
    (h : customCommandBinding gui c = .ok b) :
    b.Handler = .customCommand c ∧ b.Modifier = .ModNone ∧
    getKey gui.toKeyConfig c.Key = .ok b.Key ∧
    b.Description = (if c.Description = "" then c.Command else c.Description) ∧
    (c.Context = "global" → b.ViewName = "" ∧ b.Contexts = []) ∧
    (c.Context ≠ "global" → ∃ ctx, gui.contextForContextKey c.Context = some ctx ∧
      b.ViewName = ctx.GetViewName ∧ b.Contexts = [c.Context]) := by
  unfold customCommandBinding at h
  by_cases hg : c.Context = "global"
  · simp only [hg, if_true] at h
    cases hk : getKey gui.toKeyConfig c.Key with
    | error e => simp [hk] at h
    | ok k =>
      simp only [hk, Except.ok.injEq] at h
      subst h
      exact ⟨rfl, rfl, rfl, rfl, fun _ => ⟨rfl, rfl⟩, fun hne => absurd hg hne⟩
  · by_cases he : c.Context = ""
    · simp [hg, he] at h
    · cases hl : gui.contextForContextKey c.Context with
      | none => simp [hg, he, hl] at h
      | some ctx =>
        simp only [hg, he, if_false, hl] at h
        cases hk : getKey gui.toKeyConfig c.Key with
        | error e => simp [hk] at h
        | ok k =>
          simp only [hk, Except.ok.injEq] at h
          subst h
          exact ⟨rfl, rfl, rfl, rfl, fun hgl => absurd hgl hg, fun _ => ⟨ctx, rfl, rfl, rfl⟩⟩

theorem appendCustomCommandBindings_ok (gui : BindingConfig) (cmds : List CustomCommand)
    (hvalid : ∀ c ∈ cmds, ¬ badContext gui c ∧ ∃ k, getKey gui.toKeyConfig c.Key = .ok k)
    (acc : List Binding) :
    ∃ bs, appendCustomCommandBindings gui cmds acc = .ok (acc ++ bs) ∧
      List.Forall₂ (fun c b => customCommandBinding gui c = .ok b) cmds bs := by
  induction cmds generalizing acc with
  | nil => exact ⟨[], by simp [appendCustomCommandBindings], List.Forall₂.nil⟩
  | cons c rest ih =>
    obtain ⟨b, hb⟩ := (customCommandBinding_ok_iff gui c).mpr (hvalid c (by simp))
    obtain ⟨bs, hbs, hall⟩ := ih (fun d hd => hvalid d (List.mem_cons_of_mem _ hd)) (acc ++ [b])
    refine ⟨b :: bs, ?_, List.Forall₂.cons hb hall⟩
    unfold appendCustomCommandBindings
    simp only [hb]
    rw [hbs]
    simp

theorem forall₂_getElem? {α β : Type} (R : α → β → Prop) (xs : List α) (ys : List β)
    (h : List.Forall₂ R xs ys) (i : Nat) (x : α) (hx : xs[i]? = some x) :
    ∃ y, ys[i]? = some y ∧ R x y := by
  induction h generalizing i with
  | nil => simp at hx
  | cons hr _ ih =>
    cases i with
    | zero =>
      simp only [List.getElem?_cons_zero, Option.some.injEq] at hx
      subst hx
      exact ⟨_, by simp, hr⟩
    | succ i =>
      simp only [List.getElem?_cons_succ] at hx
      obtain ⟨y, hy, hr2⟩ := ih i hx
      exact ⟨y, by simpa using hy, hr2⟩

/-- C11. For a list of custom commands that all have an accepted context and
a key that `getKey` accepts, `GetCustomCommandKeybindings` returns one binding
per command, in the order of the list. The binding of a command with the
context 'global' has the view name "" and no contexts; the binding of a
command with another context has the view of that context and the context as
its only context; every binding has the modifier `ModNone`, the key
`getKey(command.Key)` and the handler of its command. -/
theorem GetCustomCommandKeybindings_scope (gui : BindingConfig) (cmds : List CustomCommand)
    (hcmds : gui.customCommands = .ok cmds)
    (hvalid : ∀ c ∈ cmds, ¬ badContext gui c ∧ ∃ k, getKey gui.toKeyConfig c.Key = .ok k) :
    ∃ bindings, GetCustomCommandKeybindings gui = .ok bindings ∧
      bindings.length = cmds.length ∧
      ∀ (i : Nat) (c : CustomCommand), cmds[i]? = some c →
        ∃ b : Binding, bindings[i]? = some b ∧
        b.Handler = .customCommand c ∧ b.Modifier = .ModNone ∧
        getKey gui.toKeyConfig c.Key = .ok b.Key ∧
        (c.Context = "global" → b.ViewName = "" ∧ b.Contexts = []) ∧
        (c.Context ≠ "global" → ∃ ctx, gui.contextForContextKey c.Context = some ctx ∧
          b.ViewName = ctx.GetViewName ∧ b.Contexts = [c.Context]) := by
  obtain ⟨bs, hbs, hall⟩ := appendCustomCommandBindings_ok gui cmds hvalid []
  refine ⟨bs, ?_, hall.length_eq.symm, ?_⟩
  · unfold GetCustomCommandKeybindings
    rw [hcmds]
    simpa using hbs
  · intro i c hc
    obtain ⟨b, hb, hcb⟩ := forall₂_getElem? _ cmds bs hall i c hc
    obtain ⟨h1, h2, h3, _, h5, h6⟩ := customCommandBinding_fields gui c b hcb
    exact ⟨b, hb, h1, h2, h3, h5, h6⟩

theorem twoCommandsConfig_valid (c : CustomCommand)
    (hc : c ∈ [confirmPromptCommand, filesScopedCommand]) :
    ¬ badContext twoCommandsConfig c ∧
      ∃ k, getKey twoCommandsConfig.toKeyConfig c.Key = .ok k := by
  simp only [List.mem_cons, List.mem_singleton, List.not_mem_nil, or_false] at hc
  rcases hc with h | h
  · subst h
    refine ⟨?_, _, rfl⟩
    rintro (h | ⟨h, _⟩)
    · exact absurd h (by decide)
    · exact h rfl
  · subst h
    refine ⟨?_, _, rfl⟩
    rintro (h | ⟨_, h⟩)
    · exact absurd h (by decide)
    · exact absurd h (by simp [twoCommandsConfig, filesScopedCommand])

/-- Witness of C11: the two commands of `twoCommandsConfig` give two bindings,
the first global, the second on the view and context `files`. -/
theorem GetCustomCommandKeybindings_scope_witness :
    GetCustomCommandKeybindings twoCommandsConfig =
      .ok [ { ViewName := "", Contexts := [], Handler := .customCommand confirmPromptCommand,
              Key := .rune 'a', Modifier := .ModNone, Description := "git clean",
              Alternative := "" },
            { ViewName := "files", Contexts := ["files"],
              Handler := .customCommand filesScopedCommand,
              Key := .key .KeyCtrlT, Modifier := .ModNone, Description := "stage everything",
              Alternative := "" } ] ∧
    ∃ bindings, GetCustomCommandKeybindings twoCommandsConfig = .ok bindings ∧
      bindings.length = 2 :=
  ⟨rfl, (GetCustomCommandKeybindings_scope twoCommandsConfig
      [confirmPromptCommand, filesScopedCommand] rfl twoCommandsConfig_valid).imp
    fun _ h => ⟨h.1, h.2.1⟩⟩

/-! ### Custom commands: where the prompt type is checked -/

/-- C16, as stated, fails: the custom command `confirmPromptCommand` has a
prompt of the type 'confirm', yet `GetCustomCommandKeybindings` does not abort
and returns its binding; the defect is reported when the handler runs, as an
error panel. -/
theorem invalid_prompt_type_passes_startup :
    (∃ p ∈ confirmPromptCommand.Prompts, p.PromptType ≠ "input" ∧ p.PromptType ≠ "menu") ∧
    (∃ b rest, GetCustomCommandKeybindings twoCommandsConfig = .ok (b :: rest) ∧
      b.Handler = .customCommand confirmPromptCommand) ∧
    handleCustomCommandKeybinding demoGui confirmPromptCommand =
      .done [.createErrorPanel "custom command prompt must have a type of 'input' or 'menu'"] :=
  ⟨⟨_, List.mem_singleton_self _, by decide, by decide⟩, ⟨_, _, rfl, rfl⟩, rfl⟩

/-- C16, amended. The construction of the binding of a custom command does
not look at its prompts: with another list of prompts it aborts or succeeds
alike and gives the same binding but for the handler. So for custom commands
with accepted contexts and keys `GetCustomCommandKeybindings` returns the
bindings, one handler per command, whatever the types of the prompts; a
prompt whose type is neither 'input' nor 'menu' is reported when the handler
is invoked, which then only raises the error panel about the prompt type. -/
theorem prompt_type_checked_when_invoked (cfg : BindingConfig) (gui : CommandCollaborators) :
    (∀ (c : CustomCommand) (prompts : List CustomCommandPrompt),
      customCommandBinding cfg { c with Prompts := prompts } =
        (customCommandBinding cfg c).map fun b =>
          { b with Handler := .customCommand { c with Prompts := prompts } }) ∧
    (∀ cmds, cfg.customCommands = .ok cmds →
      (∀ c ∈ cmds, ¬ badContext cfg c ∧ ∃ k, getKey cfg.toKeyConfig c.Key = .ok k) →
      ∃ bindings, GetCustomCommandKeybindings cfg = .ok bindings ∧
        bindings.map Binding.Handler = cmds.map Handler.customCommand) ∧
    (∀ c : CustomCommand,
      (∃ p ∈ c.Prompts, p.PromptType ≠ "input" ∧ p.PromptType ≠ "menu") →
      handleCustomCommandKeybinding gui c = .done [promptTypeErrorPanel]) := by
  refine ⟨?_, ?_, ?_⟩
  · intro c prompts
    unfold customCommandBinding
    by_cases hg : c.Context = "global"
    · simp only [hg, if_true]
      cases getKey cfg.toKeyConfig c.Key <;> rfl
    · by_cases he : c.Context = ""
      · simp only [hg, he, if_false, if_true]
        rfl
      · simp only [hg, he, if_false]
        cases cfg.contextForContextKey c.Context with
        | none => rfl
        | some ctx => cases getKey cfg.toKeyConfig c.Key <;> rfl
  · intro cmds hcmds hvalid
    obtain ⟨bs, hbs, hall⟩ := appendCustomCommandBindings_ok cfg cmds hvalid []
    refine ⟨bs, ?_, ?_⟩
    · unfold GetCustomCommandKeybindings
      rw [hcmds]
      simpa using hbs
    · clear hbs hvalid hcmds
      induction hall with
      | nil => rfl
      | cons hb _ ih =>
        simp only [List.map_cons, ih, (customCommandBinding_fields cfg _ _ hb).1]
  · rintro c ⟨p, hp, h1, h2⟩
    apply (handleCustomCommandKeybinding_eq gui c).2
    refine ⟨p, hp, ?_⟩
    rintro (h | h)
    · exact h1 h
    · exact h2 h

/-- Witness of C16, amended: the binding of `confirmPromptCommand` is built
and its handler raises the error panel. -/
theorem prompt_type_checked_when_invoked_witness :
    (∃ bindings, GetCustomCommandKeybindings twoCommandsConfig = .ok bindings ∧
      bindings.map Binding.Handler =
        [Handler.customCommand confirmPromptCommand, .customCommand filesScopedCommand]) ∧
    handleCustomCommandKeybinding demoGui confirmPromptCommand = .done [promptTypeErrorPanel] :=
  ⟨(prompt_type_checked_when_invoked twoCommandsConfig demoGui).2.1
      [confirmPromptCommand, filesScopedCommand] rfl twoCommandsConfig_valid,
   (prompt_type_checked_when_invoked twoCommandsConfig demoGui).2.2 confirmPromptCommand
      ⟨_, List.mem_singleton_self _, by decide, by decide⟩⟩

/-! ### Custom commands: the name of a menu option -/

/-- C14, as stated, fails: the name template of the option of
`namedByResponseCommand` is not empty and resolves to the empty string when the
first answer is empty; the value of the option resolves to `origin`, but the
menu displays the empty name. -/
theorem menu_name_resolving_empty_is_displayed :
    resolveTemplate mainBranchGui "\x7b\x7bindex .PromptResponses 0\x7d\x7d" ["", ""] =
      .ok (.ok "") ∧
    resolveTemplate mainBranchGui "origin" ["", ""] = .ok (.ok "origin") ∧
    ((handleCustomCommandKeybinding mainBranchGui namedByResponseCommand).after
        [.confirm ""]).map (fun seg => seg.events.filter Event.isModal) =
      some [.createMenu "Remote" [["", ""]]] := by
  refine ⟨rfl, rfl, ?_⟩
  decide

/-- C14, amended. When the menu of a prompt is open, the displayed name of
each option is its name template resolved, and the name template of an option
whose name is empty is its value: such an option is displayed under its
resolved value. Pressing an option stores its resolved value in the slot of
the prompt, and the next layer resolves its templates against that vector. -/
theorem menu_option_name_fallback (gui : CommandCollaborators) (cmd : CustomCommand)
    (answers : List Answer) (seg : Run) (p : CustomCommandPrompt)
    (events : List Event) (onPress : List Run)
    (hseg : (handleCustomCommandKeybinding gui cmd).after answers = some seg)
    (hp : cmd.Prompts[answers.length]? = some p) (hmenu : p.PromptType = "menu")
    (hopen : seg = .awaitMenu events onPress) :
    (∃ pre, events = pre ++
      [.createMenu
        (resolved gui p.Title
          (responsesAfter gui cmd.Prompts 0 (List.replicate cmd.Prompts.length "") answers))
        (p.Options.map fun o =>
          [resolved gui (nameTemplate o)
            (responsesAfter gui cmd.Prompts 0 (List.replicate cmd.Prompts.length "") answers),
           gui.ColoredString (resolved gui o.Description
            (responsesAfter gui cmd.Prompts 0 (List.replicate cmd.Prompts.length "")
              answers))])]) ∧
    (∀ o ∈ p.Options, o.Name = "" → ∀ rs,
      resolved gui (nameTemplate o) rs = resolved gui o.Value rs) ∧
    (∀ (i : Nat) (o : CustomCommandMenuOption) (next : Run) (t : String) (rs2 : List String),
      p.Options[i]? = some o → seg.answer (.press i) = some next →
      Event.resolveTemplate t rs2 ∈ next.events →
      rs2 = (responsesAfter gui cmd.Prompts 0 (List.replicate cmd.Prompts.length "")
        answers).set answers.length
          (resolved gui o.Value
            (responsesAfter gui cmd.Prompts 0 (List.replicate cmd.Prompts.length "")
              answers))) := by
  rcases reachable_node gui cmd answers seg hseg with ⟨hbad, _⟩ | ⟨_, _, hchain⟩
  · rw [hbad] at hopen
    exact absurd hopen (by simp)
  · generalize responsesAfter gui cmd.Prompts 0 (List.replicate cmd.Prompts.length "")
      answers = R at hchain ⊢
    obtain ⟨hlt, hpe⟩ := List.getElem?_eq_some_iff.mp hp
    have hd : cmd.Prompts.drop answers.length =
        p :: cmd.Prompts.drop (answers.length + 1) := by
      rw [← hpe]
      exact List.drop_eq_getElem_cons hlt
    have hin : p.PromptType ≠ "input" := by
      rw [hmenu]
      decide
    rw [hd] at hchain
    simp only [promptChain, hin, if_false, menuLayer] at hchain
    cases hst : resolveMenu gui p R with
    | mk evs value =>
      cases value with
      | none =>
        rw [hst, hopen] at hchain
        exact absurd hchain (by simp)
      | some v =>
        obtain ⟨items, title⟩ := v
        obtain ⟨htitle, hitems, _⟩ := resolveMenu_some gui p R evs items title hst
        rw [hst, hopen] at hchain
        simp only [Run.awaitMenu.injEq] at hchain
        obtain ⟨hev, hpress⟩ := hchain
        refine ⟨⟨evs, ?_⟩, ?_, ?_⟩
        · rw [hev, htitle, hitems, List.map_map]
          rfl
        · intro o _ hname rs
          simp [nameTemplate, hname]
        · intro i o next t rs2 ho hnext hmem
          rw [hopen] at hnext
          simp only [Run.answer, hpress, hitems, List.map_map, List.getElem?_map, ho,
            Option.map_some', Function.comp, Option.some.injEq] at hnext
          exact nodeSound_resolve gui _ next
            (by rw [← hnext]; exact promptChain_sound gui cmd _ _ _) t rs2 hmem

/-- Witness of C14, amended: the option with no name and the value `origin`
of `remoteMenuCommand` is displayed as `origin`, and pressing it makes the
command template resolve against the vector that holds `origin`. -/
theorem menu_option_name_fallback_witness :
    ∃ seg events onPress,
      (handleCustomCommandKeybinding mainBranchGui remoteMenuCommand).after [] = some seg ∧
      seg = .awaitMenu events onPress ∧
      events.filter Event.isModal = [.createMenu "Remote" [["origin", ""]]] ∧
      ∀ next t rs2, seg.answer (.press 0) = some next →
        Event.resolveTemplate t rs2 ∈ next.events → rs2 = ["origin"] := by
  have hform : ∃ events onPress,
      handleCustomCommandKeybinding mainBranchGui remoteMenuCommand =
        .awaitMenu events onPress := ⟨_, _, rfl⟩
  obtain ⟨events, onPress, hrun⟩ := hform
  obtain ⟨⟨pre, hev⟩, _, hstore⟩ :=
    menu_option_name_fallback mainBranchGui remoteMenuCommand []
      (handleCustomCommandKeybinding mainBranchGui remoteMenuCommand)
      { PromptType := "menu", Title := "Remote", InitialValue := "",
        Options := [ { Name := "", Description := "", Value := "origin" } ] }
      events onPress rfl rfl rfl hrun
  refine ⟨_, events, onPress, rfl, hrun, ?_, ?_⟩
  · have hmodal : (handleCustomCommandKeybinding mainBranchGui remoteMenuCommand).events.filter
        Event.isModal = [.createMenu "Remote" [["origin", ""]]] := by decide
    rw [hrun] at hmodal
    exact hmodal
  · intro next t rs2 hnext hmem
    exact hstore 0 { Name := "", Description := "", Value := "origin" } next t rs2 rfl hnext hmem

/-! ### Custom commands: the innermost function -/

theorem runCustomCommand_resolved (gui : CommandCollaborators) (cmd : CustomCommand)
    (rs : List String) (cmdStr : String)
    (hres : resolveTemplate gui cmd.Command rs = .ok (.ok cmdStr)) :
    runCustomCommand gui cmd rs =
      if cmd.Subprocess then
        .done ([.resolveTemplate cmd.Command rs] ++ PrepareSubProcess gui cmdStr)
      else
        .done ([.resolveTemplate cmd.Command rs, .withWaitingStatus (loadingTextOf gui cmd),
            .osPrepareSubProcess cmdStr [], .runCommand cmdStr] ++
          (match gui.RunCommand cmdStr with
           | some err => [.surfaceError err]
           | none => [.refreshSidePanels])) := by
  unfold runCustomCommand
  rw [resolveOrSurface_ok gui _ _ cmdStr hres]
  by_cases hs : cmd.Subprocess = true
  · simp [hs]
  · simp [hs, loadingTextOf]

theorem PrepareSubProcess_events (gui : CommandCollaborators) (command : String) :
    Event.prepareSubProcess command ∈ PrepareSubProcess gui command ∧
    (∀ e ∈ PrepareSubProcess gui command, e.isBackgroundTask = false ∧
      e.isModal = false ∧ e.isResolveTemplate = false ∧ ∀ err, e ≠ .surfaceError err) ∧
    (∀ cmdName commandArgs, gui.ToArgv command = cmdName :: commandArgs →
      PrepareSubProcess gui command =
        [.prepareSubProcess command, .osPrepareSubProcess cmdName commandArgs,
         .updateErrSubProcess]) := by
  unfold PrepareSubProcess
  cases gui.ToArgv command with
  | nil => simp [Event.isBackgroundTask, Event.isModal, Event.isResolveTemplate]
  | cons c args => simp [Event.isBackgroundTask, Event.isModal, Event.isResolveTemplate]

/-- The two paths of the innermost function for a command template that
resolves. With `subprocess` set it hands the resolved command to
`PrepareSubProcess` and makes no other call: no `WithWaitingStatus`, no
`OSCommand.RunCommand`, no `refreshSidePanels`, no error surfaced; when the
argument vector of the command is not empty its calls are the resolution and
the three calls of `PrepareSubProcess`, and it returns. With `subprocess`
unset it runs the resolved command through `WithWaitingStatus` and
`RunCommand` and never enters `gui.PrepareSubProcess`. -/
theorem subprocess_bypass (gui : CommandCollaborators) (cmd : CustomCommand)
    (rs : List String) (cmdStr : String)
    (hres : resolveTemplate gui cmd.Command rs = .ok (.ok cmdStr)) :
    (cmd.Subprocess = true →
      runCustomCommand gui cmd rs =
        .done ([.resolveTemplate cmd.Command rs] ++ PrepareSubProcess gui cmdStr) ∧
      Event.prepareSubProcess cmdStr ∈ (runCustomCommand gui cmd rs).events ∧
      (runCustomCommand gui cmd rs).events.filter Event.isBackgroundTask = [] ∧
      (∀ err, Event.surfaceError err ∉ (runCustomCommand gui cmd rs).events) ∧
      (∀ cmdName commandArgs, gui.ToArgv cmdStr = cmdName :: commandArgs →
        runCustomCommand gui cmd rs =
          .done [.resolveTemplate cmd.Command rs, .prepareSubProcess cmdStr,
                 .osPrepareSubProcess cmdName commandArgs, .updateErrSubProcess])) ∧
    (cmd.Subprocess = false →
      runCustomCommand gui cmd rs =
        .done ([.resolveTemplate cmd.Command rs, .withWaitingStatus (loadingTextOf gui cmd),
            .osPrepareSubProcess cmdStr [], .runCommand cmdStr] ++
          (match gui.RunCommand cmdStr with
           | some err => [.surfaceError err]
           | none => [.refreshSidePanels])) ∧
      Event.runCommand cmdStr ∈ (runCustomCommand gui cmd rs).events ∧
      (runCustomCommand gui cmd rs).events.filter Event.isPrepareSubProcess = []) := by
  have hrun := runCustomCommand_resolved gui cmd rs cmdStr hres
  obtain ⟨hmem, hall, hargv⟩ := PrepareSubProcess_events gui cmdStr
  constructor
  · intro hs
    simp only [hs, if_true] at hrun
    rw [hrun]
    refine ⟨rfl, ?_, ?_, ?_, ?_⟩
    · simp [Run.events, hmem]
    · have hf : (PrepareSubProcess gui cmdStr).filter Event.isBackgroundTask = [] :=
        List.filter_eq_nil_iff.mpr fun e he => by simp [(hall e he).1]
      simp [Run.events, List.filter_append, hf, Event.isBackgroundTask]
    · intro err herr
      simp only [Run.events, List.mem_append, List.mem_singleton, reduceCtorEq, false_or] at herr
      exact (hall _ herr).2.2.2 err rfl
    · intro cmdName commandArgs h
      rw [hargv cmdName commandArgs h]
      rfl
  · intro hs
    simp only [hs, Bool.false_eq_true, if_false] at hrun
    rw [hrun]
    refine ⟨rfl, by simp [Run.events], ?_⟩
    cases gui.RunCommand cmdStr <;> simp [Run.events, Event.isPrepareSubProcess]

/-- The two paths on concrete commands: the command of `brokenTitleCommand`,
whose `subprocess` is set, is handed to `PrepareSubProcess`; that of
`pushCommand`, whose `subprocess` is unset, runs through `WithWaitingStatus`
and `RunCommand`. -/
theorem subprocess_bypass_witness :
    runCustomCommand demoGui brokenTitleCommand ["v1", "v2"] =
      .done [.resolveTemplate "git tag" ["v1", "v2"], .prepareSubProcess "git tag[v1,v2]",
             .osPrepareSubProcess "git tag[v1,v2]" [], .updateErrSubProcess] ∧
    runCustomCommand demoGui pushCommand ["dev", "origin"] =
      .done [.resolveTemplate "git push" ["dev", "origin"],
             .withWaitingStatus "runningCustomCommandStatus",
             .osPrepareSubProcess "git push[dev,origin]" [],
             .runCommand "git push[dev,origin]", .refreshSidePanels] :=
  ⟨((subprocess_bypass demoGui brokenTitleCommand ["v1", "v2"] "git tag[v1,v2]" rfl).1 rfl).2.2.2.2
      "git tag[v1,v2]" [] rfl,
   ((subprocess_bypass demoGui pushCommand ["dev", "origin"] "git push[dev,origin]" rfl).2 rfl).1⟩

/-- C18. The handler of a custom command with no prompts is the innermost
function invoked with the empty response vector: it opens no modal and leaves
no callback, it resolves one template, that of the command, against the
current selections and the empty vector, and when the template resolves it
hands the resolved string to `PrepareSubProcess` or, with `subprocess` unset,
to `OSCommand.RunCommand`. -/
theorem no_prompts_runs_command (gui : CommandCollaborators) (cmd : CustomCommand)
    (hempty : cmd.Prompts = []) :
    handleCustomCommandKeybinding gui cmd = runCustomCommand gui cmd [] ∧
    (handleCustomCommandKeybinding gui cmd).isDone = true ∧
    (handleCustomCommandKeybinding gui cmd).events.filter Event.isModal = [] ∧
    (handleCustomCommandKeybinding gui cmd).events.filter Event.isResolveTemplate =
      [.resolveTemplate cmd.Command []] ∧
    (∀ selectedFile, getSelectedFile gui.State = .ok selectedFile →
      resolveTemplate gui cmd.Command [] =
        .ok (gui.ResolveTemplate cmd.Command
          { SelectedFile := selectedFile
            SelectedLocalCommit := gui.getSelectedLocalCommit
            SelectedReflogCommit := gui.getSelectedReflogCommit
            SelectedLocalBranch := gui.getSelectedBranch
            SelectedRemoteBranch := gui.getSelectedRemoteBranch
            SelectedRemote := gui.getSelectedRemote
            SelectedTag := gui.getSelectedTag
            SelectedStashEntry := gui.getSelectedStashEntry
            SelectedCommitFile := gui.getSelectedCommitFile
            SelectedSubCommit := gui.getSelectedSubCommit
            CheckedOutBranch := gui.currentBranch
            PromptResponses := [] })) ∧
    (∀ cmdStr, resolveTemplate gui cmd.Command [] = .ok (.ok cmdStr) →
      if cmd.Subprocess then
        Event.prepareSubProcess cmdStr ∈ (handleCustomCommandKeybinding gui cmd).events
      else
        (handleCustomCommandKeybinding gui cmd).events =
          [.resolveTemplate cmd.Command [], .withWaitingStatus (loadingTextOf gui cmd),
            .osPrepareSubProcess cmdStr [], .runCommand cmdStr] ++
          (match gui.RunCommand cmdStr with
           | some err => [.surfaceError err]
           | none => [.refreshSidePanels])) := by
  have hrun : handleCustomCommandKeybinding gui cmd = runCustomCommand gui cmd [] := by
    rw [(handleCustomCommandKeybinding_eq gui cmd).1 (by simp [hempty]), hempty]
    rfl
  have hexec : ∀ cmdStr, resolveTemplate gui cmd.Command [] = .ok (.ok cmdStr) →
      if cmd.Subprocess then
        Event.prepareSubProcess cmdStr ∈ (runCustomCommand gui cmd []).events
      else
        (runCustomCommand gui cmd []).events =
          [.resolveTemplate cmd.Command [], .withWaitingStatus (loadingTextOf gui cmd),
            .osPrepareSubProcess cmdStr [], .runCommand cmdStr] ++
          (match gui.RunCommand cmdStr with
           | some err => [.surfaceError err]
           | none => [.refreshSidePanels]) := by
    intro cmdStr hres
    rw [runCustomCommand_resolved gui cmd [] cmdStr hres]
    by_cases hs : cmd.Subprocess = true
    · simp [hs, Run.events, (PrepareSubProcess_events gui cmdStr).1]
    · simp [hs, Run.events]
  rw [hrun]
  refine ⟨rfl, ?_, ?_, ?_, ?_, hexec⟩
  · obtain ⟨events, hdone⟩ := runCustomCommand_done gui cmd []
    rw [hdone]
    rfl
  · cases hr : resolveTemplate gui cmd.Command [] with
    | error msg => simp [runCustomCommand, resolveOrSurface, hr, Run.events, Event.isModal]
    | ok inner =>
      cases inner with
      | error err => simp [runCustomCommand, resolveOrSurface, hr, Run.events, Event.isModal]
      | ok cmdStr =>
        rw [runCustomCommand_resolved gui cmd [] cmdStr hr]
        by_cases hs : cmd.Subprocess = true
        · have hf : (PrepareSubProcess gui cmdStr).filter Event.isModal = [] :=
            List.filter_eq_nil_iff.mpr fun e he => by
              simp [((PrepareSubProcess_events gui cmdStr).2.1 e he).2.1]
          simp [hs, Run.events, List.filter_append, hf, Event.isModal]
        · simp only [hs, Run.events]
          cases gui.RunCommand cmdStr <;> simp [Event.isModal]
  · cases hr : resolveTemplate gui cmd.Command [] with
    | error msg =>
      simp [runCustomCommand, resolveOrSurface, hr, Run.events, Event.isResolveTemplate]
    | ok inner =>
      cases inner with
      | error err =>
        simp [runCustomCommand, resolveOrSurface, hr, Run.events, Event.isResolveTemplate]
      | ok cmdStr =>
        rw [runCustomCommand_resolved gui cmd [] cmdStr hr]
        by_cases hs : cmd.Subprocess = true
        · have hf : (PrepareSubProcess gui cmdStr).filter Event.isResolveTemplate = [] :=
            List.filter_eq_nil_iff.mpr fun e he => by
              simp [((PrepareSubProcess_events gui cmdStr).2.1 e he).2.2.1]
          simp [hs, Run.events, List.filter_append, hf, Event.isResolveTemplate]
        · simp only [hs, Run.events]
          cases gui.RunCommand cmdStr <;> simp [Event.isResolveTemplate]
  · intro selectedFile hsel
    simp [resolveTemplate, hsel]

/-- Witness of C18: with the local branch `main` selected, the command
`echo` of the name of the selected local branch resolves to `echo main`, which
is passed to `OSCommand.RunCommand`. -/
theorem no_prompts_runs_command_witness :
    resolveTemplate mainBranchGui echoBranchCommand.Command [] = .ok (.ok "echo main") ∧
    (handleCustomCommandKeybinding mainBranchGui echoBranchCommand).events =
      [.resolveTemplate "echo \x7b\x7b.SelectedLocalBranch.Name\x7d\x7d" [],
       .withWaitingStatus "runningCustomCommandStatus",
       .osPrepareSubProcess "echo main" [], .runCommand "echo main", .refreshSidePanels] ∧
    (handleCustomCommandKeybinding mainBranchGui echoBranchCommand).events.filter
      Event.isModal = [] :=
  ⟨rfl,
   (no_prompts_runs_command mainBranchGui echoBranchCommand rfl).2.2.2.2.2 "echo main" rfl,
   (no_prompts_runs_command mainBranchGui echoBranchCommand rfl).2.2.1⟩

/-! ### Files panel: the invariant of the selected index -/

theorem refreshSelectedLine_invariant (line : Int) (files : List File) :
    panelInvariant { Files := files, SelectedLineIdx := refreshSelectedLine line files.length } := by
  unfold panelInvariant refreshSelectedLine
  cases files with
  | nil => simp
  | cons f rest =>
    have hlen : ((f :: rest).length : Int) = (rest.length : Int) + 1 := by simp
    simp only [List.length_cons, Nat.add_one_ne_zero, if_false, ne_eq, reduceCtorEq,
      not_false_eq_true, forall_const, iff_false] at hlen ⊢
    rw [hlen]
    by_cases h1 : line < 0
    · simp only [h1, if_true]
      omega
    · by_cases h2 : (rest.length : Int) + 1 - 1 < line
      · simp only [h1, h2, if_true, if_false]
        omega
      · simp only [h1, h2, if_false]
        omega

theorem getSelectedFile_of_invariant (s : FilesPanelState) (h : panelInvariant s) :
    ∃ selectedFile, getSelectedFile s = .ok selectedFile := by
  unfold getSelectedFile
  obtain ⟨hiff, hrange⟩ := h
  by_cases h1 : s.SelectedLineIdx = -1
  · exact ⟨none, by simp [h1]⟩
  · have hne : s.Files ≠ [] := fun he => h1 (hiff.mpr he)
    obtain ⟨h0, hlt⟩ := hrange hne
    have hnat : s.SelectedLineIdx.toNat < s.Files.length := by omega
    refine ⟨some s.Files[s.SelectedLineIdx.toNat], ?_⟩
    simp [h1, not_lt.mpr h0, List.getElem?_eq_getElem hnat]

/-- The success path of `refreshStateFiles`: from a panel that satisfies the
invariant, a refresh in which the file watcher returns no error does not
fault and leaves a panel that satisfies the invariant, its index being the
outcome of `refreshSelectedLine`. -/
theorem refreshStateFiles_invariant_without_error (git : FilesCollaborators)
    (s : FilesPanelState) (hinv : panelInvariant s)
    (hwatch : git.addFilesToFileWatcher git.GetStatusFiles = none) :
    ∃ s2, refreshStateFiles git s = .ok (s2, none) ∧ panelInvariant s2 := by
  obtain ⟨selectedFile, hsel⟩ := getSelectedFile_of_invariant s hinv
  unfold refreshStateFiles
  simp only [hsel, hwatch]
  refine ⟨_, rfl, ?_⟩
  cases selectedFile with
  | none => exact refreshSelectedLine_invariant _ _
  | some selected =>
    simp only
    cases findMovedFile git selected s.SelectedLineIdx
        (git.MergeStatusFiles s.Files git.GetStatusFiles (some selected)) 0 with
    | none => exact refreshSelectedLine_invariant _ _
    | some idx => exact refreshSelectedLine_invariant _ _

/-- C17, the failing input. The panel `[A, B, C]` with the selection on `C`
(index 2) satisfies the invariant. In a refresh whose fresh status is `[A]`
and in which `addFilesToFileWatcher` returns an error, `refreshStateFiles`
installs the collection `[A]` and returns before the selected index is
adjusted: the index is still 2, outside the collection of one file, and the
next `getSelectedFile` faults on the index. The same refresh without the
error of the file watcher leaves the index 0 and the invariant holds. -/
theorem refreshStateFiles_error_return_breaks_invariant :
    panelInvariant panelABCLast ∧
    refreshStateFiles (statusA (some "too many open files")) panelABCLast =
      .ok ({ Files := [fileNamed "a" false], SelectedLineIdx := 2 },
           some "too many open files") ∧
    ¬ panelInvariant { Files := [fileNamed "a" false], SelectedLineIdx := 2 } ∧
    getSelectedFile { Files := [fileNamed "a" false], SelectedLineIdx := 2 } =
      .error "index out of range" ∧
    refreshStateFiles (statusA none) panelABCLast =
      .ok ({ Files := [fileNamed "a" false], SelectedLineIdx := 0 }, none) ∧
    panelInvariant { Files := [fileNamed "a" false], SelectedLineIdx := 0 } := by
  refine ⟨?_, rfl, ?_, rfl, rfl, ?_⟩
  · simp [panelInvariant, panelABCLast]
  · simp [panelInvariant]
  · simp [panelInvariant]

/-! ### Key display -/

theorem sprintfChar_length (keyInt : Nat) : (sprintfChar keyInt).length = 1 := by
  unfold sprintfChar
  split_ifs <;> rfl

theorem sprintfChar_toNat (r : Char) : sprintfChar r.toNat = String.singleton r := by
  unfold sprintfChar
  have hvalid : r.toNat.isValidChar := r.valid
  rw [if_pos hvalid, Char.ofNat_toNat]

theorem keyMapReversed_labels : ∀ entry ∈ keyMapReversed, entry.2 ≠ "" := by decide

theorem keymapNames_length : ∀ name ∈ keymapNames, 1 < name.length := by decide

theorem GetKeyDisplay_no_entry (keyCode : gocui.Key → Nat) (k : gocui.Key)
    (hno : ¬ hasKeyMapReversedEntry keyCode k) :
    GetKeyDisplay keyCode (.key k) = sprintfChar (keyCode k) := by
  have hfind : keyMapReversed.find? (fun entry => keyCode entry.1 == keyCode k) = none := by
    rw [List.find?_eq_none]
    intro entry hmem hcode
    exact hno ⟨entry, hmem, by simpa using hcode⟩
  simp only [GetKeyDisplay, hfind]

theorem GetKeyDisplay_entry (keyCode : gocui.Key → Nat)
    (hdistinct : (keyMapReversed.map fun entry => keyCode entry.1).Nodup)
    (k k2 : gocui.Key) (label : String) (hmem : (k2, label) ∈ keyMapReversed)
    (hcode : keyCode k2 = keyCode k) :
    GetKeyDisplay keyCode (.key k) = label := by
  cases hfind : keyMapReversed.find? (fun entry => keyCode entry.1 == keyCode k) with
  | none =>
    rw [List.find?_eq_none] at hfind
    exact absurd (by simpa using hcode) (hfind (k2, label) hmem)
  | some entry =>
    have hin : entry ∈ keyMapReversed := List.mem_of_find?_eq_some hfind
    have hp : keyCode entry.1 = keyCode k := by simpa using List.find?_some hfind
    have heq : entry = (k2, label) :=
      List.inj_on_of_nodup_map hdistinct hin hmem (by rw [hp, hcode])
    simp only [GetKeyDisplay, hfind, heq]

theorem GetKeyDisplay_ne_empty (keyCode : gocui.Key → Nat) (key : KeyId) :
    GetKeyDisplay keyCode key ≠ "" := by
  have hone : ∀ n, sprintfChar n ≠ "" := by
    intro n h
    have := sprintfChar_length n
    rw [h] at this
    exact absurd this (by decide)
  cases key with
  | rune r => exact hone _
  | key k =>
    cases hfind : keyMapReversed.find? (fun entry => keyCode entry.1 == keyCode k) with
    | none =>
      simp only [GetKeyDisplay, hfind]
      exact hone _
    | some entry =>
      simp only [GetKeyDisplay, hfind]
      exact keyMapReversed_labels entry (List.mem_of_find?_eq_some hfind)

/-- C19. `GetKeyDisplay` of a rune is the string of that one rune. For a
special key with no entry in `keyMapReversed` it is the `%c` rendering of the
integer value of the key: a string of one character, the character with that
code whenever the value is a code point. For a special key with an entry it
is the label of the entry; the keys of the table are distinct, as Go demands
of a map literal. -/
theorem GetKeyDisplay_fallback (keyCode : gocui.Key → Nat)
    (hdistinct : (keyMapReversed.map fun entry => keyCode entry.1).Nodup) :
    (∀ r : Char, GetKeyDisplay keyCode (.rune r) = String.singleton r) ∧
    (∀ k : gocui.Key, ¬ hasKeyMapReversedEntry keyCode k →
      GetKeyDisplay keyCode (.key k) = sprintfChar (keyCode k) ∧
      (GetKeyDisplay keyCode (.key k)).length = 1 ∧
      ((keyCode k).isValidChar →
        GetKeyDisplay keyCode (.key k) = String.singleton (Char.ofNat (keyCode k)))) ∧
    (∀ (k k2 : gocui.Key) (label : String), (k2, label) ∈ keyMapReversed →
      keyCode k2 = keyCode k → GetKeyDisplay keyCode (.key k) = label) := by
  refine ⟨fun r => sprintfChar_toNat r, ?_, ?_⟩
  · intro k hno
    rw [GetKeyDisplay_no_entry keyCode k hno]
    refine ⟨rfl, sprintfChar_length _, ?_⟩
    intro hvalid
    simp [sprintfChar, hvalid]
  · intro k k2 label hmem hcode
    exact GetKeyDisplay_entry keyCode hdistinct k k2 label hmem hcode

/-- Witness of C19, with the key codes of termbox: the rune `a` is displayed
as `a`; the left mouse button, which has no entry, as the character of its
code; `KeyF1` as `f1` and `KeyCtrlH`, which is the key `KeyBackspace`, as
`backspace`. -/
theorem GetKeyDisplay_fallback_witness :
    GetKeyDisplay termboxKeyCode (.rune 'a') = "a" ∧
    GetKeyDisplay termboxKeyCode (.key .MouseLeft) = String.singleton (Char.ofNat 0xFFE8) ∧
    GetKeyDisplay termboxKeyCode (.key .KeyF1) = "f1" ∧
    GetKeyDisplay termboxKeyCode (.key .KeyCtrlH) = "backspace" :=
  ⟨(GetKeyDisplay_fallback termboxKeyCode (by decide)).1 'a',
   ((GetKeyDisplay_fallback termboxKeyCode (by decide)).2.1 .MouseLeft
      (by unfold hasKeyMapReversedEntry; decide)).2.2 (by decide),
   (GetKeyDisplay_fallback termboxKeyCode (by decide)).2.2 .KeyF1 .KeyF1 "f1"
      (by decide) rfl,
   (GetKeyDisplay_fallback termboxKeyCode (by decide)).2.2 .KeyCtrlH .KeyBackspace "backspace"
      (by decide) rfl⟩

/-- C20. For every name of the table `keymap` that the configuration does not
override and that lower-casing leaves as it is, `getKey` returns the key of
the table for that name, and `getKeyDisplay`, that is `GetKeyDisplay` of that
key, returns a display label that is not empty. -/
theorem getKeyDisplay_round_trip (cfg : KeyConfig) (keyCode : gocui.Key → Nat) (name : String)
    (hname : name ∈ keymapNames)
    (hplain : cfg.GetString ("keybinding." ++ name) = "")
    (hlower : cfg.ToLower name = name) :
    ∃ key label, keymap.lookup name = some key ∧ getKey cfg name = .ok key ∧
      getKeyDisplay cfg keyCode name = .ok label ∧ label = GetKeyDisplay keyCode key ∧
      label ≠ "" ∧ 0 < label.length := by
  have hk : keyString cfg name = name := by simp [keyString, hplain]
  have hlen : 1 < name.length := keymapNames_length name hname
  cases hl : keymap.lookup name with
  | none =>
    exact absurd hname (by
      rw [keymapNames, ← lookup_eq_none_iff_not_mem]
      exact hl)
  | some key =>
    have hget : getKey cfg name = .ok key := by
      rw [getKey_eq, hk, if_pos hlen, hlower, hl]
    have hne := GetKeyDisplay_ne_empty keyCode key
    refine ⟨key, GetKeyDisplay keyCode key, rfl, hget, ?_, rfl, hne, ?_⟩
    · simp [getKeyDisplay, hget]
    · rcases Nat.eq_zero_or_pos (GetKeyDisplay keyCode key).length with h0 | hpos
      · exact absurd ((string_length_eq_zero _).mp h0) hne
      · exact hpos

/-- Witness of C20, with the key codes of termbox and no override: `<right>`
is displayed as an arrow, and every name of `keymap` is displayed as a label
of `keyMapReversed`. -/
theorem getKeyDisplay_round_trip_witness :
    (∃ key label, keymap.lookup "<right>" = some key ∧
      getKey plainKeyConfig "<right>" = .ok key ∧
      getKeyDisplay plainKeyConfig termboxKeyCode "<right>" = .ok label ∧
      label = GetKeyDisplay termboxKeyCode key ∧ label ≠ "" ∧ 0 < label.length) ∧
    (getKeyDisplay plainKeyConfig termboxKeyCode "<right>").toOption = some "►" ∧
    (∀ name ∈ keymapNames, ∃ label ∈ keyMapReversed.map Prod.snd,
      (getKeyDisplay plainKeyConfig termboxKeyCode name).toOption = some label) :=
  ⟨getKeyDisplay_round_trip plainKeyConfig termboxKeyCode "<right>" (by decide) rfl (by decide),
   by decide, by decide⟩

/-! ### The binding table: the order of registration -/

theorem bindingOfLiteral_fields (gui : KeybindingsConfig) (l : BindingLiteral) (b : Binding)
    (h : bindingOfLiteral gui l = .ok b) :
    b.ViewName = l.ViewName ∧ b.Handler = l.Handler ∧ b.Modifier = l.Modifier ∧
    b.Contexts = l.Contexts.map gui.contextKey := by
  unfold bindingOfLiteral at h
  simp only at h
  split at h
  · exact absurd h (by simp)
  · simp only [Except.ok.injEq] at h
    subst h
    exact ⟨rfl, rfl, rfl, rfl⟩

theorem bindingsOfLiterals_fields (gui : KeybindingsConfig) (ls : List BindingLiteral) :
    ∀ bs, bindingsOfLiterals gui ls = .ok bs →
      bs.length = ls.length ∧
      bs.map Binding.ViewName = ls.map BindingLiteral.ViewName ∧
      bs.map Binding.Handler = ls.map BindingLiteral.Handler := by
  induction ls with
  | nil =>
    intro bs h
    simp only [bindingsOfLiterals, Except.ok.injEq] at h
    subst h
    exact ⟨rfl, rfl, rfl⟩
  | cons l rest ih =>
    intro bs h
    unfold bindingsOfLiterals at h
    cases hb : bindingOfLiteral gui l with
    | error e =>
      rw [hb] at h
      exact absurd h (by simp)
    | ok b =>
      rw [hb] at h
      cases hr : bindingsOfLiterals gui rest with
      | error e =>
        rw [hr] at h
        exact absurd h (by simp)
      | ok tail =>
        rw [hr] at h
        simp only [Except.ok.injEq] at h
        subst h
        obtain ⟨h1, h2, h3⟩ := ih tail hr
        obtain ⟨hv, hh, _, _⟩ := bindingOfLiteral_fields gui l b hb
        simp [h1, h2, h3, hv, hh]

theorem sideWindowBindings_fields (gui : KeybindingsConfig) (viewName : String)
    (new : List Binding) (h : sideWindowBindings gui viewName = .ok new) :
    new.map Binding.ViewName = [viewName, viewName, viewName, viewName] ∧
    new.map Binding.Handler =
      [.wrappedHandler "previousSideWindow", .wrappedHandler "nextSideWindow",
       .wrappedHandler "previousSideWindow", .wrappedHandler "nextSideWindow"] := by
  unfold sideWindowBindings at h
  cases h1 : getKey gui.toKeyConfig "universal.prevBlock" with
  | error e => rw [h1] at h; exact absurd h (by simp)
  | ok k1 =>
    cases h2 : getKey gui.toKeyConfig "universal.nextBlock" with
    | error e => rw [h1, h2] at h; exact absurd h (by simp)
    | ok k2 =>
      cases h3 : getKey gui.toKeyConfig "universal.prevBlock-alt" with
      | error e => rw [h1, h2, h3] at h; exact absurd h (by simp)
      | ok k3 =>
        cases h4 : getKey gui.toKeyConfig "universal.nextBlock-alt" with
        | error e => rw [h1, h2, h3, h4] at h; exact absurd h (by simp)
        | ok k4 =>
          rw [h1, h2, h3, h4] at h
          simp only [Except.ok.injEq] at h
          subst h
          exact ⟨rfl, rfl⟩

theorem appendSideWindowBindings_acc (gui : KeybindingsConfig) (views : List String) :
    ∀ acc, appendSideWindowBindings gui views acc =
      match appendSideWindowBindings gui views [] with
      | .error e => .error e
      | .ok new => .ok (acc ++ new) := by
  induction views with
  | nil =>
    intro acc
    simp [appendSideWindowBindings]
  | cons v rest ih =>
    intro acc
    unfold appendSideWindowBindings
    cases hv : sideWindowBindings gui v with
    | error e => rfl
    | ok new =>
      simp only
      rw [ih (acc ++ new), ih ([] ++ new)]
      cases appendSideWindowBindings gui rest [] with
      | error e => rfl
      | ok tail => simp [List.append_assoc]

theorem appendSideWindowBindings_views (gui : KeybindingsConfig) (views : List String) :
    ∀ new, appendSideWindowBindings gui views [] = .ok new →
      new.map Binding.ViewName = views.flatMap fun v => [v, v, v, v] := by
  induction views with
  | nil =>
    intro new h
    simp only [appendSideWindowBindings, Except.ok.injEq] at h
    subst h
    rfl
  | cons v rest ih =>
    intro new h
    unfold appendSideWindowBindings at h
    cases hv : sideWindowBindings gui v with
    | error e => rw [hv] at h; exact absurd h (by simp)
    | ok four =>
      rw [hv] at h
      simp only at h
      rw [appendSideWindowBindings_acc] at h
      cases hr : appendSideWindowBindings gui rest [] with
      | error e => rw [hr] at h; exact absurd h (by simp)
      | ok tail =>
        rw [hr] at h
        simp only [Except.ok.injEq] at h
        subst h
        simp [(sideWindowBindings_fields gui v four hv).1, ih tail hr]

theorem appendJumpBindings_acc (windows : List String) :
    ∀ i acc, appendJumpBindings windows i acc = acc ++ appendJumpBindings windows i [] := by
  induction windows with
  | nil =>
    intro i acc
    simp [appendJumpBindings]
  | cons w rest ih =>
    intro i acc
    unfold appendJumpBindings
    rw [ih (i + 1) (acc ++ [jumpBinding i w]), ih (i + 1) ([] ++ [jumpBinding i w])]
    simp [List.append_assoc]

theorem GetInitialKeybindings_parts (gui : KeybindingsConfig) (initial : List Binding)
    (h : GetInitialKeybindings gui = .ok initial) :
    ∃ static cycling listBindings,
      bindingsOfLiterals gui staticBindings = .ok static ∧
      appendSideWindowBindings gui
        ["status", "branches", "files", "commits", "commitFiles", "stash", "menu"] [] =
          .ok cycling ∧
      gui.getListContextKeyBindings = .ok listBindings ∧
      initial = static ++ cycling ++ numericJumpBindings ++ listBindings := by
  unfold GetInitialKeybindings at h
  cases hs : bindingsOfLiterals gui staticBindings with
  | error e => rw [hs] at h; exact absurd h (by simp)
  | ok static =>
    rw [hs] at h
    simp only at h
    rw [appendSideWindowBindings_acc] at h
    cases hc : appendSideWindowBindings gui
        ["status", "branches", "files", "commits", "commitFiles", "stash", "menu"] [] with
    | error e => rw [hc] at h; exact absurd h (by simp)
    | ok cycling =>
      rw [hc] at h
      simp only at h
      cases hl : gui.getListContextKeyBindings with
      | error e => rw [hl] at h; exact absurd h (by simp)
      | ok listBindings =>
        rw [hl] at h
        simp only [Except.ok.injEq] at h
        refine ⟨static, cycling, listBindings, rfl, rfl, rfl, ?_⟩
        rw [← h, appendJumpBindings_acc]
        rfl

theorem registeredBindings_setKeybindings (gui : KeybindingsConfig) (bs : List Binding) :
    registeredBindings (setKeybindings gui bs).1 <+: bs ∧
    ((setKeybindings gui bs).2 = none → registeredBindings (setKeybindings gui bs).1 = bs) ∧
    ((∀ b ∈ bs, gui.SetKeybinding b = none) → (setKeybindings gui bs).2 = none) := by
  induction bs with
  | nil => simp [setKeybindings, registeredBindings]
  | cons b rest ih =>
    obtain ⟨ih1, ih2, ih3⟩ := ih
    unfold setKeybindings
    cases hb : gui.SetKeybinding b with
    | some err =>
      refine ⟨?_, ?_, ?_⟩
      · simp only [registeredBindings, List.filterMap_cons, List.filterMap_nil]
        exact ⟨rest, rfl⟩
      · intro h
        exact absurd h (by simp)
      · intro h
        have := h b (by simp)
        rw [hb] at this
        exact absurd this (by simp)
    | none =>
      have hcons : registeredBindings
          (Registration.keybinding b :: (setKeybindings gui rest).1) =
            b :: registeredBindings (setKeybindings gui rest).1 := by
        simp [registeredBindings, List.filterMap_cons]
      refine ⟨?_, ?_, ?_⟩
      · simp only [hcons]
        obtain ⟨t, ht⟩ := ih1
        exact ⟨t, by rw [List.cons_append, ht]⟩
      · intro h
        simp only [hcons]
        rw [ih2 h]
      · intro h
        exact ih3 fun x hx => h x (by simp [hx])

theorem registeredBindings_setTabClickBindings (gui : KeybindingsConfig) (views : List String) :
    registeredBindings (setTabClickBindings gui views).1 = [] := by
  induction views with
  | nil => rfl
  | cons v rest ih =>
    unfold setTabClickBindings
    cases gui.SetTabClickBinding v with
    | some err => rfl
    | none =>
      simp only [registeredBindings, List.filterMap_cons] at ih ⊢
      exact ih

theorem registeredBindings_append (xs ys : List Registration) :
    registeredBindings (xs ++ ys) = registeredBindings xs ++ registeredBindings ys := by
  simp [registeredBindings, List.filterMap_append]

/-- C12. When the construction of the bindings does not abort, the bindings
that `keybindings` passes to `SetKeybinding`, in the order of the calls, are a
prefix of the custom-command bindings followed by the 209 bindings of the
literal of `GetInitialKeybindings`, in the order of the literal, followed by
the side-window cycling bindings (four per view, in the order of the views),
the numeric jump bindings and the list-context bindings; they are that whole
sequence unless a call of `SetKeybinding` fails. -/
theorem keybindings_registration_order (gui : KeybindingsConfig)
    (custom initial : List Binding)
    (hcustom : GetCustomCommandKeybindings gui.toBindingConfig = .ok custom)
    (hinitial : GetInitialKeybindings gui = .ok initial) :
    ∃ static cycling listBindings calls err,
      bindingsOfLiterals gui staticBindings = .ok static ∧
      static.length = 209 ∧
      static.map Binding.Handler = staticBindings.map BindingLiteral.Handler ∧
      appendSideWindowBindings gui
        ["status", "branches", "files", "commits", "commitFiles", "stash", "menu"] [] =
          .ok cycling ∧
      cycling.map Binding.ViewName =
        ["status", "branches", "files", "commits", "commitFiles", "stash", "menu"].flatMap
          (fun v => [v, v, v, v]) ∧
      gui.getListContextKeyBindings = .ok listBindings ∧
      initial = static ++ cycling ++ numericJumpBindings ++ listBindings ∧
      keybindings gui = .ok (calls, err) ∧
      registeredBindings calls <+:
        custom ++ static ++ cycling ++ numericJumpBindings ++ listBindings ∧
      ((∀ b ∈ custom ++ initial, gui.SetKeybinding b = none) →
        registeredBindings calls =
          custom ++ static ++ cycling ++ numericJumpBindings ++ listBindings) := by
  obtain ⟨static, cycling, listBindings, hs, hc, hl, hparts⟩ :=
    GetInitialKeybindings_parts gui initial hinitial
  obtain ⟨hlen, _, hhandlers⟩ := bindingsOfLiterals_fields gui staticBindings static hs
  have hall : custom ++ static ++ cycling ++ numericJumpBindings ++ listBindings =
      custom ++ initial := by
    rw [hparts]
    simp [List.append_assoc]
  obtain ⟨hpre, hfull, hnone⟩ := registeredBindings_setKeybindings gui (custom ++ initial)
  have hrun : keybindings gui =
      match setKeybindings gui (custom ++ initial) with
      | (calls, some err) => .ok (calls, some err)
      | (calls, none) =>
        .ok (calls ++ (setTabClickBindings gui gui.viewTabContextMap).1,
             (setTabClickBindings gui gui.viewTabContextMap).2) := by
    simp only [keybindings, hcustom, hinitial]
  have hstatic : static.length = 209 := by
    rw [hlen]
    rfl
  cases hset : setKeybindings gui (custom ++ initial) with
  | mk calls e =>
    rw [hset] at hrun hpre hfull hnone
    simp only at hpre hfull hnone
    cases e with
    | some err =>
      refine ⟨static, cycling, listBindings, calls, some err, hs, hstatic, hhandlers, hc,
        appendSideWindowBindings_views gui _ cycling hc, hl, hparts, hrun, ?_, ?_⟩
      · rw [hall]
        exact hpre
      · intro h
        exact absurd (hnone h) (by simp)
    | none =>
      refine ⟨static, cycling, listBindings, _, _, hs, hstatic, hhandlers, hc,
        appendSideWindowBindings_views gui _ cycling hc, hl, hparts, hrun, ?_, ?_⟩
      · rw [hall, registeredBindings_append, registeredBindings_setTabClickBindings,
          List.append_nil]
        exact hpre
      · intro _
        rw [hall, registeredBindings_append, registeredBindings_setTabClickBindings,
          List.append_nil]
        exact hfull rfl

set_option maxRecDepth 100000

/-- Witness of C12: in `demoKeybindingsConfig` the two custom-command
bindings and the 244 initial bindings are built, all 246 are registered, and
the first two bindings registered are the custom-command bindings. -/
theorem keybindings_registration_order_witness :
    ∃ custom initial,
      GetCustomCommandKeybindings demoKeybindingsConfig.toBindingConfig = .ok custom ∧
      GetInitialKeybindings demoKeybindingsConfig = .ok initial ∧
      custom.length = 2 ∧ initial.length = 244 ∧
      (keybindings demoKeybindingsConfig).toOption.map
        (fun r => ((registeredBindings r.1).length, (registeredBindings r.1).take 2, r.2)) =
          some (246, custom, none) ∧
      ∃ static cycling listBindings calls err,
        bindingsOfLiterals demoKeybindingsConfig staticBindings = .ok static ∧
        static.length = 209 ∧
        static.map Binding.Handler = staticBindings.map BindingLiteral.Handler ∧
        appendSideWindowBindings demoKeybindingsConfig
          ["status", "branches", "files", "commits", "commitFiles", "stash", "menu"] [] =
            .ok cycling ∧
        cycling.map Binding.ViewName =
          ["status", "branches", "files", "commits", "commitFiles", "stash", "menu"].flatMap
            (fun v => [v, v, v, v]) ∧
        demoKeybindingsConfig.getListContextKeyBindings = .ok listBindings ∧
        initial = static ++ cycling ++ numericJumpBindings ++ listBindings ∧
        keybindings demoKeybindingsConfig = .ok (calls, err) ∧
        registeredBindings calls <+:
          custom ++ static ++ cycling ++ numericJumpBindings ++ listBindings ∧
        ((∀ b ∈ custom ++ initial, demoKeybindingsConfig.SetKeybinding b = none) →
          registeredBindings calls =
            custom ++ static ++ cycling ++ numericJumpBindings ++ listBindings) := by
  have hc : ∃ custom,
      GetCustomCommandKeybindings demoKeybindingsConfig.toBindingConfig = .ok custom ∧
      custom.length = 2 ∧
      (keybindings demoKeybindingsConfig).toOption.map
        (fun r => ((registeredBindings r.1).length, (registeredBindings r.1).take 2, r.2)) =
          some (246, custom, none) := ⟨_, rfl, rfl, rfl⟩
  have hi : ∃ initial, GetInitialKeybindings demoKeybindingsConfig = .ok initial ∧
      initial.length = 244 := ⟨_, rfl, rfl⟩
  obtain ⟨custom, hcustom, hclen, hrun⟩ := hc
  obtain ⟨initial, hinitial, hilen⟩ := hi
  exact ⟨custom, initial, hcustom, hinitial, hclen, hilen, hrun,
    keybindings_registration_order demoKeybindingsConfig custom initial hcustom hinitial⟩

/-! ### Dispatch: the first match wins -/

theorem dispatch_eq_find? (keyCode : gocui.Key → Nat) (focusedView currentContext : String)
    (ev : InputEvent) (table : List Binding) :
    dispatch keyCode focusedView currentContext ev table =
      table.find? (Binding.matchesEvent keyCode focusedView currentContext ev) := by
  induction table with
  | nil => rfl
  | cons b rest ih =>
    unfold dispatch
    rw [List.find?_cons, ih]
    cases b.matchesEvent keyCode focusedView currentContext ev <;> rfl

theorem matchesEvent_iff (keyCode : gocui.Key → Nat) (focusedView currentContext : String)
    (ev : InputEvent) (b : Binding) :
    b.matchesEvent keyCode focusedView currentContext ev = true ↔
      (b.ViewName = "" ∨ b.ViewName = focusedView) ∧
      (b.Contexts = [] ∨ currentContext ∈ b.Contexts) ∧
      KeyId.sameKey keyCode b.Key ev.key = true ∧
      b.Modifier = ev.modifier := by
  simp [Binding.matchesEvent, List.isEmpty_iff, and_assoc]

/-- C13. For every binding table, focused view, current context and input
event, the dispatcher selects the first binding of the table, in registration
order, whose view is `""` or the focused view, whose contexts are empty or
contain the current context, and whose key and modifier equal those of the
event; it selects none exactly when no binding matches. A binding added
anywhere after a matching one, also at the end of the table, does not change
the binding selected. -/
theorem dispatch_first_match (keyCode : gocui.Key → Nat) (focusedView currentContext : String)
    (ev : InputEvent) (table : List Binding) :
    (∀ b : Binding, b.matchesEvent keyCode focusedView currentContext ev = true ↔
      (b.ViewName = "" ∨ b.ViewName = focusedView) ∧
      (b.Contexts = [] ∨ currentContext ∈ b.Contexts) ∧
      KeyId.sameKey keyCode b.Key ev.key = true ∧
      b.Modifier = ev.modifier) ∧
    (∀ b : Binding, dispatch keyCode focusedView currentContext ev table = some b ↔
      b.matchesEvent keyCode focusedView currentContext ev = true ∧
      ∃ front back, table = front ++ b :: back ∧
        ∀ x ∈ front, x.matchesEvent keyCode focusedView currentContext ev = false) ∧
    (dispatch keyCode focusedView currentContext ev table = none ↔
      ∀ x ∈ table, x.matchesEvent keyCode focusedView currentContext ev = false) ∧
    (∀ (front back1 back2 : List Binding) (m new : Binding),
      m.matchesEvent keyCode focusedView currentContext ev = true →
      dispatch keyCode focusedView currentContext ev (front ++ m :: (back1 ++ new :: back2)) =
        dispatch keyCode focusedView currentContext ev (front ++ m :: (back1 ++ back2))) ∧
    (∀ extra : List Binding,
      (∃ m ∈ table, m.matchesEvent keyCode focusedView currentContext ev = true) →
      dispatch keyCode focusedView currentContext ev (table ++ extra) =
        dispatch keyCode focusedView currentContext ev table) := by
  refine ⟨matchesEvent_iff keyCode focusedView currentContext ev, ?_, ?_, ?_, ?_⟩
  · intro b
    rw [dispatch_eq_find?, List.find?_eq_some]
    simp
  · rw [dispatch_eq_find?, List.find?_eq_none]
    simp
  · intro front back1 back2 m new hm
    simp only [dispatch_eq_find?, List.find?_append, List.find?_cons_of_pos _ hm]
  · intro extra hex
    obtain ⟨m, hmem, hm⟩ := hex
    rw [dispatch_eq_find?, dispatch_eq_find?, List.find?_append]
    have hsome : (table.find?
        (Binding.matchesEvent keyCode focusedView currentContext ev)).isSome = true := by
      rw [List.find?_isSome]
      exact ⟨m, hmem, hm⟩
    cases hf : table.find? (Binding.matchesEvent keyCode focusedView currentContext ev) with
    | none =>
      rw [hf] at hsome
      exact absurd hsome (by simp)
    | some b => rfl

/-- Witness of C13: with the focus on the context `files` of the view `files`
the key `q` selects the first binding of `tableQ`, with the focus on the view
`branches` the second one; the binding `laterQ`, added after them, changes
neither. -/
theorem dispatch_first_match_witness :
    dispatch termboxKeyCode "files" "files" ⟨.rune 'q', .ModNone⟩ tableQ = tableQ[0]? ∧
    dispatch termboxKeyCode "branches" "localBranches" ⟨.rune 'q', .ModNone⟩ tableQ =
      tableQ[1]? ∧
    dispatch termboxKeyCode "files" "files" ⟨.rune 'q', .ModNone⟩ (tableQ ++ [laterQ]) =
      dispatch termboxKeyCode "files" "files" ⟨.rune 'q', .ModNone⟩ tableQ ∧
    dispatch termboxKeyCode "branches" "localBranches" ⟨.rune 'q', .ModNone⟩
        (tableQ ++ [laterQ]) =
      dispatch termboxKeyCode "branches" "localBranches" ⟨.rune 'q', .ModNone⟩ tableQ :=
  ⟨by decide, by decide,
   (dispatch_first_match termboxKeyCode "files" "files" ⟨.rune 'q', .ModNone⟩ tableQ).2.2.2.2
      [laterQ] (by decide),
   (dispatch_first_match termboxKeyCode "branches" "localBranches" ⟨.rune 'q', .ModNone⟩
      tableQ).2.2.2.2 [laterQ] (by decide)⟩

/-! ### Pull: the operation lock -/

theorem handleCredentialsPopup_events (err : Option String) :
    ∀ e ∈ handleCredentialsPopup err, e.isFetchMutex = false ∧ e.isIntegration = false := by
  cases err <;> simp [handleCredentialsPopup, Event.isFetchMutex, Event.isIntegration]

theorem pullWithModeBody_no_lock (gui : PullCollaborators) (mode : String)
    (opts : PullFilesOptions) :
    ∀ e ∈ pullWithModeBody gui mode opts, e.isFetchMutex = false := by
  intro e he
  unfold pullWithModeBody at he
  simp only [List.mem_append, List.mem_singleton] at he
  rcases he with (he | he) | he
  · rw [he]
    rfl
  · exact (handleCredentialsPopup_events _ e he).1
  · cases hf : gui.Fetch opts.RemoteName opts.BranchName with
    | some msg =>
      rw [hf] at he
      simp only [List.mem_singleton] at he
      rw [he]
      rfl
    | none =>
      rw [hf] at he
      simp only at he
      split_ifs at he <;> simp only [List.mem_cons, List.mem_singleton, List.not_mem_nil,
        or_false] at he <;>
        first
        | (rw [he]; rfl)
        | (rcases he with he | he <;> rw [he] <;> rfl)

/-- C21. On every return path (the fetch fails; a rebase, a merge or a
fast-forward-only merge succeeds or fails; the pull mode is not recognised)
the first call of `pullWithMode` is the `Lock` of `FetchMutex`, the last one
is its `Unlock`, the fetch and every other call lie between them, and the
mutex is neither locked nor unlocked in between. -/
theorem pullWithMode_holds_lock (gui : PullCollaborators) (mode : String)
    (opts : PullFilesOptions) :
    pullWithMode gui mode opts =
      .lockFetchMutex :: (pullWithModeBody gui mode opts ++ [.unlockFetchMutex]) ∧
    (pullWithMode gui mode opts).head? = some .lockFetchMutex ∧
    (pullWithMode gui mode opts).getLast? = some .unlockFetchMutex ∧
    (∃ rest, pullWithModeBody gui mode opts =
      .fetch opts.RemoteName opts.BranchName :: rest) ∧
    (pullWithModeBody gui mode opts).filter Event.isFetchMutex = [] ∧
    (pullWithMode gui mode opts).filter Event.isFetchMutex =
      [.lockFetchMutex, .unlockFetchMutex] := by
  have hbody : (pullWithModeBody gui mode opts).filter Event.isFetchMutex = [] :=
    List.filter_eq_nil_iff.mpr fun e he => by
      simp [pullWithModeBody_no_lock gui mode opts e he]
  refine ⟨rfl, rfl, ?_, ⟨_, rfl⟩, hbody, ?_⟩
  · rw [pullWithMode]
    exact List.getLast?_concat _
  · simp [pullWithMode, List.filter_append, hbody, Event.isFetchMutex]

/-- Witness of C21: the calls of a pull with the mode `ff-only` whose fetch
and merge succeed, and those of a pull whose fetch fails. -/
theorem pullWithMode_holds_lock_witness :
    pullWithMode (pullRemote none none) "ff-only" { RemoteName := "origin", BranchName := "main" } =
      [.lockFetchMutex, .fetch "origin" "main", .merge "FETCH_HEAD" true,
       .handleGenericMergeCommandResult none, .unlockFetchMutex] ∧
    pullWithMode (pullRemote (some "no route to host") none) "rebase"
        { RemoteName := "origin", BranchName := "main" } =
      [.lockFetchMutex, .fetch "origin" "main", .createErrorPanel "no route to host",
       .refreshSidePanels, .unlockFetchMutex] ∧
    (pullWithMode (pullRemote (some "no route to host") none) "rebase"
        { RemoteName := "origin", BranchName := "main" }).getLast? = some .unlockFetchMutex :=
  ⟨(pullWithMode_holds_lock (pullRemote none none) "ff-only"
      { RemoteName := "origin", BranchName := "main" }).1,
   (pullWithMode_holds_lock (pullRemote (some "no route to host") none) "rebase"
      { RemoteName := "origin", BranchName := "main" }).1,
   (pullWithMode_holds_lock (pullRemote (some "no route to host") none) "rebase"
      { RemoteName := "origin", BranchName := "main" }).2.2.1⟩

/-! ### Pull: integration after the fetch -/

/-- C29. In `pullWithMode` a rebase or a merge onto `FETCH_HEAD` is made
exactly when the fetch returned no error and the mode is `rebase` (a rebase),
`merge` (a plain merge) or `ff-only` (a merge with `FastForwardOnly`), and
then it is the only one. When the fetch fails nothing is rebased or merged,
whatever the mode, and the side panels are refreshed; when the fetch succeeds
with another mode nothing is rebased or merged and the error panel names the
mode. -/
theorem pullWithMode_integration (gui : PullCollaborators) (mode : String)
    (opts : PullFilesOptions) :
    ((pullWithMode gui mode opts).filter Event.isIntegration =
      match gui.Fetch opts.RemoteName opts.BranchName with
      | some _ => []
      | none =>
        if mode = "rebase" then [.rebaseBranch "FETCH_HEAD"]
        else if mode = "merge" then [.merge "FETCH_HEAD" false]
        else if mode = "ff-only" then [.merge "FETCH_HEAD" true]
        else []) ∧
    ((∃ e ∈ pullWithMode gui mode opts, e.isIntegration = true) ↔
      gui.Fetch opts.RemoteName opts.BranchName = none ∧
        (mode = "rebase" ∨ mode = "merge" ∨ mode = "ff-only")) ∧
    (∀ msg, gui.Fetch opts.RemoteName opts.BranchName = some msg →
      pullWithMode gui mode opts =
        [.lockFetchMutex, .fetch opts.RemoteName opts.BranchName] ++
          handleCredentialsPopup (some msg) ++ [.refreshSidePanels, .unlockFetchMutex]) ∧
    (gui.Fetch opts.RemoteName opts.BranchName = none →
      mode ≠ "rebase" → mode ≠ "merge" → mode ≠ "ff-only" →
      pullWithMode gui mode opts =
        [.lockFetchMutex, .fetch opts.RemoteName opts.BranchName,
         .createErrorPanel ("git pull mode \x27" ++ mode ++ "\x27 unrecognised"),
         .unlockFetchMutex]) := by
  have hfilter : (pullWithMode gui mode opts).filter Event.isIntegration =
      match gui.Fetch opts.RemoteName opts.BranchName with
      | some _ => []
      | none =>
        if mode = "rebase" then [.rebaseBranch "FETCH_HEAD"]
        else if mode = "merge" then [.merge "FETCH_HEAD" false]
        else if mode = "ff-only" then [.merge "FETCH_HEAD" true]
        else [] := by
    cases hf : gui.Fetch opts.RemoteName opts.BranchName with
    | some msg =>
      simp [pullWithMode, pullWithModeBody, hf, handleCredentialsPopup, Event.isIntegration]
    | none =>
      simp only [pullWithMode, pullWithModeBody, hf, handleCredentialsPopup]
      split_ifs <;> simp [Event.isIntegration]
  refine ⟨hfilter, ?_, ?_, ?_⟩
  · have hiff : (∃ e ∈ pullWithMode gui mode opts, e.isIntegration = true) ↔
        (pullWithMode gui mode opts).filter Event.isIntegration ≠ [] := by
      rw [ne_eq, List.filter_eq_nil_iff]
      simp
    rw [hiff, hfilter]
    cases hf : gui.Fetch opts.RemoteName opts.BranchName with
    | some msg => simp
    | none =>
      simp only [true_and]
      by_cases h1 : mode = "rebase"
      · simp [h1]
      · by_cases h2 : mode = "merge"
        · simp [h1, h2]
        · by_cases h3 : mode = "ff-only"
          · simp [h1, h2, h3]
          · simp [h1, h2, h3]
  · intro msg hf
    simp [pullWithMode, pullWithModeBody, hf]
  · intro hf h1 h2 h3
    simp [pullWithMode, pullWithModeBody, hf, h1, h2, h3, handleCredentialsPopup]

/-- Witness of C29: with the mode `squash`, which is not a pull mode, a pull
whose fetch succeeds integrates nothing and raises the error panel; with the
mode `rebase` a pull whose fetch fails integrates nothing. -/
theorem pullWithMode_integration_witness :
    pullWithMode (pullRemote none none) "squash" { RemoteName := "", BranchName := "" } =
      [.lockFetchMutex, .fetch "" "",
       .createErrorPanel "git pull mode \x27squash\x27 unrecognised", .unlockFetchMutex] ∧
    (pullWithMode (pullRemote (some "timeout") none) "rebase"
        { RemoteName := "", BranchName := "" }).filter Event.isIntegration = [] ∧
    (pullWithMode (pullRemote none (some "conflict")) "rebase"
        { RemoteName := "", BranchName := "" }).filter Event.isIntegration =
      [.rebaseBranch "FETCH_HEAD"] :=
  ⟨(pullWithMode_integration (pullRemote none none) "squash"
      { RemoteName := "", BranchName := "" }).2.2.2 rfl (by decide) (by decide) (by decide),
   (pullWithMode_integration (pullRemote (some "timeout") none) "rebase"
      { RemoteName := "", BranchName := "" }).1,
   (pullWithMode_integration (pullRemote none (some "conflict")) "rebase"
      { RemoteName := "", BranchName := "" }).1⟩

/-! ### Fetch, pull and push: what `FetchMutex` excludes -/

theorem pushWithForceFlag_no_fetchMutex (gui : PushCollaborators) (v : String) (force : Bool)
    (upstream args : String) (answers : List Answer) (seg : Run)
    (hseg : (pushWithForceFlag gui v force upstream args).after answers = some seg) :
    ∀ e ∈ seg.events, e.isFetchMutex = false := by
  have hdone : ∃ events, pushWithForceFlag gui v true upstream args = .done events ∧
      ∀ e ∈ events, e.isFetchMutex = false := by
    rw [pushWithForceFlag_forced]
    cases gui.createLoaderPanel v (gui.Tr "PushWait") with
    | some err => exact ⟨_, rfl, by simp [Event.isFetchMutex]⟩
    | none =>
      cases gui.getCheckedOutBranch with
      | none => exact ⟨_, rfl, by simp [Event.isFetchMutex]⟩
      | some b =>
        refine ⟨_, rfl, ?_⟩
        cases gui.Push b.Name true upstream args <;>
          simp [handleCredentialsPopup, Event.isFetchMutex]
  have hforced : ∀ (answers : List Answer) (seg : Run),
      (pushWithForceFlag gui v true upstream args).after answers = some seg →
      ∀ e ∈ seg.events, e.isFetchMutex = false := fun answers seg h =>
    Run.after_events_of_done _ (fun e => e.isFetchMutex = false) hdone answers seg h
  cases force with
  | true => exact hforced answers seg hseg
  | false =>
    rw [pushWithForceFlag] at hseg
    cases hl : gui.createLoaderPanel v (gui.Tr "PushWait") with
    | some err =>
      rw [hl] at hseg
      obtain ⟨hs, _⟩ := Run.after_done _ answers seg hseg
      subst hs
      simp [Run.events, Event.isFetchMutex]
    | none =>
      rw [hl] at hseg
      cases hb : gui.getCheckedOutBranch with
      | none =>
        rw [hb] at hseg
        obtain ⟨hs, _⟩ := Run.after_done _ answers seg hseg
        subst hs
        simp [Run.events, Event.isFetchMutex]
      | some b =>
        rw [hb] at hseg
        simp only at hseg
        split_ifs at hseg with h1 h2
        · obtain ⟨hs, _⟩ := Run.after_done _ answers seg hseg
          subst hs
          simp [Run.events, Event.isFetchMutex]
        · cases answers with
          | nil =>
            simp only [Run.after, Option.some.injEq] at hseg
            subst hseg
            simp [Run.events, Event.isFetchMutex]
          | cons a rest =>
            cases a with
            | yes =>
              simp only [Run.after, Run.answer] at hseg
              exact hforced rest seg hseg
            | confirm str => simp [Run.after, Run.answer] at hseg
            | press i => simp [Run.after, Run.answer] at hseg
        · obtain ⟨hs, _⟩ := Run.after_done _ answers seg hseg
          subst hs
          cases gui.Push b.Name false upstream args <;>
            simp [Run.events, handleCredentialsPopup, Event.isFetchMutex]

theorem callsOf_cons (t u : Nat) (e : Event) (rest : List (Nat × Event)) :
    callsOf t ((u, e) :: rest) = if u = t then e :: callsOf t rest else callsOf t rest := by
  unfold callsOf
  by_cases h : u = t <;> simp [List.filter_cons, h]

theorem fetchMutexOwner_balance (t : Nat) (schedule : List (Nat × Event)) :
    ∀ owner0 owner, fetchMutexOwner owner0 schedule = some owner →
      (callsOf t schedule).count .lockFetchMutex + (if owner0 = some t then 1 else 0) =
        (callsOf t schedule).count .unlockFetchMutex + (if owner = some t then 1 else 0) := by
  induction schedule with
  | nil =>
    intro owner0 owner h
    simp only [fetchMutexOwner, Option.some.injEq] at h
    subst h
    simp [callsOf]
  | cons call rest ih =>
    obtain ⟨u, e⟩ := call
    intro owner0 owner h
    unfold fetchMutexOwner at h
    rw [callsOf_cons]
    by_cases hlock : e = .lockFetchMutex
    · rw [if_pos hlock] at h
      by_cases hfree : owner0 = none
      · rw [if_pos hfree] at h
        have := ih (some u) owner h
        subst hlock
        subst hfree
        by_cases hut : u = t
        · subst hut
          simp only [if_true, List.count_cons_self, reduceCtorEq, if_false] at this ⊢
          rw [List.count_cons_of_ne (by decide)]
          omega
        · have hne : ¬ (some u = some t) := by simpa using hut
          simp only [hut, hne, if_false, reduceCtorEq] at this ⊢
          omega
      · rw [if_neg hfree] at h
        exact absurd h (by simp)
    · rw [if_neg hlock] at h
      by_cases hunlock : e = .unlockFetchMutex
      · rw [if_pos hunlock] at h
        by_cases hown : owner0 = some u
        · rw [if_pos hown] at h
          have := ih none owner h
          subst hunlock
          subst hown
          by_cases hut : u = t
          · subst hut
            simp only [if_true, List.count_cons_self, reduceCtorEq, if_false] at this ⊢
            rw [List.count_cons_of_ne (by decide)]
            omega
          · have hne : ¬ (some u = some t) := by simpa using hut
            simp only [hut, hne, if_false, reduceCtorEq] at this ⊢
            omega
        · rw [if_neg hown] at h
          exact absurd h (by simp)
      · rw [if_neg hunlock] at h
        have := ih owner0 owner h
        by_cases hut : u = t
        · simp only [hut, if_true]
          rw [List.count_cons_of_ne (Ne.symm hlock), List.count_cons_of_ne (Ne.symm hunlock)]
          exact this
        · simp only [hut, if_false]
          exact this

theorem fetchMutexOwner_holder (schedule : List (Nat × Event)) (owner : Option Nat) (t : Nat)
    (p : List Event) (hrun : fetchMutexOwner none schedule = some owner)
    (hcalls : callsOf t schedule = .lockFetchMutex :: p)
    (hfree : p.filter Event.isFetchMutex = []) : owner = some t := by
  have hbal := fetchMutexOwner_balance t schedule none owner hrun
  rw [hcalls] at hbal
  have hnone : ∀ e ∈ p, e.isFetchMutex = false := by
    intro e he
    have := List.filter_eq_nil_iff.mp hfree e he
    simpa using this
  have h1 : p.count .lockFetchMutex = 0 :=
    List.count_eq_zero.mpr fun hmem => by simpa [Event.isFetchMutex] using hnone _ hmem
  have h2 : p.count .unlockFetchMutex = 0 :=
    List.count_eq_zero.mpr fun hmem => by simpa [Event.isFetchMutex] using hnone _ hmem
  rw [List.count_cons_self, List.count_cons_of_ne (by decide), h1, h2] at hbal
  by_contra hne
  simp [hne] at hbal

/-- C22, as stated, fails: `pushWithForceFlag` makes no call on `FetchMutex`.
In the schedule `pushDuringPull`, whose calls are those of a pull with the
mode `merge` (goroutine 0) and of a push (goroutine 1), the locking rule of
the mutex is kept, and the push is made when the pull holds `FetchMutex`,
before the fetch of the pull. -/
theorem push_inside_pull_lock :
    callsOf 0 pushDuringPull =
      pullWithMode (pullRemote none none) "merge" { RemoteName := "origin", BranchName := "main" } ∧
    callsOf 1 pushDuringPull =
      (pushWithForceFlag acceptingRemote "files" false "" "").events ∧
    (pushWithForceFlag acceptingRemote "files" false "" "").events.filter
      Event.isFetchMutex = [] ∧
    fetchMutexOwner none pushDuringPull = some none ∧
    fetchMutexOwner none (pushDuringPull.take 2) = some (some 0) ∧
    pushDuringPull[2]? = some (1, .push "main" false "" "") ∧
    pushDuringPull[3]? = some (0, .fetch "origin" "main") := by
  have hpush : pushWithForceFlag acceptingRemote "files" false "" "" =
      .done [.createLoaderPanel "files" "PushWait", .push "main" false "" "",
             .refreshSidePanels] := by
    rw [pushWithForceFlag]
    simp [acceptingRemote, errorContains, handleCredentialsPopup]
  rw [hpush]
  exact ⟨by decide, by decide, by decide, by decide, by decide, by decide, by decide⟩

/-- C22, amended. `pushWithForceFlag` neither locks nor unlocks `FetchMutex`,
whatever the user answers. `pullWithMode` locks it first and unlocks it last.
In every execution a goroutine that has locked `FetchMutex` and not yet
unlocked it is the owner of the mutex; so no two goroutines are between the
`Lock` and the `Unlock` of a pull at the same time. -/
theorem fetchMutex_exclusion :
    (∀ (gui : PushCollaborators) (v : String) (force : Bool) (upstream args : String)
      (answers : List Answer) (seg : Run),
      (pushWithForceFlag gui v force upstream args).after answers = some seg →
      seg.events.filter Event.isFetchMutex = []) ∧
    (∀ (gui : PullCollaborators) (mode : String) (opts : PullFilesOptions),
      pullWithMode gui mode opts =
        .lockFetchMutex :: (pullWithModeBody gui mode opts ++ [.unlockFetchMutex]) ∧
      (pullWithModeBody gui mode opts).filter Event.isFetchMutex = []) ∧
    (∀ (schedule : List (Nat × Event)) (owner : Option Nat) (t : Nat)
      (gui : PullCollaborators) (mode : String) (opts : PullFilesOptions) (p : List Event),
      fetchMutexOwner none schedule = some owner →
      callsOf t schedule = .lockFetchMutex :: p → p <+: pullWithModeBody gui mode opts →
      owner = some t) ∧
    (∀ (schedule : List (Nat × Event)) (owner : Option Nat) (t u : Nat)
      (gui1 gui2 : PullCollaborators) (mode1 mode2 : String) (opts1 opts2 : PullFilesOptions)
      (p q : List Event),
      fetchMutexOwner none schedule = some owner →
      callsOf t schedule = .lockFetchMutex :: p → p <+: pullWithModeBody gui1 mode1 opts1 →
      callsOf u schedule = .lockFetchMutex :: q → q <+: pullWithModeBody gui2 mode2 opts2 →
      t = u) := by
  have hbody : ∀ (gui : PullCollaborators) (mode : String) (opts : PullFilesOptions)
      (p : List Event), p <+: pullWithModeBody gui mode opts →
      p.filter Event.isFetchMutex = [] := by
    intro gui mode opts p hp
    rw [List.filter_eq_nil_iff]
    intro e he
    simp [pullWithModeBody_no_lock gui mode opts e (hp.subset he)]
  refine ⟨?_, ?_, ?_, ?_⟩
  · intro gui v force upstream args answers seg hseg
    rw [List.filter_eq_nil_iff]
    intro e he
    simp [pushWithForceFlag_no_fetchMutex gui v force upstream args answers seg hseg e he]
  · intro gui mode opts
    exact ⟨rfl, hbody gui mode opts _ (List.prefix_refl _)⟩
  · intro schedule owner t gui mode opts p hrun hcalls hp
    exact fetchMutexOwner_holder schedule owner t p hrun hcalls (hbody gui mode opts p hp)
  · intro schedule owner t u gui1 gui2 mode1 mode2 opts1 opts2 p q hrun ht hp hu hq
    have h1 := fetchMutexOwner_holder schedule owner t p hrun ht (hbody gui1 mode1 opts1 p hp)
    have h2 := fetchMutexOwner_holder schedule owner u q hrun hu (hbody gui2 mode2 opts2 q hq)
    rw [h1] at h2
    exact Option.some.inj h2

/-- Witness of C22, amended: in the schedule `twoPulls` the second pull locks
`FetchMutex` after the first one has unlocked it, and is then the owner. -/
theorem fetchMutex_exclusion_witness :
    fetchMutexOwner none twoPulls = some (some 1) ∧
    callsOf 1 twoPulls = [.lockFetchMutex, .fetch "origin" "main"] ∧
    fetchMutexOwner none (twoPulls.take 2) = some (some 0) :=
  ⟨fetchMutex_exclusion.2.2.1 twoPulls (some 1) 1 (pullRemote none none) "rebase"
      { RemoteName := "origin", BranchName := "main" } [.fetch "origin" "main"]
      (by decide) (by decide) (by decide) ▸ (by decide),
   by decide, by decide⟩

/-! ### Files panel: the guard of `refreshFiles` -/

theorem refreshFilesBody_no_guard (gui : RefreshCollaborators) (s : RefreshState) :
    ∀ e ∈ (refreshFilesBody gui s).1, e.isRefreshGuard = false := by
  intro e he
  unfold refreshFilesBody at he
  cases hsel : getSelectedFile s.panel with
  | error msg =>
    rw [hsel] at he
    simp only [List.mem_singleton] at he
    rw [he]
    rfl
  | ok selectedFile =>
    rw [hsel] at he
    simp only at he
    by_cases hview : gui.filesViewCreated = false
    · rw [if_pos hview] at he
      simp at he
    · rw [if_neg hview] at he
      cases hsub : refreshStateSubmoduleConfigs gui s with
      | mk s2 err =>
        rw [hsub] at he
        cases err with
        | some msg =>
          simp only [List.mem_singleton] at he
          rw [he]
          rfl
        | none =>
          simp only at he
          cases hfiles : refreshStateFiles gui.toFilesCollaborators s2.panel with
          | error msg =>
            rw [hfiles] at he
            simp only [List.mem_cons, List.mem_singleton, List.not_mem_nil, or_false] at he
            rcases he with he | he | he <;> rw [he] <;> rfl
          | ok pair =>
            obtain ⟨panel, err⟩ := pair
            rw [hfiles] at he
            cases err with
            | some msg =>
              simp only [List.mem_cons, List.mem_singleton, List.not_mem_nil, or_false] at he
              rcases he with he | he <;> rw [he] <;> rfl
            | none =>
              simp only [List.mem_cons, List.mem_singleton, List.not_mem_nil, or_false] at he
              rcases he with he | he | he <;> rw [he] <;> rfl

theorem isRefreshingAfter_no_guard (flag : Bool) (events : List Event)
    (h : ∀ e ∈ events, e.isRefreshGuard = false) : isRefreshingAfter flag events = flag := by
  induction events with
  | nil => rfl
  | cons e rest ih =>
    have he := h e (by simp)
    have hrest := ih fun x hx => h x (by simp [hx])
    cases e <;> first
      | (simp [Event.isRefreshGuard] at he; done)
      | (simpa [isRefreshingAfter] using hrest)

theorem isRefreshingAfter_append (flag : Bool) (xs ys : List Event) :
    isRefreshingAfter flag (xs ++ ys) = isRefreshingAfter (isRefreshingAfter flag xs) ys := by
  induction xs generalizing flag with
  | nil => rfl
  | cons e rest ih =>
    cases e <;> simp [isRefreshingAfter, ih]

/-- C28. Whatever the way `refreshFiles` ends (the files view does not exist
yet, `refreshStateSubmoduleConfigs` or `refreshStateFiles` returns an error,
success, or a panic of the body), `IsRefreshingFiles` is false in the state it
leaves, its first calls are the `Lock` of `RefreshingFilesMutex` and the
assignment of true, its last calls the assignment of false and the `Unlock`,
and the calls in between touch neither the flag nor the mutex: the flag is
true after every call from the assignment of true up to the last call of the
body, and false after the whole list of calls. -/
theorem refreshFiles_resets_flag (gui : RefreshCollaborators) (s : RefreshState) :
    (refreshFiles gui s).state.IsRefreshingFiles = false ∧
    (∃ body, (refreshFiles gui s).events =
        [.lockRefreshingFilesMutex, .setIsRefreshingFiles true] ++ body ++
          [.setIsRefreshingFiles false, .unlockRefreshingFilesMutex] ∧
      body.filter Event.isRefreshGuard = [] ∧
      (∀ p, p <+: body →
        isRefreshingAfter s.IsRefreshingFiles
          ([.lockRefreshingFilesMutex, .setIsRefreshingFiles true] ++ p) = true)) ∧
    (refreshFiles gui s).events.head? = some .lockRefreshingFilesMutex ∧
    (refreshFiles gui s).events.getLast? = some .unlockRefreshingFilesMutex ∧
    (refreshFiles gui s).events.filter Event.isRefreshGuard =
      [.lockRefreshingFilesMutex, .setIsRefreshingFiles true, .setIsRefreshingFiles false,
       .unlockRefreshingFilesMutex] ∧
    isRefreshingAfter s.IsRefreshingFiles (refreshFiles gui s).events = false := by
  have hno := refreshFilesBody_no_guard gui { s with IsRefreshingFiles := true }
  have hfilter : (refreshFilesBody gui { s with IsRefreshingFiles := true }).1.filter
      Event.isRefreshGuard = [] :=
    List.filter_eq_nil_iff.mpr fun e he => by simp [hno e he]
  refine ⟨rfl, ⟨_, rfl, hfilter, ?_⟩, rfl, ?_, ?_, ?_⟩
  · intro p hp
    rw [isRefreshingAfter_append]
    exact isRefreshingAfter_no_guard _ p fun e he => hno e (hp.subset he)
  · simp only [refreshFiles]
    rw [show ([Event.lockRefreshingFilesMutex, Event.setIsRefreshingFiles true] ++
          (refreshFilesBody gui { s with IsRefreshingFiles := true }).1 ++
          [Event.setIsRefreshingFiles false, Event.unlockRefreshingFilesMutex]) =
        ([Event.lockRefreshingFilesMutex, Event.setIsRefreshingFiles true] ++
          (refreshFilesBody gui { s with IsRefreshingFiles := true }).1 ++
          [Event.setIsRefreshingFiles false]) ++ [Event.unlockRefreshingFilesMutex] by simp]
    exact List.getLast?_concat _
  · simp [refreshFiles, List.filter_append, hfilter, Event.isRefreshGuard]
  · simp only [refreshFiles]
    rw [isRefreshingAfter_append, isRefreshingAfter_append]
    rfl

/-- Witness of C28: the calls of a refresh of the panel `[A, B, C]` that
succeeds, and those of a refresh before the files view exists. -/
theorem refreshFiles_resets_flag_witness :
    (refreshFiles (refreshXAB none true) refreshingABC).events =
      [.lockRefreshingFilesMutex, .setIsRefreshingFiles true, .refreshStateSubmoduleConfigs,
       .refreshStateFiles, .updateFilesRender, .setIsRefreshingFiles false,
       .unlockRefreshingFilesMutex] ∧
    (refreshFiles (refreshXAB none false) refreshingABC).events =
      [.lockRefreshingFilesMutex, .setIsRefreshingFiles true, .setIsRefreshingFiles false,
       .unlockRefreshingFilesMutex] ∧
    (refreshFiles (refreshXAB (some "getwd failed") true) refreshingABC).state.IsRefreshingFiles =
      false ∧
    isRefreshingAfter true (refreshFiles (refreshXAB none true) refreshingABC).events = false :=
  ⟨by decide, by decide,
   (refreshFiles_resets_flag (refreshXAB (some "getwd failed") true) refreshingABC).1,
   (refreshFiles_resets_flag (refreshXAB none true) refreshingABC).2.2.2.2.2⟩

/-! ### Files panel: a refresh during a refresh -/

/-- C23, as stated, fails: a call of `refreshFiles` on the panel `[A, B, C]`
made while `IsRefreshingFiles` is true is not dropped. Its first call is the
`Lock` of `RefreshingFilesMutex`, which waits for the refresh in flight; it
then fetches the file list and installs `[X, A, B']`. -/
theorem refreshFiles_not_dropped :
    refreshingABC.IsRefreshingFiles = true ∧
    (refreshFiles (refreshXAB none true) refreshingABC).events =
      [.lockRefreshingFilesMutex, .setIsRefreshingFiles true, .refreshStateSubmoduleConfigs,
       .refreshStateFiles, .updateFilesRender, .setIsRefreshingFiles false,
       .unlockRefreshingFilesMutex] ∧
    (refreshFiles (refreshXAB none true) refreshingABC).state.panel =
      { Files := [fileNamed "x" false, fileNamed "a" false, fileNamed "b" true],
        SelectedLineIdx := 2 } ∧
    (refreshFiles (refreshXAB none true) refreshingABC).state.panel ≠ refreshingABC.panel := by
  refine ⟨rfl, by decide, by decide, by decide⟩

/-- C23, amended. `refreshFiles` does not read `IsRefreshingFiles`: what it
does and leaves is the same whether the flag is set or not when it is called.
Its first call is the `Lock` of `RefreshingFilesMutex`, which waits while a
refresh is in flight. When the selection is valid, the files view exists and
the submodule configurations load, it calls `refreshStateFiles`, which
fetches the file list, and returns what that returns. -/
theorem refreshFiles_ignores_flag (gui : RefreshCollaborators) (s : RefreshState) :
    (∀ flag : Bool,
      (refreshFiles gui { s with IsRefreshingFiles := flag }).events = (refreshFiles gui s).events ∧
      (refreshFiles gui { s with IsRefreshingFiles := flag }).state = (refreshFiles gui s).state ∧
      (refreshFiles gui { s with IsRefreshingFiles := flag }).result =
        (refreshFiles gui s).result) ∧
    (∃ rest, (refreshFiles gui s).events = .lockRefreshingFilesMutex :: rest) ∧
    (∀ selectedFile configs, getSelectedFile s.panel = .ok selectedFile →
      gui.filesViewCreated = true → gui.GetSubmoduleConfigs = .ok configs →
      Event.refreshStateFiles ∈ (refreshFiles gui s).events ∧
      ∃ panel err, refreshStateFiles gui.toFilesCollaborators s.panel = .ok (panel, err) ∧
        (refreshFiles gui s).state.panel = panel ∧
        (refreshFiles gui s).result = .ok err) := by
  refine ⟨fun flag => ⟨rfl, rfl, rfl⟩, ⟨_, rfl⟩, ?_⟩
  intro selectedFile configs hsel hview hsub
  have hsub2 : refreshStateSubmoduleConfigs gui { s with IsRefreshingFiles := true } =
      ({ s with IsRefreshingFiles := true, SubmoduleConfigs := configs }, none) := by
    simp [refreshStateSubmoduleConfigs, hsub]
  cases hfiles : refreshStateFiles gui.toFilesCollaborators s.panel with
  | error msg =>
    unfold refreshStateFiles at hfiles
    rw [hsel] at hfiles
    simp only at hfiles
    split at hfiles <;> simp at hfiles
  | ok pair =>
    obtain ⟨panel, err⟩ := pair
    cases err with
    | some msg =>
      refine ⟨?_, panel, some msg, rfl, ?_, ?_⟩ <;>
        simp [refreshFiles, refreshFilesBody, hsel, hview, hsub2, hfiles]
    | none =>
      refine ⟨?_, panel, none, rfl, ?_, ?_⟩ <;>
        simp [refreshFiles, refreshFilesBody, hsel, hview, hsub2, hfiles]

/-- Witness of C23, amended: on the panel `[A, B, C]` the refresh made while
the flag is set is the refresh made while it is not set. -/
theorem refreshFiles_ignores_flag_witness :
    (refreshFiles (refreshXAB none true) { refreshingABC with IsRefreshingFiles := false }).events =
      (refreshFiles (refreshXAB none true) refreshingABC).events ∧
    Event.refreshStateFiles ∈ (refreshFiles (refreshXAB none true) refreshingABC).events :=
  ⟨((refreshFiles_ignores_flag (refreshXAB none true) refreshingABC).1 false).1,
   ((refreshFiles_ignores_flag (refreshXAB none true) refreshingABC).2.2
      (some (fileNamed "b" false)) [] rfl rfl rfl).1⟩

/-! ### Files panel: `getSelectedFile` under the invariant -/

/-- C27. `getSelectedFile` returns nil when the selected index is -1; when the
index is `i` with `0 <= i < len(State.Files)` the access is in range and it
returns `State.Files[i]`; it returns nil only when the index is -1; and under
the invariant of the panel it never faults. -/
theorem getSelectedFile_total :
    (∀ s : FilesPanelState, s.SelectedLineIdx = -1 → getSelectedFile s = .ok none) ∧
    (∀ (s : FilesPanelState) (i : Nat) (h : i < s.Files.length),
      s.SelectedLineIdx = (i : Int) → getSelectedFile s = .ok (some s.Files[i])) ∧
    (∀ s : FilesPanelState, getSelectedFile s = .ok none → s.SelectedLineIdx = -1) ∧
    (∀ s : FilesPanelState, panelInvariant s →
      ∃ selectedFile, getSelectedFile s = .ok selectedFile ∧
        (selectedFile = none ↔ s.SelectedLineIdx = -1)) := by
  have hnil : ∀ s : FilesPanelState, getSelectedFile s = .ok none → s.SelectedLineIdx = -1 := by
    intro s h
    unfold getSelectedFile at h
    by_contra hne
    simp only [hne, if_false] at h
    split_ifs at h
    split at h <;> simp at h
  refine ⟨?_, ?_, hnil, ?_⟩
  · intro s h
    simp [getSelectedFile, h]
  · intro s i hi h
    have h1 : ¬ ((i : Int) = -1) := by omega
    have h2 : ¬ ((i : Int) < 0) := by omega
    simp [getSelectedFile, h, h1, h2, List.getElem?_eq_getElem hi]
  · intro s hinv
    obtain ⟨selectedFile, hsel⟩ := getSelectedFile_of_invariant s hinv
    refine ⟨selectedFile, hsel, ?_⟩
    constructor
    · intro hnone
      rw [hnone] at hsel
      exact hnil s hsel
    · intro hidx
      have : getSelectedFile s = .ok none := by simp [getSelectedFile, hidx]
      rw [this] at hsel
      injection hsel with hsel
      exact hsel.symm

/-! ### The binding table: the numeric jump bindings -/

theorem staticBindings_handlers :
    ∀ l ∈ staticBindings, l.Handler.isGoToSideWindow = false := by decide

theorem bindingsOfLiterals_no_jump (gui : KeybindingsConfig) (static : List Binding)
    (h : bindingsOfLiterals gui staticBindings = .ok static) :
    ∀ b ∈ static, b.Handler.isGoToSideWindow = false := by
  intro b hb
  have hmap := (bindingsOfLiterals_fields gui staticBindings static h).2.2
  have hmem : b.Handler ∈ static.map Binding.Handler := List.mem_map.mpr ⟨b, hb, rfl⟩
  rw [hmap] at hmem
  obtain ⟨l, hl, hlb⟩ := List.mem_map.mp hmem
  rw [← hlb]
  exact staticBindings_handlers l hl

theorem appendSideWindowBindings_no_jump (gui : KeybindingsConfig) (views : List String) :
    ∀ new, appendSideWindowBindings gui views [] = .ok new →
      ∀ b ∈ new, b.Handler.isGoToSideWindow = false := by
  induction views with
  | nil =>
    intro new h
    simp only [appendSideWindowBindings, Except.ok.injEq] at h
    subst h
    simp
  | cons v rest ih =>
    intro new h
    unfold appendSideWindowBindings at h
    cases hv : sideWindowBindings gui v with
    | error e => rw [hv] at h; exact absurd h (by simp)
    | ok four =>
      rw [hv] at h
      simp only at h
      rw [appendSideWindowBindings_acc] at h
      cases hr : appendSideWindowBindings gui rest [] with
      | error e => rw [hr] at h; exact absurd h (by simp)
      | ok tail =>
        rw [hr] at h
        simp only [Except.ok.injEq] at h
        subst h
        intro b hb
        simp only [List.nil_append, List.mem_append] at hb
        rcases hb with hb | hb
        · have hmem : b.Handler ∈ four.map Binding.Handler := List.mem_map.mpr ⟨b, hb, rfl⟩
          rw [(sideWindowBindings_fields gui v four hv).2] at hmem
          simp only [List.mem_cons, List.mem_singleton, List.not_mem_nil, or_false] at hmem
          rcases hmem with h1 | h1 | h1 | h1 <;> rw [h1] <;> rfl
        · exact ih tail hr b hb

/-- C24. The second loop of `GetInitialKeybindings` generates five bindings,
in this order: `1` for status, `2` for files, `3` for branches, `4` for
commits, `5` for stash. Each has the view name `""`, no contexts, the modifier
`ModNone`, the handler `goToSideWindow` of its window, and as key the rune of
the digit `i+1` for the position `i`. They follow the 209 bindings of the
literal and the 28 cycling bindings, none of which is a jump binding. -/
theorem numeric_jump_bindings :
    numericJumpBindings =
      [ { ViewName := "", Contexts := [], Key := .rune '1', Modifier := .ModNone,
          Handler := .goToSideWindow "status", Description := "", Alternative := "" },
        { ViewName := "", Contexts := [], Key := .rune '2', Modifier := .ModNone,
          Handler := .goToSideWindow "files", Description := "", Alternative := "" },
        { ViewName := "", Contexts := [], Key := .rune '3', Modifier := .ModNone,
          Handler := .goToSideWindow "branches", Description := "", Alternative := "" },
        { ViewName := "", Contexts := [], Key := .rune '4', Modifier := .ModNone,
          Handler := .goToSideWindow "commits", Description := "", Alternative := "" },
        { ViewName := "", Contexts := [], Key := .rune '5', Modifier := .ModNone,
          Handler := .goToSideWindow "stash", Description := "", Alternative := "" } ] ∧
    (∀ (i : Nat) (window : String),
      ["status", "files", "branches", "commits", "stash"][i]? = some window →
      numericJumpBindings[i]? =
        some { ViewName := "", Contexts := [], Key := .rune (Char.ofNat (i + 1 + '0'.toNat)),
               Modifier := .ModNone, Handler := .goToSideWindow window, Description := "",
               Alternative := "" }) ∧
    (∀ (gui : KeybindingsConfig) (initial : List Binding),
      GetInitialKeybindings gui = .ok initial →
      ∃ static cycling listBindings,
        static.length = 209 ∧ cycling.length = 28 ∧
        gui.getListContextKeyBindings = .ok listBindings ∧
        initial = static ++ cycling ++ numericJumpBindings ++ listBindings ∧
        (∀ b ∈ static ++ cycling, b.Handler.isGoToSideWindow = false) ∧
        (initial.drop 237).take 5 = numericJumpBindings) := by
  refine ⟨by rfl, ?_, ?_⟩
  · intro i window h
    rcases i with _ | _ | _ | _ | _ | i
    · simp only [List.getElem?_cons_zero, Option.some.injEq] at h
      subst h
      rfl
    · simp only [List.getElem?_cons_succ, List.getElem?_cons_zero, Option.some.injEq] at h
      subst h
      rfl
    · simp only [List.getElem?_cons_succ, List.getElem?_cons_zero, Option.some.injEq] at h
      subst h
      rfl
    · simp only [List.getElem?_cons_succ, List.getElem?_cons_zero, Option.some.injEq] at h
      subst h
      rfl
    · simp only [List.getElem?_cons_succ, List.getElem?_cons_zero, Option.some.injEq] at h
      subst h
      rfl
    · simp at h
  · intro gui initial hinitial
    obtain ⟨static, cycling, listBindings, hs, hc, hl, hparts⟩ :=
      GetInitialKeybindings_parts gui initial hinitial
    have hslen : static.length = 209 := by
      rw [(bindingsOfLiterals_fields gui staticBindings static hs).1]
      rfl
    have hclen : cycling.length = 28 := by
      have := congrArg List.length (appendSideWindowBindings_views gui _ cycling hc)
      simpa using this
    refine ⟨static, cycling, listBindings, hslen, hclen, hl, hparts, ?_, ?_⟩
    · intro b hb
      rcases List.mem_append.mp hb with hb | hb
      · exact bindingsOfLiterals_no_jump gui static hs b hb
      · exact appendSideWindowBindings_no_jump gui _ cycling hc b hb
    · have hlen : (static ++ cycling).length = 237 := by
        rw [List.length_append, hslen, hclen]
      rw [hparts, List.append_assoc (static ++ cycling), List.drop_left' hlen,
        List.take_left' (by rfl)]

/-! ### Custom commands: an invalid prompt type at run time -/

/-- C25. For a custom command in which a prompt, at any position, has a type
other than `input` and `menu`, the handler returns the result of the error
panel about the prompt type and leaves no callback: whatever the user would
answer, the only call made is that error panel; no prompt and no menu is
opened, no template is resolved and nothing is executed. -/
theorem invalid_prompt_type_atomic (gui : CommandCollaborators) (cmd : CustomCommand)
    (hinvalid : ∃ p ∈ cmd.Prompts, p.PromptType ≠ "input" ∧ p.PromptType ≠ "menu") :
    handleCustomCommandKeybinding gui cmd =
      .done [.createErrorPanel
        "custom command prompt must have a type of \x27input\x27 or \x27menu\x27"] ∧
    (∀ answers : List Answer,
      (handleCustomCommandKeybinding gui cmd).trace answers = [promptTypeErrorPanel]) ∧
    (handleCustomCommandKeybinding gui cmd).events.filter Event.isModal = [] ∧
    (handleCustomCommandKeybinding gui cmd).events.filter Event.isResolveTemplate = [] ∧
    (handleCustomCommandKeybinding gui cmd).events.filter Event.isExecution = [] := by
  obtain ⟨p, hp, h1, h2⟩ := hinvalid
  have hrun : handleCustomCommandKeybinding gui cmd = .done [promptTypeErrorPanel] := by
    apply (handleCustomCommandKeybinding_eq gui cmd).2
    refine ⟨p, hp, ?_⟩
    rintro (h | h)
    · exact h1 h
    · exact h2 h
  rw [hrun]
  refine ⟨rfl, fun answers => Run.trace_done _ answers, rfl, rfl, rfl⟩

/-- Witness of C25: the second prompt of `inputThenConfirmCommand` has the
type `confirm`; its handler opens no input prompt for the first one and only
raises the error panel. -/
theorem invalid_prompt_type_atomic_witness :
    (handleCustomCommandKeybinding demoGui inputThenConfirmCommand).trace [.confirm "src"] =
      [promptTypeErrorPanel] ∧
    (handleCustomCommandKeybinding demoGui inputThenConfirmCommand).events.filter
      Event.isModal = [] :=
  ⟨(invalid_prompt_type_atomic demoGui inputThenConfirmCommand
      ⟨{ PromptType := "confirm", Title := "Sure?", InitialValue := "", Options := [] },
        by decide, by decide, by decide⟩).2.1 [.confirm "src"],
   (invalid_prompt_type_atomic demoGui inputThenConfirmCommand
      ⟨{ PromptType := "confirm", Title := "Sure?", InitialValue := "", Options := [] },
        by decide, by decide, by decide⟩).2.2.1⟩

/-! ### `PrepareSubProcess` on a command without a field -/

/-- C26, the failing input. When the argument vector of the command is empty
the access `splitCmd[0]` of `PrepareSubProcess` is out of range and the
method panics; the empty string and a string of white space have an empty
argument vector. The custom command `typedSubprocessCommand`, whose
`subprocess` is set, resolves to the empty string when the user confirms an
empty input, and its handler panics in `PrepareSubProcess`. When the vector
is not empty both accesses are in range. -/
theorem PrepareSubProcess_empty_argv_panics :
    (∀ (gui : CommandCollaborators) (command : String), gui.ToArgv command = [] →
      PrepareSubProcess gui command =
        [.prepareSubProcess command, .goPanic "index out of range"]) ∧
    (∀ (gui : CommandCollaborators) (command cmdName : String) (commandArgs : List String),
      gui.ToArgv command = cmdName :: commandArgs →
      PrepareSubProcess gui command =
        [.prepareSubProcess command, .osPrepareSubProcess cmdName commandArgs,
         .updateErrSubProcess]) ∧
    fieldsArgv "" = [] ∧
    fieldsArgv "   " = [] ∧
    PrepareSubProcess fieldsGui "" = [.prepareSubProcess "", .goPanic "index out of range"] ∧
    PrepareSubProcess fieldsGui "   " =
      [.prepareSubProcess "   ", .goPanic "index out of range"] ∧
    ((handleCustomCommandKeybinding fieldsGui typedSubprocessCommand).after
        [.confirm ""]).map Run.events =
      some [.resolveTemplate "\x7b\x7bindex .PromptResponses 0\x7d\x7d" [""],
            .prepareSubProcess "", .goPanic "index out of range"] ∧
    ((handleCustomCommandKeybinding fieldsGui typedSubprocessCommand).after
        [.confirm "git status"]).map Run.events =
      some [.resolveTemplate "\x7b\x7bindex .PromptResponses 0\x7d\x7d" ["git status"],
            .prepareSubProcess "git status", .osPrepareSubProcess "git" ["status"],
            .updateErrSubProcess] := by
  refine ⟨?_, ?_, by decide, by decide, by decide, by decide, by decide, by decide⟩
  · intro gui command h
    simp [PrepareSubProcess, h]
  · intro gui command cmdName commandArgs h
    simp [PrepareSubProcess, h]

/-! ### Files panel: the commit handlers and the staged files -/

theorem stagedFilesLoop_eq (files : List File) :
    ∀ result, stagedFilesLoop files result =
      result ++ files.filter fun file => file.HasStagedChanges := by
  induction files with
  | nil =>
    intro result
    simp [stagedFilesLoop]
  | cons file rest ih =>
    intro result
    unfold stagedFilesLoop
    by_cases h : file.HasStagedChanges = true
    · simp [h, ih, List.filter_cons]
    · simp [h, ih, List.filter_cons]

theorem stagedFiles_eq_filter (s : FilesPanelState) :
    stagedFiles s = s.Files.filter fun file => file.HasStagedChanges := by
  simp [stagedFiles, stagedFilesLoop_eq]

theorem promptToStageAllAndRetry_opens (gui : CommitCollaborators)
    (retry : CommitCollaborators → Run) :
    (promptToStageAllAndRetry gui retry).events =
      [.ask (gui.Tr "NoFilesStagedTitle") (gui.Tr "NoFilesStagedPrompt")] ∧
    (promptToStageAllAndRetry gui retry).isDone = false ∧
    (promptToStageAllAndRetry gui retry).events.filter Event.isCommitStep = [] :=
  ⟨rfl, rfl, rfl⟩

/-- C30. `stagedFiles` returns the files of `State.Files` that have staged
changes, in their order. Whenever there is none, each of `handleCommitPress`,
`handleAmendCommitPress` and `handleCommitEditorPress` is
`promptToStageAllAndRetry` with itself as the retry: when it returns, the
stage-all confirmation is open and the only call made is the one that opens
it; the commit-message context is not switched to, the amend confirmation is
not opened and no subprocess is prepared. -/
theorem commit_handlers_gated :
    (∀ s : FilesPanelState, stagedFiles s = s.Files.filter fun file => file.HasStagedChanges) ∧
    (∀ (fuel : Nat) (gui : CommitCollaborators), (stagedFiles gui.State).length = 0 →
      handleCommitPress (fuel + 1) gui =
        promptToStageAllAndRetry gui (handleCommitPress fuel) ∧
      handleAmendCommitPress (fuel + 1) gui =
        promptToStageAllAndRetry gui (handleAmendCommitPress fuel) ∧
      handleCommitEditorPress (fuel + 1) gui =
        promptToStageAllAndRetry gui (handleCommitEditorPress fuel) ∧
      ∀ r ∈ [handleCommitPress (fuel + 1) gui, handleAmendCommitPress (fuel + 1) gui,
             handleCommitEditorPress (fuel + 1) gui],
        r.events = [.ask (gui.Tr "NoFilesStagedTitle") (gui.Tr "NoFilesStagedPrompt")] ∧
        r.isDone = false ∧
        r.events.filter Event.isCommitStep = [] ∧
        r.events.filter Event.isAsk =
          [.ask (gui.Tr "NoFilesStagedTitle") (gui.Tr "NoFilesStagedPrompt")]) := by
  refine ⟨stagedFiles_eq_filter, ?_⟩
  intro fuel gui hempty
  have h1 : handleCommitPress (fuel + 1) gui =
      promptToStageAllAndRetry gui (handleCommitPress fuel) := by
    simp [handleCommitPress, hempty]
  have h2 : handleAmendCommitPress (fuel + 1) gui =
      promptToStageAllAndRetry gui (handleAmendCommitPress fuel) := by
    simp [handleAmendCommitPress, hempty]
  have h3 : handleCommitEditorPress (fuel + 1) gui =
      promptToStageAllAndRetry gui (handleCommitEditorPress fuel) := by
    simp [handleCommitEditorPress, hempty]
  refine ⟨h1, h2, h3, ?_⟩
  intro r hr
  simp only [List.mem_cons, List.mem_singleton, List.not_mem_nil, or_false] at hr
  rcases hr with hr | hr | hr
  · rw [hr, h1]
    exact ⟨rfl, rfl, rfl, rfl⟩
  · rw [hr, h2]
    exact ⟨rfl, rfl, rfl, rfl⟩
  · rw [hr, h3]
    exact ⟨rfl, rfl, rfl, rfl⟩

/-- Witness of C30: in `commitGui` nothing is staged; `handleCommitPress`
only opens the stage-all confirmation, and so does `handleCommitEditorPress`,
which prepares `git commit` only after the confirmation has staged the files
and the retry has found a staged file. -/
theorem commit_handlers_gated_witness :
    stagedFiles commitGui.State = [] ∧
    (handleCommitPress 2 commitGui).events =
      [.ask "NoFilesStagedTitle" "NoFilesStagedPrompt"] ∧
    (handleCommitEditorPress 2 commitGui).events =
      [.ask "NoFilesStagedTitle" "NoFilesStagedPrompt"] ∧
    (handleCommitEditorPress 2 commitGui).trace [.yes] =
      [.ask "NoFilesStagedTitle" "NoFilesStagedPrompt", .stageAll,
       .lockRefreshingFilesMutex, .setIsRefreshingFiles true, .refreshStateSubmoduleConfigs,
       .refreshStateFiles, .updateFilesRender, .setIsRefreshingFiles false,
       .unlockRefreshingFilesMutex,
       .prepareSubProcess "git commit", .osPrepareSubProcess "git" ["commit"],
       .updateErrSubProcess] :=
  ⟨by decide,
   ((commit_handlers_gated.2 1 commitGui (by decide)).2.2.2
      (handleCommitPress 2 commitGui) (by simp)).1,
   ((commit_handlers_gated.2 1 commitGui (by decide)).2.2.2
      (handleCommitEditorPress 2 commitGui) (by simp)).1,
   by decide⟩

/-! ### Custom commands: a template that does not resolve -/

theorem resolveTemplate_ok_of_ok (gui : CommandCollaborators) (t : String) (rs : List String)
    (x : Except String String) (h : resolveTemplate gui t rs = .ok x) (t2 : String)
    (rs2 : List String) : ∃ y, resolveTemplate gui t2 rs2 = .ok y := by
  unfold resolveTemplate at h ⊢
  cases hsel : getSelectedFile gui.State with
  | error msg =>
    rw [hsel] at h
    exact absurd h (by simp)
  | ok selectedFile => exact ⟨_, rfl⟩

theorem Resolving.within_resolveOrSurface (gui : CommandCollaborators) (t : String)
    (rs : List String) : Resolving.Within [t] (resolveOrSurface gui t rs) := by
  intro e he t2 rs2 heq
  subst heq
  unfold resolveOrSurface at he
  split at he <;>
    simp only [List.mem_cons, List.mem_singleton, Event.resolveTemplate.injEq, reduceCtorEq,
      or_false, List.not_mem_nil] at he <;>
    simp [he.1]

theorem Resolving.within_mono {α : Type} (T T2 : List String) (x : Resolving α)
    (h : Resolving.Within T x) (hsub : ∀ t ∈ T, t ∈ T2) : Resolving.Within T2 x :=
  fun e he t rs heq => hsub t (h e he t rs heq)

theorem Resolving.within_pure {α : Type} (T : List String) (a : α) :
    Resolving.Within T (([], some a) : Resolving α) := by
  intro e he
  simp at he

theorem Resolving.within_andThen {α β : Type} (T : List String) (x : Resolving α)
    (f : α → Resolving β) (hx : Resolving.Within T x)
    (hf : ∀ a, Resolving.Within T (f a)) : Resolving.Within T (x.andThen f) := by
  obtain ⟨events, value⟩ := x
  cases value with
  | none => exact hx
  | some a =>
    intro e he t rs heq
    simp only [Resolving.andThen, List.mem_append] at he
    rcases he with he | he
    · exact hx e he t rs heq
    · exact hf a e he t rs heq

theorem resolveOptions_within (gui : CommandCollaborators) (rs : List String)
    (options : List CustomCommandMenuOption) :
    Resolving.Within (options.flatMap fun o => [nameTemplate o, o.Description, o.Value])
      (resolveOptions gui rs options) := by
  induction options with
  | nil => exact Resolving.within_pure _ _
  | cons o rest ih =>
    unfold resolveOptions
    rw [List.flatMap_cons]
    apply Resolving.within_andThen _ _ _
      (Resolving.within_mono _ _ _ (Resolving.within_resolveOrSurface gui _ rs)
        (by intro t ht; simp only [List.mem_singleton] at ht; simp [ht]))
    intro name
    apply Resolving.within_andThen _ _ _
      (Resolving.within_mono _ _ _ (Resolving.within_resolveOrSurface gui _ rs)
        (by intro t ht; simp only [List.mem_singleton] at ht; simp [ht]))
    intro description
    apply Resolving.within_andThen _ _ _
      (Resolving.within_mono _ _ _ (Resolving.within_resolveOrSurface gui _ rs)
        (by intro t ht; simp only [List.mem_singleton] at ht; simp [ht]))
    intro value
    apply Resolving.within_andThen _ _ _
      (Resolving.within_mono _ _ _ ih (by intro t ht; exact List.mem_append_right _ ht))
    intro items
    exact Resolving.within_pure _ _

theorem resolveOptions_all_ok (gui : CommandCollaborators) (rs : List String)
    (options : List CustomCommandMenuOption) (events : List Event)
    (items : List ResolvedOption) (h : resolveOptions gui rs options = (events, some items)) :
    ∀ o ∈ options, ∀ t ∈ [nameTemplate o, o.Description, o.Value],
      ∃ str, resolveTemplate gui t rs = .ok (.ok str) := by
  induction options generalizing events items with
  | nil =>
    intro o ho
    simp at ho
  | cons o rest ih =>
    unfold resolveOptions at h
    obtain ⟨e1, name, e1r, h1, h, _⟩ := Resolving.andThen_some _ _ _ _ h
    obtain ⟨e2, description, e2r, h2, h, _⟩ := Resolving.andThen_some _ _ _ _ h
    obtain ⟨e3, value, e3r, h3, h, _⟩ := Resolving.andThen_some _ _ _ _ h
    obtain ⟨e4, rest_items, e4r, h4, h, _⟩ := Resolving.andThen_some _ _ _ _ h
    intro o2 ho2 t ht
    rcases List.mem_cons.mp ho2 with ho2 | ho2
    · subst ho2
      simp only [List.mem_cons, List.mem_singleton, List.not_mem_nil, or_false] at ht
      rcases ht with ht | ht | ht
      · exact ⟨name, by rw [ht]; exact (resolveOrSurface_some gui _ rs e1 name h1).1⟩
      · exact ⟨description, by
          rw [ht]; exact (resolveOrSurface_some gui _ rs e2 description h2).1⟩
      · exact ⟨value, by rw [ht]; exact (resolveOrSurface_some gui _ rs e3 value h3).1⟩
    · exact ih e4 rest_items h4 o2 ho2 t ht

theorem resolveInput_layer (gui : CommandCollaborators) (p : CustomCommandPrompt)
    (rs : List String) (hin : p.PromptType = "input") :
    Resolving.Within (layerTemplates p) (resolveInput gui p rs) ∧
    (∀ events v, resolveInput gui p rs = (events, some v) →
      ∀ t ∈ layerTemplates p, ∃ str, resolveTemplate gui t rs = .ok (.ok str)) := by
  have hT : layerTemplates p = [p.Title, p.InitialValue] := by simp [layerTemplates, hin]
  rw [hT]
  constructor
  · unfold resolveInput
    apply Resolving.within_andThen _ _ _
      (Resolving.within_mono _ _ _ (Resolving.within_resolveOrSurface gui _ rs)
        (by intro t ht; simp only [List.mem_singleton] at ht; simp [ht]))
    intro title
    apply Resolving.within_andThen _ _ _
      (Resolving.within_mono _ _ _ (Resolving.within_resolveOrSurface gui _ rs)
        (by intro t ht; simp only [List.mem_singleton] at ht; simp [ht]))
    intro initialValue
    exact Resolving.within_pure _ _
  · intro events v h t ht
    obtain ⟨title, initialValue⟩ := v
    unfold resolveInput at h
    obtain ⟨e1, a1, e1r, h1, h, _⟩ := Resolving.andThen_some _ _ _ _ h
    obtain ⟨e2, a2, e2r, h2, h, _⟩ := Resolving.andThen_some _ _ _ _ h
    simp only [List.mem_cons, List.mem_singleton, List.not_mem_nil, or_false] at ht
    rcases ht with ht | ht
    · exact ⟨a1, by rw [ht]; exact (resolveOrSurface_some gui _ rs e1 a1 h1).1⟩
    · exact ⟨a2, by rw [ht]; exact (resolveOrSurface_some gui _ rs e2 a2 h2).1⟩

theorem resolveMenu_layer (gui : CommandCollaborators) (p : CustomCommandPrompt)
    (rs : List String) (hin : p.PromptType ≠ "input") :
    Resolving.Within (layerTemplates p) (resolveMenu gui p rs) ∧
    (∀ events v, resolveMenu gui p rs = (events, some v) →
      ∀ t ∈ layerTemplates p, ∃ str, resolveTemplate gui t rs = .ok (.ok str)) := by
  have hT : layerTemplates p =
      p.Title :: p.Options.flatMap fun o => [nameTemplate o, o.Description, o.Value] := by
    simp [layerTemplates, hin]
  rw [hT]
  constructor
  · unfold resolveMenu
    apply Resolving.within_andThen _ _ _
      (Resolving.within_mono _ _ _ (resolveOptions_within gui rs p.Options)
        (by intro t ht; exact List.mem_cons_of_mem _ ht))
    intro items
    apply Resolving.within_andThen _ _ _
      (Resolving.within_mono _ _ _ (Resolving.within_resolveOrSurface gui _ rs)
        (by intro t ht; simp only [List.mem_singleton] at ht; simp [ht]))
    intro title
    exact Resolving.within_pure _ _
  · intro events v h t ht
    obtain ⟨items, title⟩ := v
    unfold resolveMenu at h
    obtain ⟨e1, a1, e1r, h1, h, _⟩ := Resolving.andThen_some _ _ _ _ h
    obtain ⟨e2, a2, e2r, h2, h, _⟩ := Resolving.andThen_some _ _ _ _ h
    rcases List.mem_cons.mp ht with ht | ht
    · exact ⟨a2, by rw [ht]; exact (resolveOrSurface_some gui _ rs e2 a2 h2).1⟩
    · obtain ⟨o, ho, hto⟩ := List.mem_flatMap.mp ht
      exact resolveOptions_all_ok gui rs p.Options e1 a1 h1 o ho t hto

theorem Resolving.aborts {α : Type} (gui : CommandCollaborators) (R : List String)
    (T : List String) (x : Resolving α) (hs : Resolving.Sound gui R x)
    (hw : Resolving.Within T x)
    (hall : ∀ events v, x = (events, some v) →
      ∀ t ∈ T, ∃ str, resolveTemplate gui t R = .ok (.ok str))
    (t : String) (err : String) (ht : t ∈ T)
    (hfail : resolveTemplate gui t R = .ok (.error err)) :
    ∃ pre t1 err1, t1 ∈ T ∧ resolveTemplate gui t1 R = .ok (.error err1) ∧
      okResolves gui R pre ∧
      x = (pre ++ [.resolveTemplate t1 R, .surfaceError err1], none) := by
  obtain ⟨events, value⟩ := x
  cases value with
  | some v =>
    obtain ⟨str, hstr⟩ := hall events v rfl t ht
    rw [hfail] at hstr
    exact absurd hstr (by simp)
  | none =>
    rcases hs with ⟨hsome, _⟩ | ⟨_, pre, t1, tail, hpre, hfailed, heq⟩
    · simp at hsome
    · simp only at heq
      rcases hfailed with ⟨err1, hres, htail⟩ | ⟨msg, hres, _⟩
      · refine ⟨pre, t1, err1, ?_, hres, hpre, by rw [heq, htail]⟩
        apply hw (.resolveTemplate t1 R) _ t1 R rfl
        simp [heq, htail]
      · obtain ⟨y, hy⟩ := resolveTemplate_ok_of_ok gui t R _ hfail t1 R
        rw [hres] at hy
        exact absurd hy (by simp)

theorem aborted_run (gui : CommandCollaborators) (R : List String) (pre : List Event)
    (t1 err1 : String) (hpre : okResolves gui R pre) :
    (Run.done (pre ++ [.resolveTemplate t1 R, .surfaceError err1])).events.getLast? =
      some (.surfaceError err1) ∧
    (Run.done (pre ++ [.resolveTemplate t1 R, .surfaceError err1])).events.filter
      Event.isModal = [] ∧
    (Run.done (pre ++ [.resolveTemplate t1 R, .surfaceError err1])).events.filter
      Event.isExecution = [] ∧
    (∀ a, (Run.done (pre ++ [.resolveTemplate t1 R, .surfaceError err1])).answer a = none) := by
  obtain ⟨hm, he⟩ := okResolves_filter gui R pre hpre
  refine ⟨by simp [Run.events], by simp [Run.events, hm, Event.isModal],
    by simp [Run.events, he, Event.isExecution], ?_⟩
  intro a
  cases a <;> rfl

/-- C4. Let the prompts of a custom command have the types `input` and
`menu`, and let a run be reached by answers to the first modals. When a
template of the prompt whose turn it is (its title, the initial value of an
input prompt, the name, description or value of an option of a menu) does not
resolve against the response vector, the layer of that prompt resolves
templates of the prompt up to the first one that fails, surfaces its error
and returns: the modal of the prompt is not opened, no callback is left, so no
inner layer is invoked, and nothing is executed. When all the prompts are
answered and the template of the command does not resolve, the calls are the
failed resolution and `surfaceError`. -/
theorem template_failure_aborts (gui : CommandCollaborators) (cmd : CustomCommand)
    (htypes : ∀ p ∈ cmd.Prompts, p.PromptType = "input" ∨ p.PromptType = "menu")
    (answers : List Answer) (seg : Run)
    (hseg : (handleCustomCommandKeybinding gui cmd).after answers = some seg) :
    (∀ (p : CustomCommandPrompt) (t err : String),
      cmd.Prompts[answers.length]? = some p → t ∈ layerTemplates p →
      resolveTemplate gui t
        (responsesAfter gui cmd.Prompts 0 (List.replicate cmd.Prompts.length "") answers) =
          .ok (.error err) →
      ∃ pre t1 err1, t1 ∈ layerTemplates p ∧
        resolveTemplate gui t1
          (responsesAfter gui cmd.Prompts 0 (List.replicate cmd.Prompts.length "") answers) =
            .ok (.error err1) ∧
        okResolves gui
          (responsesAfter gui cmd.Prompts 0 (List.replicate cmd.Prompts.length "") answers)
          pre ∧
        seg = .done (pre ++
          [.resolveTemplate t1
            (responsesAfter gui cmd.Prompts 0 (List.replicate cmd.Prompts.length "") answers),
           .surfaceError err1]) ∧
        seg.events.getLast? = some (.surfaceError err1) ∧
        seg.events.filter Event.isModal = [] ∧
        seg.events.filter Event.isExecution = [] ∧
        (∀ a, seg.answer a = none)) ∧
    (∀ err : String, answers.length = cmd.Prompts.length →
      resolveTemplate gui cmd.Command
        (responsesAfter gui cmd.Prompts 0 (List.replicate cmd.Prompts.length "") answers) =
          .ok (.error err) →
      seg = .done
        [.resolveTemplate cmd.Command
          (responsesAfter gui cmd.Prompts 0 (List.replicate cmd.Prompts.length "") answers),
         .surfaceError err]) := by
  rcases reachable_node gui cmd answers seg hseg with ⟨_, p, hp, hbad⟩ | ⟨_, _, hchain⟩
  · exact absurd (htypes p hp) hbad
  · generalize responsesAfter gui cmd.Prompts 0 (List.replicate cmd.Prompts.length "")
      answers = R at hchain ⊢
    constructor
    · intro p t err hp ht hfail
      obtain ⟨hlt, hpe⟩ := List.getElem?_eq_some_iff.mp hp
      have hd : cmd.Prompts.drop answers.length =
          p :: cmd.Prompts.drop (answers.length + 1) := by
        rw [← hpe]
        exact List.drop_eq_getElem_cons hlt
      rw [hd] at hchain
      simp only [promptChain] at hchain
      by_cases hin : p.PromptType = "input"
      · simp only [hin, if_true, inputLayer] at hchain
        obtain ⟨hw, hall⟩ := resolveInput_layer gui p R hin
        obtain ⟨pre, t1, err1, ht1, hres1, hpre, hx⟩ :=
          Resolving.aborts gui R (layerTemplates p) (resolveInput gui p R)
            (resolveInput_sound gui p R) hw
            (fun events v hv => hall events v hv) t err ht hfail
        rw [hx] at hchain
        simp only at hchain
        obtain ⟨h1, h2, h3, h4⟩ := aborted_run gui R pre t1 err1 hpre
        rw [hchain]
        exact ⟨pre, t1, err1, ht1, hres1, hpre, rfl, h1, h2, h3, h4⟩
      · simp only [hin, if_false, menuLayer] at hchain
        obtain ⟨hw, hall⟩ := resolveMenu_layer gui p R hin
        obtain ⟨pre, t1, err1, ht1, hres1, hpre, hx⟩ :=
          Resolving.aborts gui R (layerTemplates p) (resolveMenu gui p R)
            (resolveMenu_sound gui p R) hw
            (fun events v hv => hall events v hv) t err ht hfail
        rw [hx] at hchain
        simp only at hchain
        obtain ⟨h1, h2, h3, h4⟩ := aborted_run gui R pre t1 err1 hpre
        rw [hchain]
        exact ⟨pre, t1, err1, ht1, hres1, hpre, rfl, h1, h2, h3, h4⟩
    · intro err hN hfail
      have hd : cmd.Prompts.drop answers.length = [] := by
        rw [hN]
        exact List.drop_length _
      rw [hd] at hchain
      simp only [promptChain] at hchain
      rw [hchain]
      simp [runCustomCommand, resolveOrSurface, hfail]

/-- Witness of C4: the description `?` of the option of the menu of
`brokenDescriptionCommand` does not resolve; the handler resolves the name of
the option, fails on the description, surfaces the error and opens no menu.
The title `?` of the second prompt of `brokenTitleCommand` does not resolve
either: after the answer to the first prompt the error is surfaced. -/
theorem template_failure_aborts_witness :
    (handleCustomCommandKeybinding demoGui brokenDescriptionCommand).events =
      [.resolveTemplate "origin" [""], .resolveTemplate "?" [""],
       .surfaceError "unknown placeholder"] ∧
    (handleCustomCommandKeybinding demoGui brokenDescriptionCommand).events.filter
      Event.isModal = [] ∧
    (handleCustomCommandKeybinding demoGui brokenDescriptionCommand).answer (.press 0) = none ∧
    ((handleCustomCommandKeybinding demoGui brokenTitleCommand).after [.confirm "v1"]).map
      Run.events =
        some [.resolveTemplate "?" ["v1", ""], .surfaceError "unknown placeholder"] := by
  obtain ⟨pre, t1, err1, _, _, _, hdone, _, hmodal, _, hanswer⟩ :=
    (template_failure_aborts demoGui brokenDescriptionCommand (by decide) []
      (handleCustomCommandKeybinding demoGui brokenDescriptionCommand) rfl).1
      { PromptType := "menu", Title := "Remote", InitialValue := "",
        Options := [ { Name := "origin", Description := "?", Value := "origin" } ] }
      "?" "unknown placeholder" rfl (by decide) rfl
  exact ⟨by decide, hmodal, hanswer _, by decide⟩

/-! ### Custom commands: the order of the prompts -/

/-- The order of the prompts. For a custom command whose prompts all have the
type `input` or `menu`, a run is reached by at most as many answers as there
are prompts. The run reached after the answers to the first `k` modals, for
`k` below the number of prompts, when the templates of prompt `k` resolve
against the response vector, has opened the modal of prompt `k` and only that
one, has executed nothing, and accepts the answer to that prompt. The run
reached after the answers to all the prompts is the innermost function; when
the template of the command resolves, its calls are those of the execution
of the resolved command. -/
theorem prompt_chain_ordering (gui : CommandCollaborators) (cmd : CustomCommand)
    (htypes : ∀ p ∈ cmd.Prompts, p.PromptType = "input" ∨ p.PromptType = "menu")
    (answers : List Answer) (seg : Run)
    (hseg : (handleCustomCommandKeybinding gui cmd).after answers = some seg) :
    answers.length ≤ cmd.Prompts.length ∧
    (∀ p, cmd.Prompts[answers.length]? = some p →
      (∀ t ∈ layerTemplates p, ∃ str,
        resolveTemplate gui t
          (responsesAfter gui cmd.Prompts 0 (List.replicate cmd.Prompts.length "") answers) =
            .ok (.ok str)) →
      seg.events.filter Event.isModal =
        [openedModal gui p
          (responsesAfter gui cmd.Prompts 0 (List.replicate cmd.Prompts.length "") answers)] ∧
      seg.events.filter Event.isExecution = [] ∧
      (p.PromptType = "input" → ∀ str, (seg.answer (.confirm str)).isSome = true) ∧
      (p.PromptType = "menu" → ∀ i, i < p.Options.length →
        (seg.answer (.press i)).isSome = true)) ∧
    (answers.length = cmd.Prompts.length →
      seg = runCustomCommand gui cmd
        (responsesAfter gui cmd.Prompts 0 (List.replicate cmd.Prompts.length "") answers) ∧
      seg.isDone = true ∧
      ∀ cmdStr,
        resolveTemplate gui cmd.Command
          (responsesAfter gui cmd.Prompts 0 (List.replicate cmd.Prompts.length "") answers) =
          .ok (.ok cmdStr) →
        seg.events.filter Event.isModal = [] ∧
        (cmd.Subprocess = true →
          seg.events =
            [.resolveTemplate cmd.Command
              (responsesAfter gui cmd.Prompts 0 (List.replicate cmd.Prompts.length "")
                answers)] ++ PrepareSubProcess gui cmdStr ∧
          ∀ cmdName commandArgs, gui.ToArgv cmdStr = cmdName :: commandArgs →
            seg.events =
              [.resolveTemplate cmd.Command
                (responsesAfter gui cmd.Prompts 0 (List.replicate cmd.Prompts.length "")
                  answers),
               .prepareSubProcess cmdStr, .osPrepareSubProcess cmdName commandArgs,
               .updateErrSubProcess]) ∧
        (cmd.Subprocess = false →
          seg.events =
            [.resolveTemplate cmd.Command
              (responsesAfter gui cmd.Prompts 0 (List.replicate cmd.Prompts.length "")
                answers),
             .withWaitingStatus (loadingTextOf gui cmd),
             .osPrepareSubProcess cmdStr [], .runCommand cmdStr] ++
            (match gui.RunCommand cmdStr with
             | some err => [.surfaceError err]
             | none => [.refreshSidePanels]))) := by
  rcases reachable_node gui cmd answers seg hseg with ⟨_, p, hp, hbad⟩ | ⟨_, hlen, hchain⟩
  · exact absurd (htypes p hp) hbad
  · generalize responsesAfter gui cmd.Prompts 0 (List.replicate cmd.Prompts.length "")
      answers = R at hchain ⊢
    refine ⟨hlen, ?_, ?_⟩
    · intro p hp hres
      obtain ⟨hlt, hpe⟩ := List.getElem?_eq_some_iff.mp hp
      have hpmem : p ∈ cmd.Prompts := List.getElem?_mem hp
      have hd : cmd.Prompts.drop answers.length =
          p :: cmd.Prompts.drop (answers.length + 1) := by
        rw [← hpe]
        exact List.drop_eq_getElem_cons hlt
      rw [hd] at hchain
      simp only [promptChain] at hchain
      by_cases hin : p.PromptType = "input"
      · simp only [hin, if_true, inputLayer] at hchain
        obtain ⟨title, htitle⟩ := hres p.Title (by simp [layerTemplates, hin])
        obtain ⟨initialValue, hinitial⟩ := hres p.InitialValue (by simp [layerTemplates, hin])
        have hst : resolveInput gui p R =
            ([.resolveTemplate p.Title R, .resolveTemplate p.InitialValue R],
              some (title, initialValue)) := by
          unfold resolveInput
          rw [resolveOrSurface_ok gui _ _ title htitle,
            resolveOrSurface_ok gui _ _ initialValue hinitial]
          rfl
        rw [hst] at hchain
        simp only at hchain
        rw [hchain]
        refine ⟨?_, ?_, ?_, ?_⟩
        · simp [Run.events, Event.isModal, openedModal, hin,
            resolved_eq gui _ _ title htitle, resolved_eq gui _ _ initialValue hinitial]
        · simp [Run.events, Event.isExecution]
        · intro _ str
          rfl
        · intro hmenu
          rw [hin] at hmenu
          exact absurd hmenu (by decide)
      · have hmenu : p.PromptType = "menu" := by
          rcases htypes p hpmem with h | h
          · exact absurd h hin
          · exact h
        simp only [hin, if_false, menuLayer] at hchain
        obtain ⟨title, htitle⟩ := hres p.Title (by simp [layerTemplates, hin])
        obtain ⟨e1, items, hopts⟩ := resolveOptions_ok gui R
          p.Options (fun o ho t ht => hres t (by
            simp only [layerTemplates, hin, if_false, List.mem_cons, List.mem_flatMap]
            exact Or.inr ⟨o, ho, by simpa using ht⟩))
        have hitems := resolveOptions_some gui R _ e1 items hopts
        have hok1 : okResolves gui R e1 := by
          rcases resolveOptions_sound gui R p.Options with ⟨_, h⟩ | ⟨h, _⟩
          · rw [hopts] at h
            exact h
          · rw [hopts] at h
            simp at h
        have hst : resolveMenu gui p R =
            (e1 ++ [.resolveTemplate p.Title R], some (items, title)) := by
          unfold resolveMenu
          rw [hopts, resolveOrSurface_ok gui _ _ title htitle]
          simp [Resolving.andThen]
        rw [hst] at hchain
        simp only at hchain
        rw [hchain]
        obtain ⟨hm, he⟩ := okResolves_filter gui R e1 hok1
        refine ⟨?_, ?_, ?_, ?_⟩
        · simp [Run.events, Event.isModal, openedModal, hin, hm, hitems,
            resolved_eq gui _ _ title htitle]
        · simp [Run.events, Event.isExecution, he]
        · intro hinput
          exact absurd hinput hin
        · intro _ i hi
          simp [Run.answer, hitems, hi]
    · intro hN
      have hd : cmd.Prompts.drop answers.length = [] := by
        rw [hN]
        exact List.drop_length _
      rw [hd] at hchain
      simp only [promptChain] at hchain
      refine ⟨hchain, ?_, ?_⟩
      · obtain ⟨events, hdone⟩ := runCustomCommand_done gui cmd R
        rw [hchain, hdone]
        rfl
      · intro cmdStr hcmd
        obtain ⟨hsub, hbg⟩ := subprocess_bypass gui cmd R cmdStr hcmd
        have hrun := runCustomCommand_resolved gui cmd R cmdStr hcmd
        rw [hchain]
        refine ⟨?_, ?_, ?_⟩
        · rw [hrun]
          by_cases hs : cmd.Subprocess = true
          · have hf : (PrepareSubProcess gui cmdStr).filter Event.isModal = [] :=
              List.filter_eq_nil_iff.mpr fun e he => by
                simp [((PrepareSubProcess_events gui cmdStr).2.1 e he).2.1]
            simp [hs, Run.events, List.filter_append, hf, Event.isModal]
          · simp only [hs, Run.events]
            cases gui.RunCommand cmdStr <;> simp [Event.isModal]
        · intro hs
          obtain ⟨h1, _, _, _, h5⟩ := hsub hs
          refine ⟨by rw [h1]; rfl, ?_⟩
          intro cmdName commandArgs hargv
          rw [h5 cmdName commandArgs hargv]
          rfl
        · intro hs
          rw [(hbg hs).1]
          rfl

/-- The order of the prompts of `pushCommand`: after the answer to its input
prompt the menu of its second prompt is open, nothing is executed, and the
menu accepts a press; after both answers the command is run through
`RunCommand`. -/
theorem prompt_chain_ordering_pushCommand :
    ∃ seg, (handleCustomCommandKeybinding demoGui pushCommand).after [.confirm "dev"] = some seg ∧
      seg.events.filter Event.isModal =
        [.createMenu "Remote[dev,]"
          [["origin[dev,]", "default[dev,]"], ["up[dev,]", "other[dev,]"]]] ∧
      seg.events.filter Event.isExecution = [] ∧
      (seg.answer (.press 1)).isSome = true ∧
      ((handleCustomCommandKeybinding demoGui pushCommand).after
          [.confirm "dev", .press 1]).map Run.events =
        some [.resolveTemplate "git push" ["dev", "upstream[dev,]"],
              .withWaitingStatus "runningCustomCommandStatus",
              .osPrepareSubProcess "git push[dev,upstream[dev,]]" [],
              .runCommand "git push[dev,upstream[dev,]]", .refreshSidePanels] := by
  cases h : (handleCustomCommandKeybinding demoGui pushCommand).after [.confirm "dev"] with
  | none =>
    have hsome : ((handleCustomCommandKeybinding demoGui pushCommand).after
        [.confirm "dev"]).isSome = true := by decide
    rw [h] at hsome
    exact absurd hsome (by decide)
  | some seg =>
    obtain ⟨hmodal, hexec, _, hpress⟩ :=
      (prompt_chain_ordering demoGui pushCommand (by decide) [.confirm "dev"] seg h).2.1
        { PromptType := "menu", Title := "Remote", InitialValue := "",
          Options := [ { Name := "", Description := "default", Value := "origin" },
                       { Name := "up", Description := "other", Value := "upstream" } ] } rfl
        (fun t ht => pushCommand_resolvable t
          (List.mem_cons_of_mem _ (List.mem_flatMap.mpr ⟨_, by decide, ht⟩)) _)
    refine ⟨seg, rfl, ?_, hexec, hpress rfl 1 (by decide), by decide⟩
    rw [hmodal]
    decide

/-- C2, the failing input. The one prompt of `typedSubprocessCommand` is an
input prompt, and its templates resolve: the handler opens the modal of the
prompt first. When the user confirms the empty string the command template
resolves to the empty string, and the confirmation does not run the command:
`PrepareSubProcess` panics on the empty argument vector before
`OSCommand.PrepareSubProcess` is called. With the answer `git status` the
confirmation runs the command. -/
theorem prompt_chain_last_confirm_panics :
    typedSubprocessCommand.Prompts.map CustomCommandPrompt.PromptType = ["input"] ∧
    typedSubprocessCommand.Subprocess = true ∧
    resolveTemplate fieldsGui "Command" [""] = .ok (.ok "Command") ∧
    resolveTemplate fieldsGui "" [""] = .ok (.ok "") ∧
    resolveTemplate fieldsGui typedSubprocessCommand.Command [""] = .ok (.ok "") ∧
    (handleCustomCommandKeybinding fieldsGui typedSubprocessCommand).events =
      [.resolveTemplate "Command" [""], .resolveTemplate "" [""], .prompt "Command" ""] ∧
    ((handleCustomCommandKeybinding fieldsGui typedSubprocessCommand).after
        [.confirm ""]).map Run.events =
      some [.resolveTemplate "\x7b\x7bindex .PromptResponses 0\x7d\x7d" [""],
            .prepareSubProcess "", .goPanic "index out of range"] ∧
    ((handleCustomCommandKeybinding fieldsGui typedSubprocessCommand).after
        [.confirm "git status"]).map Run.events =
      some [.resolveTemplate "\x7b\x7bindex .PromptResponses 0\x7d\x7d" ["git status"],
            .prepareSubProcess "git status", .osPrepareSubProcess "git" ["status"],
            .updateErrSubProcess] := by
  refine ⟨rfl, rfl, rfl, rfl, rfl, by decide, by decide, by decide⟩

/-! ### Custom commands: the subprocess path on a command without a field -/

/-- C15, the failing input. The command template of `typedSubprocessCommand`,
whose `subprocess` is set, resolves against the answer `""` to the empty
string; the innermost function hands it to `PrepareSubProcess`, which panics
on the empty argument vector: the function does not return nil. For every
custom command with `subprocess` set whose resolved command has a non-empty
argument vector the calls are the resolution and the three calls of
`PrepareSubProcess`, and the function returns; with `subprocess` unset the
command goes through `WithWaitingStatus` and `RunCommand`. -/
theorem subprocess_empty_command_panics :
    typedSubprocessCommand.Subprocess = true ∧
    resolveTemplate fieldsGui typedSubprocessCommand.Command [""] = .ok (.ok "") ∧
    runCustomCommand fieldsGui typedSubprocessCommand [""] =
      .done [.resolveTemplate "\x7b\x7bindex .PromptResponses 0\x7d\x7d" [""],
             .prepareSubProcess "", .goPanic "index out of range"] ∧
    runCustomCommand fieldsGui typedSubprocessCommand ["git status"] =
      .done [.resolveTemplate "\x7b\x7bindex .PromptResponses 0\x7d\x7d" ["git status"],
             .prepareSubProcess "git status", .osPrepareSubProcess "git" ["status"],
             .updateErrSubProcess] ∧
    (∀ (gui : CommandCollaborators) (cmd : CustomCommand) (rs : List String)
      (cmdStr cmdName : String) (commandArgs : List String),
      resolveTemplate gui cmd.Command rs = .ok (.ok cmdStr) → cmd.Subprocess = true →
      gui.ToArgv cmdStr = cmdName :: commandArgs →
      runCustomCommand gui cmd rs =
        .done [.resolveTemplate cmd.Command rs, .prepareSubProcess cmdStr,
               .osPrepareSubProcess cmdName commandArgs, .updateErrSubProcess]) ∧
    (∀ (gui : CommandCollaborators) (cmd : CustomCommand) (rs : List String) (cmdStr : String),
      resolveTemplate gui cmd.Command rs = .ok (.ok cmdStr) → cmd.Subprocess = true →
      gui.ToArgv cmdStr = [] →
      runCustomCommand gui cmd rs =
        .done [.resolveTemplate cmd.Command rs, .prepareSubProcess cmdStr,
               .goPanic "index out of range"]) ∧
    (∀ (gui : CommandCollaborators) (cmd : CustomCommand) (rs : List String) (cmdStr : String),
      resolveTemplate gui cmd.Command rs = .ok (.ok cmdStr) → cmd.Subprocess = false →
      runCustomCommand gui cmd rs =
        .done ([.resolveTemplate cmd.Command rs, .withWaitingStatus (loadingTextOf gui cmd),
            .osPrepareSubProcess cmdStr [], .runCommand cmdStr] ++
          (match gui.RunCommand cmdStr with
           | some err => [.surfaceError err]
           | none => [.refreshSidePanels])) ∧
      (runCustomCommand gui cmd rs).events.filter Event.isPrepareSubProcess = []) := by
  refine ⟨rfl, rfl, rfl, rfl, ?_, ?_, ?_⟩
  · intro gui cmd rs cmdStr cmdName commandArgs hres hs hargv
    exact ((subprocess_bypass gui cmd rs cmdStr hres).1 hs).2.2.2.2 cmdName commandArgs hargv
  · intro gui cmd rs cmdStr hres hs hargv
    rw [((subprocess_bypass gui cmd rs cmdStr hres).1 hs).1]
    simp [PrepareSubProcess, hargv]
  · intro gui cmd rs cmdStr hres hs
    exact ⟨((subprocess_bypass gui cmd rs cmdStr hres).2 hs).1,
      ((subprocess_bypass gui cmd rs cmdStr hres).2 hs).2.2⟩

end Lazygit
